import Mathlib

/-!
DHT11 single-wire decoder and threshold monitor.

A shallow embedding of `main/boards/bread-compact-wifi/dht11.cc` (class `DHT11`) and of
`CompactWifiBoard::ReadDht11Data` in `compact_wifi_board.cc`.

* C `float` values are modelled by the rational numbers they denote.  Every arithmetic
  operation on floats rounds its exact result to IEEE-754 binary32 (round to nearest,
  ties to even) through `f32round`.  Infinities and NaN are outside the model: no value
  computed by the decoder comes anywhere near the overflow threshold, and the thresholds of
  the board are taken to be finite numbers.
* The GPIO pin and the microsecond clock are modelled by the sequence of values that
  successive `gpio_get_level` and `esp_timer_get_time` calls return.  The program is
  sequential and deterministic, so every behaviour of the environment is such a pair of
  sequences.
* The log lines of `DHT11::Read` and `ReadData` name the return statement that was taken
  (`ReadStatus`, `ReadDataError`); the log lines and the HTTP post of the poll are recorded
  as `BoardEvent`s.
* The busy-wait loops of the source have no iteration bound of their own.  Each loop gets a
  budget of `fuel` iterations; `none` means the budget ran out.
* `int64_t` clock arithmetic is modelled in `Int` (microseconds since boot cannot wrap in
  practice); `uint8_t` arithmetic is modelled in `Nat` with an explicit `% 256`.
-/

/-! ## binary32 arithmetic -/

/-- Nearest integer to `m`, ties going to the even neighbour. -/
def roundHalfEven (m : ℚ) : ℤ :=
  let f := ⌊m⌋
  let r := m - f
  if r < 1 / 2 then f else if 1 / 2 < r then f + 1 else if f % 2 = 0 then f else f + 1

/-- Binary exponent of the binade of `a`, clamped at the subnormal range of binary32. -/
def f32exponent (a : ℚ) : ℤ := max (Int.log 2 a) (-126)

/-- Rounding of an exact result to binary32: 24 significant bits, nearest, ties to even. -/
def f32round (q : ℚ) : ℚ :=
  if q = 0 then 0 else
  let ulp : ℚ := (2 : ℚ) ^ (f32exponent |q| - 23)
  (roundHalfEven (q / ulp) : ℚ) * ulp

/-- Float addition `a + b`. -/
def f32add (a b : ℚ) : ℚ := f32round (a + b)

/-- Float subtraction `a - b`. -/
def f32sub (a b : ℚ) : ℚ := f32round (a - b)

/-- Float division `a / b`. -/
def f32div (a b : ℚ) : ℚ := f32round (a / b)

/-! ## The pin and the clock -/

/-- Pin direction, as in `driver/gpio.h`. -/
inductive gpio_mode_t
  | GPIO_MODE_INPUT
  | GPIO_MODE_OUTPUT
  deriving DecidableEq, Repr

/-- The operations by which the driver acts on the pin. -/
inductive PinOp
  | gpio_set_direction (mode : gpio_mode_t)
  | gpio_set_level (level : Nat)
  | esp_rom_delay_us (us : Nat)
  deriving DecidableEq, Repr

/-- The environment of the driver.  `levels k` is what the `k`-th call of `gpio_get_level`
returns (`true` is level 1), `clock k` what the `k`-th call of `esp_timer_get_time` returns;
`reads` and `ticks` count the calls made so far, `mode` is the current pin direction and
`ops` the operations issued so far, most recent first. -/
structure Pin where
  levels : Nat → Bool
  clock : Nat → Int
  reads : Nat
  ticks : Nat
  mode : gpio_mode_t
  ops : List PinOp

/-- The call `gpio_get_level(pin_)`. -/
def gpio_get_level : Pin → Bool × Pin
  | ⟨levels, clock, reads, ticks, mode, ops⟩ =>
    (levels reads, ⟨levels, clock, reads + 1, ticks, mode, ops⟩)

/-- The call `esp_timer_get_time()`. -/
def esp_timer_get_time : Pin → Int × Pin
  | ⟨levels, clock, reads, ticks, mode, ops⟩ =>
    (clock ticks, ⟨levels, clock, reads, ticks + 1, mode, ops⟩)

/-- The call `gpio_set_direction(pin_, mode)`. -/
def gpio_set_direction (mode : gpio_mode_t) : Pin → Pin
  | ⟨levels, clock, reads, ticks, _, ops⟩ =>
    ⟨levels, clock, reads, ticks, mode, PinOp.gpio_set_direction mode :: ops⟩

/-- The call `gpio_set_level(pin_, level)`. -/
def gpio_set_level (level : Nat) : Pin → Pin
  | ⟨levels, clock, reads, ticks, mode, ops⟩ =>
    ⟨levels, clock, reads, ticks, mode, PinOp.gpio_set_level level :: ops⟩

/-- The call `esp_rom_delay_us(us)`. -/
def esp_rom_delay_us (us : Nat) : Pin → Pin
  | ⟨levels, clock, reads, ticks, mode, ops⟩ =>
    ⟨levels, clock, reads, ticks, mode, PinOp.esp_rom_delay_us us :: ops⟩

/-- The busy-wait loop that occurs six times in `dht11.cc`:
`while (gpio_get_level(pin_) == lvl) { if (esp_timer_get_time() - start_time > 100) return false; }`.
The result is `some (true, p)` when the loop was left because the level changed,
`some (false, p)` when the enclosing function returns through the timeout, and `none` when
`fuel` iterations were not enough. -/
def waitWhile (lvl : Bool) (start_time : Int) : Nat → Pin → Option (Bool × Pin)
  | 0, _ => none
  | fuel + 1, p =>
    if (gpio_get_level p).1 = lvl then
      if (esp_timer_get_time (gpio_get_level p).2).1 - start_time > 100 then
        some (false, (esp_timer_get_time (gpio_get_level p).2).2)
      else waitWhile lvl start_time fuel (esp_timer_get_time (gpio_get_level p).2).2
    else some (true, (gpio_get_level p).2)

/-! ## class DHT11 -/

/-- The data members of `DHT11` (the pin number `pin_` is fixed at construction and is
represented by the `Pin` the methods act on). -/
structure DHT11 where
  temperature_ : ℚ
  humidity_ : ℚ
  data_valid_ : Bool

/-- The `return false` of `ReadData` that was taken, named after its `ESP_LOGE` line. -/
inductive ReadDataError
  | response_timeout
  | response_end_timeout
  | data_start_timeout
  | failed_to_read_byte (i : Nat)
  deriving DecidableEq, Repr

/-- Outcome of `ReadData`: the five bytes of `data`, or the failing return. -/
inductive ReadDataResult
  | ok (data : List Nat)
  | fail (e : ReadDataError)
  deriving DecidableEq, Repr

/-- The return statement of `Read` that was taken, named after its log line. -/
inductive ReadStatus
  | success
  | read_data_failed (e : ReadDataError)
  | checksum_error
  | temperature_out_of_range
  | humidity_out_of_range
  deriving DecidableEq, Repr

/-- The `bool` that `Read` returns. -/
def ReadStatus.toBool : ReadStatus → Bool
  | ReadStatus.success => true
  | _ => false

namespace DHT11

/-- The constant `DHT11_START_SIGNAL_US` of `dht11.h`. -/
def DHT11_START_SIGNAL_US : Nat := 18000

/-- The constructor `DHT11::DHT11(pin)`. -/
def init : DHT11 := { temperature_ := 0, humidity_ := 0, data_valid_ := false }

/-- The getter `GetTemperature`. -/
def GetTemperature (self : DHT11) : ℚ := self.temperature_

/-- The getter `GetHumidity`. -/
def GetHumidity (self : DHT11) : ℚ := self.humidity_

/-- The method `DHT11::ReadBit`.  A timeout in any of its three loops returns `false`, the
same value as a decoded 0 bit. -/
def ReadBit (fuel : Nat) (p : Pin) : Option (Bool × Pin) :=
  match waitWhile true (esp_timer_get_time p).1 fuel (esp_timer_get_time p).2 with
  | none => none
  | some (false, p1) => some (false, p1)
  | some (true, p1) =>
    match waitWhile false (esp_timer_get_time p1).1 fuel (esp_timer_get_time p1).2 with
    | none => none
    | some (false, p2) => some (false, p2)
    | some (true, p2) =>
      match waitWhile true (esp_timer_get_time p2).1 fuel (esp_timer_get_time p2).2 with
      | none => none
      | some (false, p3) => some (false, p3)
      | some (true, p3) =>
        some (decide ((esp_timer_get_time p3).1 - (esp_timer_get_time p2).1 > 50),
          (esp_timer_get_time p3).2)

/-- The loop of `ReadByte`: `n` iterations remain, the next one has `i = n - 1`. -/
def ReadByteLoop (fuel : Nat) : Nat → Nat → Pin → Option (Nat × Pin)
  | 0, byte, p => some (byte, p)
  | i + 1, byte, p =>
    match ReadBit fuel p with
    | none => none
    | some (bit, p1) => ReadByteLoop fuel i (if bit then byte ||| (1 <<< i) else byte) p1

/-- The method `DHT11::ReadByte`: `byte = 0`, eight bits from `i = 7` down to `0`, and
`return true`. -/
def ReadByte (fuel : Nat) (p : Pin) : Option (Bool × Nat × Pin) :=
  match ReadByteLoop fuel 8 0 p with
  | none => none
  | some (byte, p1) => some (true, byte, p1)

/-- The loop `for (int i = 0; i < 5; i++)` of `ReadData`: `n` bytes remain, `data` holds
the bytes read so far in index order. -/
def ReadDataLoop (fuel : Nat) : Nat → List Nat → Pin → Option (ReadDataResult × Pin)
  | 0, data, p => some (ReadDataResult.ok data, p)
  | n + 1, data, p =>
    match ReadByte fuel p with
    | none => none
    | some (false, _, p1) =>
      some (ReadDataResult.fail (ReadDataError.failed_to_read_byte data.length), p1)
    | some (true, byte, p1) => ReadDataLoop fuel n (data ++ [byte]) p1

/-- The start signal of `ReadData`, up to and including the switch to input. -/
def StartSignal (p : Pin) : Pin :=
  gpio_set_direction gpio_mode_t.GPIO_MODE_INPUT
    (esp_rom_delay_us 40
      (gpio_set_level 1
        (esp_rom_delay_us DHT11_START_SIGNAL_US
          (gpio_set_level 0
            (gpio_set_direction gpio_mode_t.GPIO_MODE_OUTPUT p)))))

/-- The part of `ReadData` after the start signal: three bounded waits, then five bytes. -/
def ReadResponse (fuel : Nat) (p0 : Pin) : Option (ReadDataResult × Pin) :=
  match waitWhile true (esp_timer_get_time p0).1 fuel (esp_timer_get_time p0).2 with
  | none => none
  | some (false, p1) => some (ReadDataResult.fail ReadDataError.response_timeout, p1)
  | some (true, p1) =>
    match waitWhile false (esp_timer_get_time p1).1 fuel (esp_timer_get_time p1).2 with
    | none => none
    | some (false, p2) => some (ReadDataResult.fail ReadDataError.response_end_timeout, p2)
    | some (true, p2) =>
      match waitWhile true (esp_timer_get_time p2).1 fuel (esp_timer_get_time p2).2 with
      | none => none
      | some (false, p3) => some (ReadDataResult.fail ReadDataError.data_start_timeout, p3)
      | some (true, p3) => ReadDataLoop fuel 5 [] p3

/-- The method `DHT11::ReadData`. -/
def ReadData (fuel : Nat) (p : Pin) : Option (ReadDataResult × Pin) :=
  ReadResponse fuel (StartSignal p)

/-- The part of `DHT11::Read` that follows the call of `ReadData`. -/
def Decode (self : DHT11) : ReadDataResult → ReadStatus × DHT11
  | ReadDataResult.fail e => (ReadStatus.read_data_failed e, { self with data_valid_ := false })
  | ReadDataResult.ok data =>
    if (data.getD 0 0 + data.getD 1 0 + data.getD 2 0 + data.getD 3 0) % 256 ≠ data.getD 4 0 then
      (ReadStatus.checksum_error, { self with data_valid_ := false })
    else
      let humidity := f32add (data.getD 0 0 : ℚ) (f32div (data.getD 1 0 : ℚ) 10)
      let temperature := f32add (data.getD 2 0 : ℚ) (f32div (data.getD 3 0 : ℚ) 10)
      if temperature < 0 ∨ temperature > 50 then
        (ReadStatus.temperature_out_of_range,
          { temperature_ := temperature, humidity_ := humidity, data_valid_ := false })
      else if humidity < 20 ∨ humidity > 90 then
        (ReadStatus.humidity_out_of_range,
          { temperature_ := temperature, humidity_ := humidity, data_valid_ := false })
      else
        (ReadStatus.success,
          { temperature_ := temperature, humidity_ := humidity, data_valid_ := true })

/-- The method `DHT11::Read`. -/
def Read (fuel : Nat) (self : DHT11) (p : Pin) : Option (ReadStatus × DHT11 × Pin) :=
  match ReadData fuel p with
  | none => none
  | some (r, p1) => some ((Decode self r).1, (Decode self r).2, p1)

/-- The method `DHT11::CheckTemperatureThreshold`. -/
def CheckTemperatureThreshold (self : DHT11) (threshold : ℚ) (above_threshold : Bool) : Bool :=
  if !self.data_valid_ then false
  else if above_threshold then decide (self.temperature_ ≥ threshold)
  else decide (self.temperature_ ≤ threshold)

/-- The method `DHT11::CheckHumidityThreshold`. -/
def CheckHumidityThreshold (self : DHT11) (threshold : ℚ) (above_threshold : Bool) : Bool :=
  if !self.data_valid_ then false
  else if above_threshold then decide (self.humidity_ ≥ threshold)
  else decide (self.humidity_ ≤ threshold)

end DHT11

/-! ## CompactWifiBoard: the periodic poll -/

/-- What a poll does besides updating the board: its log lines and the alert it posts. -/
inductive BoardEvent
  | log_dht11_data (temperature humidity : ℚ)
  | log_temperature_over_threshold (threshold : ℚ)
  | SendTemperatureAlertToServer (temperature : ℚ)
  | log_humidity_over_threshold (threshold : ℚ)
  | log_read_failed
  deriving DecidableEq

/-- The members of `CompactWifiBoard` that `ReadDht11Data` uses.  The two latches are
`static` members of the class; there is one board. -/
structure CompactWifiBoard where
  dht11_sensor_ : DHT11
  temperature_threshold_ : ℚ
  humidity_threshold_ : ℚ
  temperature_trigger_enabled_ : Bool
  humidity_trigger_enabled_ : Bool
  temperature_triggered_ : Bool
  humidity_triggered_ : Bool

namespace CompactWifiBoard

/-- The member initialisers of the class and the definitions of its static latches, with
the sensor as `InitializeDht11` constructs it. -/
def init : CompactWifiBoard :=
  { dht11_sensor_ := DHT11.init
    temperature_threshold_ := 29
    humidity_threshold_ := 88
    temperature_trigger_enabled_ := true
    humidity_trigger_enabled_ := true
    temperature_triggered_ := false
    humidity_triggered_ := false }

/-- The temperature block of `ReadDht11Data`; `temperature` is the local variable read from
`GetTemperature()`. -/
def CheckTemperature (self : CompactWifiBoard) (temperature : ℚ) :
    CompactWifiBoard × List BoardEvent :=
  if self.temperature_trigger_enabled_ && !self.temperature_triggered_ then
    if self.dht11_sensor_.CheckTemperatureThreshold self.temperature_threshold_ true then
      ({ self with temperature_triggered_ := true },
        [BoardEvent.log_temperature_over_threshold self.temperature_threshold_,
         BoardEvent.SendTemperatureAlertToServer temperature])
    else (self, [])
  else if temperature < f32sub self.temperature_threshold_ (1 / 2) then
    ({ self with temperature_triggered_ := false }, [])
  else (self, [])

/-- The humidity block of `ReadDht11Data`; `humidity` is the local variable read from
`GetHumidity()`.  The call of `WakeWordInvoke` is commented out in the source, so crossing
the threshold sets the latch and writes a log line, nothing else. -/
def CheckHumidity (self : CompactWifiBoard) (humidity : ℚ) :
    CompactWifiBoard × List BoardEvent :=
  if self.humidity_trigger_enabled_ && !self.humidity_triggered_ then
    if self.dht11_sensor_.CheckHumidityThreshold self.humidity_threshold_ true then
      ({ self with humidity_triggered_ := true },
        [BoardEvent.log_humidity_over_threshold self.humidity_threshold_])
    else (self, [])
  else if humidity < f32sub self.humidity_threshold_ 5 then
    ({ self with humidity_triggered_ := false }, [])
  else (self, [])

/-- The body of `ReadDht11Data` once `dht11_sensor_->Read()` has returned `ok`; the sensor
inside `self` is as `Read` left it.  Events are in the order they happen. -/
def AfterRead (self : CompactWifiBoard) (ok : Bool) : CompactWifiBoard × List BoardEvent :=
  if ok then
    let temperature := self.dht11_sensor_.GetTemperature
    let humidity := self.dht11_sensor_.GetHumidity
    let r1 := CheckTemperature self temperature
    let r2 := CheckHumidity r1.1 humidity
    (r2.1, BoardEvent.log_dht11_data temperature humidity :: (r1.2 ++ r2.2))
  else (self, [BoardEvent.log_read_failed])

/-- The method `CompactWifiBoard::ReadDht11Data`, the timer callback of the poll. -/
def ReadDht11Data (fuel : Nat) (self : CompactWifiBoard) (p : Pin) :
    Option (CompactWifiBoard × List BoardEvent × Pin) :=
  match self.dht11_sensor_.Read fuel p with
  | none => none
  | some (st, sensor, p1) =>
    some ((AfterRead { self with dht11_sensor_ := sensor } st.toBool).1,
      (AfterRead { self with dht11_sensor_ := sensor } st.toBool).2, p1)

end CompactWifiBoard

/-! ## A simulated sensor

A pin that replays the waveform of a DHT11 answering with a given frame, sampled once per
`gpio_get_level` call, on a clock that advances 25 microseconds per `esp_timer_get_time`
call. -/

/-- Bit `i` (0 to 39, in transmission order) of a five-byte frame. -/
def frameBit (frame : List Nat) (i : Nat) : Bool :=
  (frame.getD (i / 8) 0).testBit (7 - i % 8)

/-- One data bit as the sensor sends it, in samples of 25 microseconds: two samples low,
then one sample high for a 0 or three samples high for a 1, then low to the end of the
five-sample slot. -/
def slotLevel (bit : Bool) (o : Nat) : Bool :=
  decide (o = 2) || (bit && (decide (o = 3) || decide (o = 4)))

/-- The level of the line at sample `k` after the switch to input.  Sample 0: bus idle high;
1 to 3: response low; 4 to 6: response high; then the forty data bits; then the line stays
low.  The high phase of the first data bit is held `stretch` samples longer than the
protocol asks. -/
def sensorLevel (frame : List Nat) (stretch : Nat) (k : Nat) : Bool :=
  if k < 1 then true
  else if k < 4 then false
  else if k < 7 then true
  else if k < 10 then slotLevel (frameBit frame 0) (k - 7)
  else if k < 10 + stretch then true
  else if k < 12 + stretch then slotLevel (frameBit frame 0) (k - stretch - 7)
  else if k < 7 + stretch + 5 * 40 then
    slotLevel (frameBit frame ((k - stretch - 7) / 5)) ((k - stretch - 7) % 5)
  else false

/-- The simulated pin in front of such a sensor. -/
def simPin (frame : List Nat) (stretch : Nat) : Pin :=
  { levels := sensorLevel frame stretch
    clock := fun k => 25 * (k : Int)
    reads := 0
    ticks := 0
    mode := gpio_mode_t.GPIO_MODE_OUTPUT
    ops := [] }

/-- The pin state an exchange leaves behind: same waveform and clock, the start signal
recorded, the direction switched to input, and the given numbers of calls made. -/
def afterExchange (p : Pin) (reads ticks : Nat) : Pin :=
  { levels := p.levels
    clock := p.clock
    reads := reads
    ticks := ticks
    mode := gpio_mode_t.GPIO_MODE_INPUT
    ops := [PinOp.gpio_set_direction gpio_mode_t.GPIO_MODE_INPUT,
      PinOp.esp_rom_delay_us 40,
      PinOp.gpio_set_level 1,
      PinOp.esp_rom_delay_us 18000,
      PinOp.gpio_set_level 0,
      PinOp.gpio_set_direction gpio_mode_t.GPIO_MODE_OUTPUT] ++ p.ops }

/-- A sensor that answers 40.0 %RH and 25.0 °C with a correct checksum. -/
def pinValid : Pin := simPin [40, 0, 25, 0, 65] 0

/-- A sensor that answers 20.1 %RH and 25.0 °C with a correct checksum. -/
def pinTenth : Pin := simPin [20, 1, 25, 0, 46] 0

/-- A sensor whose frame carries a wrong checksum byte. -/
def pinBadSum : Pin := simPin [40, 0, 25, 0, 66] 0

/-- A sensor that answers the all-zero frame. -/
def pinZero : Pin := simPin [0, 0, 0, 0, 0] 0

/-- A sensor object that holds the valid reading 25.0 °C, 40.0 %RH. -/
def heldReading : DHT11 := { temperature_ := 25, humidity_ := 40, data_valid_ := true }

/-- A sensor that answers 40.0 %RH and 25.0 °C with a correct checksum, but holds the high
phase of the first data bit for 150 microseconds. -/
def pinStretched : Pin := simPin [40, 0, 25, 0, 65] 5

/-- The pin `p'` is `p` after further reads of the line and of the clock: the waveform, the
clock, the direction and the issued operations are the same, the call counts have not
decreased. -/
def Pin.Advances (p p' : Pin) : Prop :=
  p'.levels = p.levels ∧ p'.clock = p.clock ∧ p'.mode = p.mode ∧ p'.ops = p.ops ∧
    p.reads ≤ p'.reads ∧ p.ticks ≤ p'.ticks

/-- A line on which one bit is sampled: low, then high for two samples, then low; with
the 25 microsecond clock the high phase measures exactly 50 microseconds. -/
def pinBoundary : Pin :=
  { levels := fun k => decide (k = 1) || decide (k = 2)
    clock := fun k => 25 * (k : Int)
    reads := 0
    ticks := 0
    mode := gpio_mode_t.GPIO_MODE_INPUT
    ops := [] }

/-- A disconnected sensor: the pull-up keeps the line high, the clock advances by one
microsecond per call. -/
def pinDisconnected : Pin :=
  { levels := fun _ => true
    clock := fun k => (k : Int)
    reads := 0
    ticks := 0
    mode := gpio_mode_t.GPIO_MODE_OUTPUT
    ops := [] }

/-- The wait that is about to start at `p` (its `start_time` is the next clock value) finds
the line at `lvl` at its first sample and at every sample it takes after a clock value
within 100 microseconds of `start_time`: the phase does not end within the timeout. -/
def Pin.HeldPastTimeout (p : Pin) (lvl : Bool) : Prop :=
  p.levels p.reads = lvl ∧
    ∀ j, p.clock (p.ticks + 1 + j) - p.clock p.ticks ≤ 100 → p.levels (p.reads + 1 + j) = lvl

namespace DHT11

/-- Consecutive calls of `Read` on the same sensor object: `n` calls, their statuses in
call order. -/
def ReadRepeatedly (fuel : Nat) : Nat → DHT11 → Pin → Option (List ReadStatus × DHT11 × Pin)
  | 0, self, p => some ([], self, p)
  | n + 1, self, p =>
    match Read fuel self p with
    | none => none
    | some (st, s1, p1) =>
      match ReadRepeatedly fuel n s1 p1 with
      | none => none
      | some (sts, s2, p2) => some (st :: sts, s2, p2)

end DHT11

namespace CompactWifiBoard

/-- The temperatures posted by `SendTemperatureAlertToServer` among the events of a poll. -/
def temperatureAlerts : List BoardEvent → List ℚ
  | [] => []
  | BoardEvent.SendTemperatureAlertToServer t :: rest => t :: temperatureAlerts rest
  | _ :: rest => temperatureAlerts rest

/-- The thresholds logged as exceeded by the humidity among the events of a poll.  The
source posts nothing for humidity; this log line is all a crossing produces. -/
def humidityCrossings : List BoardEvent → List ℚ
  | [] => []
  | BoardEvent.log_humidity_over_threshold t :: rest => t :: humidityCrossings rest
  | _ :: rest => humidityCrossings rest

/-- Consecutive polls: `n` timer callbacks, each recorded as the board it leaves and the
events it produced. -/
def Polls (fuel : Nat) : Nat → CompactWifiBoard → Pin →
    Option (List (CompactWifiBoard × List BoardEvent) × Pin)
  | 0, _, p => some ([], p)
  | n + 1, b, p =>
    match ReadDht11Data fuel b p with
    | none => none
    | some (b1, ev, p1) =>
      match Polls fuel n b1 p1 with
      | none => none
      | some (rest, p2) => some ((b1, ev) :: rest, p2)

end CompactWifiBoard

/-- A simulated sensor that answers consecutive exchanges with the given frames.  Each frame
must end in a 0 bit, so that an exchange takes exactly 206 samples. -/
def simPinFrames (frames : List (List Nat)) : Pin :=
  { levels := fun k => sensorLevel (frames.getD (k / 206) []) 0 (k % 206)
    clock := fun k => 25 * (k : Int)
    reads := 0
    ticks := 0
    mode := gpio_mode_t.GPIO_MODE_OUTPUT
    ops := [] }

/-- Three exchanges: 28.0 °C at 40.0 %RH, 28.5 °C at 41.0 %RH, 30.0 °C at 40.0 %RH. -/
def pinCooling : Pin := simPinFrames [[40, 0, 28, 0, 68], [41, 0, 28, 5, 74], [40, 0, 30, 0, 70]]

/-- Three exchanges: 80.0 %RH at 26.0 °C, then 85.0 %RH and 89.0 %RH at 25.0 °C. -/
def pinDrying : Pin := simPinFrames [[80, 0, 26, 0, 106], [85, 0, 25, 0, 110], [89, 0, 25, 0, 114]]

/-- The board as constructed, with the temperature latch set. -/
def boardHot : CompactWifiBoard := { CompactWifiBoard.init with temperature_triggered_ := true }

/-- The board as constructed, with the humidity latch set. -/
def boardHumid : CompactWifiBoard := { CompactWifiBoard.init with humidity_triggered_ := true }

/-- A sensor that answers 30.0 °C and 40.0 %RH. -/
def pinWarm : Pin := simPin [40, 0, 30, 0, 70] 0

/-- The board as constructed, holding a valid reading, with the given latches. -/
def boardAt (temperature humidity : ℚ) (temperature_triggered humidity_triggered : Bool) :
    CompactWifiBoard :=
  { CompactWifiBoard.init with
    dht11_sensor_ := { temperature_ := temperature, humidity_ := humidity, data_valid_ := true }
    temperature_triggered_ := temperature_triggered
    humidity_triggered_ := humidity_triggered }

/-- Five exchanges: 28.0 °C, 29.5 °C, 29.2 °C, 28.3 °C and 30.0 °C, at 40 or 41 %RH. -/
def pinFive : Pin :=
  simPinFrames [[40, 0, 28, 0, 68], [40, 0, 29, 5, 74], [41, 0, 29, 2, 72], [41, 0, 28, 3, 72],
    [40, 0, 30, 0, 70]]

/-- A sensor that answers 30.0 °C and 89.0 %RH: both quantities at or above the thresholds
of the board as constructed. -/
def pinHotHumid : Pin := simPin [89, 0, 30, 0, 119] 0

namespace DHT11

/-- The bits that `n` consecutive calls of `ReadBit` return, in arrival order. -/
def ReadBits (fuel : Nat) : Nat → Pin → Option (List Bool × Pin)
  | 0, p => some ([], p)
  | n + 1, p =>
    match ReadBit fuel p with
    | none => none
    | some (bit, p1) =>
      match ReadBits fuel n p1 with
      | none => none
      | some (bits, p2) => some (bit :: bits, p2)

/-- The assignments of the loop of `ReadByte` applied to given bits: `n` iterations remain,
the next bit goes to position `n - 1`. -/
def orBits : Nat → Nat → List Bool → Nat
  | i + 1, byte, bit :: bits => orBits i (if bit then byte ||| (1 <<< i) else byte) bits
  | _, byte, _ => byte

/-- Byte `j` of a frame as the bit stream defines it: the sum over `k` in 0..7 of
`b(8j+k) * 2^(7-k)`. -/
def byteOfBits (bits : List Bool) (j : Nat) : Nat :=
  ((List.range 8).map (fun k => (bits.getD (8 * j + k) false).toNat * 2 ^ (7 - k))).sum

end DHT11

/-- The states of a `DHT11` object that construction followed by calls of `Read` can reach;
each call may find any pin behaviour. -/
inductive DHT11.Reachable : DHT11 → Prop
  | init : DHT11.Reachable DHT11.init
  | read (fuel : Nat) (self : DHT11) (p : Pin) (st : ReadStatus) (s : DHT11) (p' : Pin) :
      DHT11.Reachable self → DHT11.Read fuel self p = some (st, s, p') → DHT11.Reachable s

/-- The board as constructed, with the temperature trigger disabled. -/
def boardDisabled : CompactWifiBoard :=
  { CompactWifiBoard.init with temperature_trigger_enabled_ := false }

/-! ## Facts about binary32 rounding -/

theorem floor_le_roundHalfEven (m : ℚ) : ⌊m⌋ ≤ roundHalfEven m := by
  unfold roundHalfEven
  simp only
  split_ifs <;> omega

theorem roundHalfEven_le_ceil (m : ℚ) : roundHalfEven m ≤ ⌈m⌉ := by
  have hfc : ⌊m⌋ ≤ ⌈m⌉ := Int.floor_le_ceil m
  have key : ¬ (m - ⌊m⌋ < 1/2) → ⌊m⌋ + 1 ≤ ⌈m⌉ := by
    intro h
    have h1 : (⌊m⌋ : ℚ) < m := by linarith
    have h2 : ⌊m⌋ < ⌈m⌉ := Int.lt_ceil.mpr h1
    omega
  unfold roundHalfEven
  simp only
  split_ifs with h1 h2 h3
  · exact hfc
  · exact key h1
  · exact hfc
  · exact key h1

theorem le_roundHalfEven_of_le (m : ℚ) (K : ℤ) (h : (K : ℚ) ≤ m) : K ≤ roundHalfEven m :=
  le_trans (Int.le_floor.mpr h) (floor_le_roundHalfEven m)

theorem roundHalfEven_le_of_le (m : ℚ) (K : ℤ) (h : m ≤ (K : ℚ)) : roundHalfEven m ≤ K :=
  le_trans (roundHalfEven_le_ceil m) (Int.ceil_le.mpr h)

theorem f32exponent_le (q : ℚ) (j : ℕ) (hj : j ≤ 149) (hq0 : q ≠ 0)
    (hq : |q| * 2 ^ j < 2 ^ 24) : f32exponent |q| - 23 ≤ -(j : ℤ) := by
  have hpos : 0 < |q| := abs_pos.mpr hq0
  have h2 : |q| < ((2 : ℕ) : ℚ) ^ ((24 : ℤ) - j) := by
    rw [zpow_sub₀ (by norm_num)]
    rw [lt_div_iff₀ (by positivity)]
    have e24 : ((2 : ℕ) : ℚ) ^ (24 : ℤ) = 2 ^ 24 := by norm_num
    have ej : ((2 : ℕ) : ℚ) ^ (j : ℤ) = 2 ^ j := by rw [zpow_natCast]; norm_num
    rw [e24, ej]; exact hq
  have h3 := (Int.lt_zpow_iff_log_lt (by norm_num : 1 < 2) hpos).mp h2
  unfold f32exponent
  have : max (Int.log 2 |q|) (-126) ≤ 23 - (j : ℤ) := by
    apply max_le <;> omega
  omega

theorem dyadic_on_grid (k : ℤ) (j : ℕ) (z : ℤ) (hz : z ≤ -(j : ℤ)) :
    ∃ K : ℤ, (k : ℚ) / 2 ^ j = (K : ℚ) * (2 : ℚ) ^ z := by
  obtain ⟨n, hn⟩ : ∃ n : ℕ, (n : ℤ) = -(j : ℤ) - z := ⟨(-(j : ℤ) - z).toNat, by omega⟩
  refine ⟨k * 2 ^ n, ?_⟩
  have hz2 : z = -(j : ℤ) - n := by omega
  rw [hz2, zpow_sub₀ (by norm_num), zpow_neg, zpow_natCast, zpow_natCast]
  push_cast
  field_simp
  ring

theorem f32round_ge_dyadic (q : ℚ) (k : ℤ) (j : ℕ) (hj : j ≤ 149)
    (hq : |q| * 2 ^ j < 2 ^ 24) (h : (k : ℚ) / 2 ^ j ≤ q) : (k : ℚ) / 2 ^ j ≤ f32round q := by
  unfold f32round
  split_ifs with h0
  · rw [h0] at h; exact h
  · simp only
    obtain ⟨K, hK⟩ := dyadic_on_grid k j _ (f32exponent_le q j hj h0 hq)
    have hulp : (0 : ℚ) < (2 : ℚ) ^ (f32exponent |q| - 23) := by positivity
    rw [hK] at h ⊢
    have h1 : (K : ℚ) ≤ q / (2 : ℚ) ^ (f32exponent |q| - 23) := (le_div_iff₀ hulp).mpr h
    have h2 := le_roundHalfEven_of_le _ K h1
    have h3 : (K : ℚ) ≤ (roundHalfEven (q / (2 : ℚ) ^ (f32exponent |q| - 23)) : ℚ) := by
      exact_mod_cast h2
    exact mul_le_mul_of_nonneg_right h3 hulp.le

theorem f32round_le_dyadic (q : ℚ) (k : ℤ) (j : ℕ) (hj : j ≤ 149)
    (hq : |q| * 2 ^ j < 2 ^ 24) (h : q ≤ (k : ℚ) / 2 ^ j) : f32round q ≤ (k : ℚ) / 2 ^ j := by
  unfold f32round
  split_ifs with h0
  · rw [h0] at h; exact h
  · simp only
    obtain ⟨K, hK⟩ := dyadic_on_grid k j _ (f32exponent_le q j hj h0 hq)
    have hulp : (0 : ℚ) < (2 : ℚ) ^ (f32exponent |q| - 23) := by positivity
    rw [hK] at h ⊢
    have h1 : q / (2 : ℚ) ^ (f32exponent |q| - 23) ≤ (K : ℚ) := (div_le_iff₀ hulp).mpr h
    have h2 := roundHalfEven_le_of_le _ K h1
    have h3 : (roundHalfEven (q / (2 : ℚ) ^ (f32exponent |q| - 23)) : ℚ) ≤ (K : ℚ) := by
      exact_mod_cast h2
    exact mul_le_mul_of_nonneg_right h3 hulp.le

theorem f32round_dyadic (k : ℤ) (j : ℕ) (hj : j ≤ 149)
    (hq : |(k : ℚ) / 2 ^ j| * 2 ^ j < 2 ^ 24) : f32round ((k : ℚ) / 2 ^ j) = (k : ℚ) / 2 ^ j :=
  le_antisymm (f32round_le_dyadic _ k j hj hq le_rfl) (f32round_ge_dyadic _ k j hj hq le_rfl)

theorem roundHalfEven_eq_of_near (m : ℚ) (n : ℤ) (hlo : (n : ℚ) - 1 / 2 < m)
    (hhi : m < (n : ℚ) + 1 / 2) : roundHalfEven m = n := by
  unfold roundHalfEven
  simp only
  by_cases hmn : (n : ℚ) ≤ m
  · have hf : ⌊m⌋ = n := Int.floor_eq_iff.mpr ⟨hmn, by linarith⟩
    rw [hf, if_pos (by linarith)]
  · have hf : ⌊m⌋ = n - 1 := Int.floor_eq_iff.mpr ⟨by push_cast; linarith, by push_cast; linarith⟩
    rw [hf, if_neg (by push_cast; linarith), if_pos (by push_cast; linarith)]
    omega

theorem f32exponent_eq (a : ℚ) (e : ℤ) (he : -126 ≤ e) (h1 : (2 : ℚ) ^ e ≤ a)
    (h2 : a < (2 : ℚ) ^ (e + 1)) : f32exponent a = e := by
  have hpos : 0 < a := lt_of_lt_of_le (by positivity) h1
  have hl : e ≤ Int.log 2 a :=
    (Int.zpow_le_iff_le_log (by norm_num : 1 < 2) hpos).mp (by simpa using h1)
  have hu : Int.log 2 a < e + 1 :=
    (Int.lt_zpow_iff_log_lt (by norm_num : 1 < 2) hpos).mp (by simpa using h2)
  unfold f32exponent
  have : Int.log 2 a = e := by omega
  rw [this]
  exact max_eq_left he

theorem f32round_eval (q : ℚ) (e n : ℤ) (he : -126 ≤ e) (h1 : (2 : ℚ) ^ e ≤ q)
    (h2 : q < (2 : ℚ) ^ (e + 1)) (hlo : (n : ℚ) - 1 / 2 < q / (2 : ℚ) ^ (e - 23))
    (hhi : q / (2 : ℚ) ^ (e - 23) < (n : ℚ) + 1 / 2) :
    f32round q = (n : ℚ) * (2 : ℚ) ^ (e - 23) := by
  have hpos : 0 < q := lt_of_lt_of_le (by positivity) h1
  unfold f32round
  rw [if_neg hpos.ne']
  simp only
  rw [abs_of_pos hpos, f32exponent_eq q e he h1 h2, roundHalfEven_eq_of_near _ n hlo hhi]

/-- Bounds with denominator `2 ^ j` survive the rounding of `b / 10`, for `b ≤ 1000`. -/
theorem f32div10_ge (b : ℕ) (hb : b ≤ 1000) (k : ℤ) (j : ℕ) (hj : j ≤ 17)
    (h : (k : ℚ) / 2 ^ j ≤ (b : ℚ) / 10) : (k : ℚ) / 2 ^ j ≤ f32div (b : ℚ) 10 := by
  unfold f32div
  refine f32round_ge_dyadic _ k j (by omega) ?_ h
  have hb' : (b : ℚ) ≤ 1000 := by exact_mod_cast hb
  have h0 : (0 : ℚ) ≤ (b : ℚ) / 10 := by positivity
  rw [abs_of_nonneg h0]
  calc (b : ℚ) / 10 * 2 ^ j ≤ 100 * 2 ^ 17 := by
        apply mul_le_mul (by linarith) (pow_le_pow_right₀ (by norm_num) hj) (by positivity)
          (by norm_num)
    _ < 2 ^ 24 := by norm_num

theorem f32div10_le (b : ℕ) (hb : b ≤ 1000) (k : ℤ) (j : ℕ) (hj : j ≤ 17)
    (h : (b : ℚ) / 10 ≤ (k : ℚ) / 2 ^ j) : f32div (b : ℚ) 10 ≤ (k : ℚ) / 2 ^ j := by
  unfold f32div
  refine f32round_le_dyadic _ k j (by omega) ?_ h
  have hb' : (b : ℚ) ≤ 1000 := by exact_mod_cast hb
  have h0 : (0 : ℚ) ≤ (b : ℚ) / 10 := by positivity
  rw [abs_of_nonneg h0]
  calc (b : ℚ) / 10 * 2 ^ j ≤ 100 * 2 ^ 17 := by
        apply mul_le_mul (by linarith) (pow_le_pow_right₀ (by norm_num) hj) (by positivity)
          (by norm_num)
    _ < 2 ^ 24 := by norm_num

theorem f32div10_nonneg (b : ℕ) (hb : b ≤ 1000) : 0 ≤ f32div (b : ℚ) 10 := by
  have h := f32div10_ge b hb 0 0 (by omega) (by simp; positivity)
  simpa using h

theorem f32div10_le_hundred (b : ℕ) (hb : b ≤ 1000) : f32div (b : ℚ) 10 ≤ 100 := by
  have hb' : (b : ℚ) ≤ 1000 := by exact_mod_cast hb
  have h := f32div10_le b hb 100 0 (by omega) (by simp; linarith)
  simpa using h

/-- Magnitude of the sum `a + fl(b / 10)` that `Read` rounds. -/
theorem decode_sum_small (a b : ℕ) (ha : a ≤ 1000) (hb : b ≤ 1000) (j : ℕ) (hj : j ≤ 13) :
    |(a : ℚ) + f32div (b : ℚ) 10| * 2 ^ j < 2 ^ 24 := by
  have ha' : (a : ℚ) ≤ 1000 := by exact_mod_cast ha
  have ha0 : (0 : ℚ) ≤ (a : ℚ) := by positivity
  have h0 := f32div10_nonneg b hb
  have h1 := f32div10_le_hundred b hb
  rw [abs_of_nonneg (by linarith)]
  calc ((a : ℚ) + f32div (b : ℚ) 10) * 2 ^ j ≤ 1100 * 2 ^ 13 := by
        apply mul_le_mul (by linarith) (pow_le_pow_right₀ (by norm_num) hj) (by positivity)
          (by norm_num)
    _ < 2 ^ 24 := by norm_num

/-- An integer upper bound on the exact value `a + b / 10` bounds the float `Read` computes. -/
theorem decode_le (a b N : ℕ) (ha : a ≤ 1000) (hb : b ≤ 1000)
    (h : (a : ℚ) + (b : ℚ) / 10 ≤ N) : f32add (a : ℚ) (f32div (b : ℚ) 10) ≤ N := by
  have h1 : f32div (b : ℚ) 10 ≤ (((N : ℤ) - (a : ℤ) : ℤ) : ℚ) / 2 ^ 0 :=
    f32div10_le b hb _ 0 (by omega) (by push_cast; linarith)
  have h2 : (a : ℚ) + f32div (b : ℚ) 10 ≤ ((N : ℤ) : ℚ) / 2 ^ 0 := by
    push_cast at h1 ⊢; linarith
  have h3 := f32round_le_dyadic _ (N : ℤ) 0 (by omega) (decode_sum_small a b ha hb 0 (by omega)) h2
  unfold f32add
  simpa using h3

/-- An integer lower bound on the exact value `a + b / 10` bounds the float `Read` computes. -/
theorem decode_ge (a b N : ℕ) (ha : a ≤ 1000) (hb : b ≤ 1000)
    (h : (N : ℚ) ≤ (a : ℚ) + (b : ℚ) / 10) : (N : ℚ) ≤ f32add (a : ℚ) (f32div (b : ℚ) 10) := by
  have h1 : (((N : ℤ) - (a : ℤ) : ℤ) : ℚ) / 2 ^ 0 ≤ f32div (b : ℚ) 10 :=
    f32div10_ge b hb _ 0 (by omega) (by push_cast; linarith)
  have h2 : ((N : ℤ) : ℚ) / 2 ^ 0 ≤ (a : ℚ) + f32div (b : ℚ) 10 := by
    push_cast at h1 ⊢; linarith
  have h3 := f32round_ge_dyadic _ (N : ℤ) 0 (by omega) (decode_sum_small a b ha hb 0 (by omega)) h2
  unfold f32add
  simpa using h3

/-- When the exact value exceeds the integer `N`, so does the float. -/
theorem decode_gt (a b N : ℕ) (ha : a ≤ 1000) (hb : b ≤ 1000)
    (h : (N : ℚ) < (a : ℚ) + (b : ℚ) / 10) : (N : ℚ) < f32add (a : ℚ) (f32div (b : ℚ) 10) := by
  have hi : 10 * N + 1 ≤ 10 * a + b := by
    have : (10 * N : ℚ) < 10 * a + b := by linarith
    have : 10 * N < 10 * a + b := by exact_mod_cast this
    omega
  have hq : (10 * N + 1 : ℚ) ≤ 10 * a + b := by exact_mod_cast hi
  have h1 : (((16 * ((N : ℤ) - (a : ℤ)) + 1 : ℤ)) : ℚ) / 2 ^ 4 ≤ f32div (b : ℚ) 10 :=
    f32div10_ge b hb _ 4 (by omega) (by push_cast; linarith)
  have h2 : ((16 * (N : ℤ) + 1 : ℤ) : ℚ) / 2 ^ 4 ≤ (a : ℚ) + f32div (b : ℚ) 10 := by
    push_cast at h1 ⊢; linarith
  have h3 := f32round_ge_dyadic _ _ 4 (by omega) (decode_sum_small a b ha hb 4 (by omega)) h2
  unfold f32add
  push_cast at h3
  linarith

/-- When the exact value is below the integer `N`, so is the float. -/
theorem decode_lt (a b N : ℕ) (ha : a ≤ 1000) (hb : b ≤ 1000)
    (h : (a : ℚ) + (b : ℚ) / 10 < N) : f32add (a : ℚ) (f32div (b : ℚ) 10) < N := by
  have hi : 10 * a + b + 1 ≤ 10 * N := by
    have : (10 * a + b : ℚ) < 10 * N := by linarith
    have : 10 * a + b < 10 * N := by exact_mod_cast this
    omega
  have hq : (10 * a + b + 1 : ℚ) ≤ 10 * N := by exact_mod_cast hi
  have h1 : f32div (b : ℚ) 10 ≤ (((16 * ((N : ℤ) - (a : ℤ)) - 1 : ℤ)) : ℚ) / 2 ^ 4 :=
    f32div10_le b hb _ 4 (by omega) (by push_cast; linarith)
  have h2 : (a : ℚ) + f32div (b : ℚ) 10 ≤ ((16 * (N : ℤ) - 1 : ℤ) : ℚ) / 2 ^ 4 := by
    push_cast at h1 ⊢; linarith
  have h3 := f32round_le_dyadic _ _ 4 (by omega) (decode_sum_small a b ha hb 4 (by omega)) h2
  unfold f32add
  push_cast at h3
  linarith

/-- Rounding moves a value of magnitude below `2 ^ (24 - j)` by at most `2 ^ (-j)`. -/
theorem f32round_error (q : ℚ) (j : ℕ) (hj : j ≤ 149) (hq : |q| * 2 ^ j < 2 ^ 24) :
    |f32round q - q| ≤ 1 / 2 ^ j := by
  have hp : (0 : ℚ) < 2 ^ j := by positivity
  have hlo : ((⌊q * 2 ^ j⌋ : ℤ) : ℚ) / 2 ^ j ≤ q := by
    rw [div_le_iff₀ hp]; exact Int.floor_le _
  have hhi : q ≤ ((⌊q * 2 ^ j⌋ + 1 : ℤ) : ℚ) / 2 ^ j := by
    rw [le_div_iff₀ hp]; push_cast; exact (Int.lt_floor_add_one _).le
  have h1 := f32round_ge_dyadic q _ j hj hq hlo
  have h2 := f32round_le_dyadic q _ j hj hq hhi
  have e : ((⌊q * 2 ^ j⌋ + 1 : ℤ) : ℚ) / 2 ^ j = ((⌊q * 2 ^ j⌋ : ℤ) : ℚ) / 2 ^ j + 1 / 2 ^ j := by
    push_cast; ring
  rw [e] at h2 hhi
  rw [abs_le]
  constructor <;> linarith

/-- The float `Read` computes lies within `2 ^ (-16)` of the exact value, up to 100. -/
theorem decode_error (a b : ℕ) (hb : b ≤ 1000) (h : (a : ℚ) + (b : ℚ) / 10 ≤ 100) :
    |f32add (a : ℚ) (f32div (b : ℚ) 10) - ((a : ℚ) + (b : ℚ) / 10)| ≤ 1 / 65536 := by
  have ha0 : (0 : ℚ) ≤ (a : ℚ) := by positivity
  have hb0 : (0 : ℚ) ≤ (b : ℚ) / 10 := by positivity
  have hb' : (b : ℚ) ≤ 1000 := by exact_mod_cast hb
  have e1 : |f32div (b : ℚ) 10 - (b : ℚ) / 10| ≤ 1 / 2 ^ 17 := by
    unfold f32div
    apply f32round_error _ 17 (by omega)
    rw [abs_of_nonneg hb0]
    calc (b : ℚ) / 10 * 2 ^ 17 ≤ 100 * 2 ^ 17 := by
          apply mul_le_mul_of_nonneg_right (by linarith) (by positivity)
      _ < 2 ^ 24 := by norm_num
  have h0 := f32div10_nonneg b hb
  have hs : (a : ℚ) + f32div (b : ℚ) 10 ≤ 101 := by
    have := (abs_le.mp e1).2
    have e17 : (1 : ℚ) / 2 ^ 17 ≤ 1 := by norm_num
    linarith
  have e2 : |f32add (a : ℚ) (f32div (b : ℚ) 10) - ((a : ℚ) + f32div (b : ℚ) 10)| ≤ 1 / 2 ^ 17 := by
    unfold f32add
    apply f32round_error _ 17 (by omega)
    rw [abs_of_nonneg (by linarith)]
    calc ((a : ℚ) + f32div (b : ℚ) 10) * 2 ^ 17 ≤ 101 * 2 ^ 17 := by
          apply mul_le_mul_of_nonneg_right hs (by positivity)
      _ < 2 ^ 24 := by norm_num
  have e3 : (1 : ℚ) / 2 ^ 17 + 1 / 2 ^ 17 = 1 / 65536 := by norm_num
  rw [abs_le] at e1 e2 ⊢
  constructor <;> linarith [e1.1, e1.2, e2.1, e2.2]

/-- A fractional byte that is a multiple of 5 is decoded without rounding. -/
theorem decode_exact (a b : ℕ) (ha : a ≤ 1000) (hb : b ≤ 1000) (h5 : 5 ∣ b) :
    f32add (a : ℚ) (f32div (b : ℚ) 10) = (a : ℚ) + (b : ℚ) / 10 := by
  obtain ⟨c, rfl⟩ := h5
  have ed : ((5 * c : ℕ) : ℚ) / 10 = ((c : ℤ) : ℚ) / 2 ^ 1 := by push_cast; ring
  have e1 : f32div ((5 * c : ℕ) : ℚ) 10 = ((c : ℤ) : ℚ) / 2 ^ 1 :=
    le_antisymm (f32div10_le _ hb _ 1 (by omega) ed.le) (f32div10_ge _ hb _ 1 (by omega) ed.ge)
  have hsmall := decode_sum_small a (5 * c) ha hb 1 (by omega)
  rw [e1] at hsmall ⊢
  have es : (a : ℚ) + ((c : ℤ) : ℚ) / 2 ^ 1 = ((2 * (a : ℤ) + c : ℤ) : ℚ) / 2 ^ 1 := by
    push_cast; ring
  unfold f32add
  rw [ed]
  rw [es] at hsmall ⊢
  exact f32round_dyadic _ 1 (by omega) hsmall

/-! ## What the driver does to the pin -/

theorem Pin.Advances.refl (p : Pin) : p.Advances p :=
  ⟨rfl, rfl, rfl, rfl, le_rfl, le_rfl⟩

theorem Pin.Advances.trans {p q r : Pin} (h1 : p.Advances q) (h2 : q.Advances r) :
    p.Advances r := by
  refine ⟨h2.1.trans h1.1, h2.2.1.trans h1.2.1, h2.2.2.1.trans h1.2.2.1,
    h2.2.2.2.1.trans h1.2.2.2.1, ?_, ?_⟩
  · exact le_trans h1.2.2.2.2.1 h2.2.2.2.2.1
  · exact le_trans h1.2.2.2.2.2 h2.2.2.2.2.2

theorem gpio_get_level_advances (p : Pin) : p.Advances (gpio_get_level p).2 :=
  ⟨rfl, rfl, rfl, rfl, Nat.le_succ _, le_rfl⟩

theorem esp_timer_get_time_advances (p : Pin) : p.Advances (esp_timer_get_time p).2 :=
  ⟨rfl, rfl, rfl, rfl, le_rfl, Nat.le_succ _⟩

theorem waitWhile_advances (lvl : Bool) (start_time : Int) (fuel : Nat) :
    ∀ (p p' : Pin) (b : Bool), waitWhile lvl start_time fuel p = some (b, p') →
      p.Advances p' := by
  induction fuel with
  | zero => intro p p' b h; simp [waitWhile] at h
  | succ n ih =>
    intro p p' b h
    have hstep : p.Advances (esp_timer_get_time (gpio_get_level p).2).2 :=
      (gpio_get_level_advances p).trans (esp_timer_get_time_advances _)
    unfold waitWhile at h
    split_ifs at h with h1 h2
    · simp only [Option.some.injEq, Prod.mk.injEq] at h
      rw [← h.2]; exact hstep
    · exact hstep.trans (ih _ _ _ h)
    · simp only [Option.some.injEq, Prod.mk.injEq] at h
      rw [← h.2]; exact gpio_get_level_advances p

theorem ReadBit_advances (fuel : Nat) (p p' : Pin) (b : Bool)
    (h : DHT11.ReadBit fuel p = some (b, p')) : p.Advances p' := by
  unfold DHT11.ReadBit at h
  split at h
  · simp at h
  · next p1 h1 =>
    simp only [Option.some.injEq, Prod.mk.injEq] at h
    rw [← h.2]
    exact (esp_timer_get_time_advances p).trans (waitWhile_advances _ _ _ _ _ _ h1)
  · next p1 h1 =>
    have a1 := (esp_timer_get_time_advances p).trans (waitWhile_advances _ _ _ _ _ _ h1)
    split at h
    · simp at h
    · next p2 h2 =>
      simp only [Option.some.injEq, Prod.mk.injEq] at h
      rw [← h.2]
      exact a1.trans ((esp_timer_get_time_advances p1).trans (waitWhile_advances _ _ _ _ _ _ h2))
    · next p2 h2 =>
      have a2 := a1.trans
        ((esp_timer_get_time_advances p1).trans (waitWhile_advances _ _ _ _ _ _ h2))
      split at h
      · simp at h
      · next p3 h3 =>
        simp only [Option.some.injEq, Prod.mk.injEq] at h
        rw [← h.2]
        exact a2.trans
          ((esp_timer_get_time_advances p2).trans (waitWhile_advances _ _ _ _ _ _ h3))
      · next p3 h3 =>
        simp only [Option.some.injEq, Prod.mk.injEq] at h
        rw [← h.2]
        exact (a2.trans
          ((esp_timer_get_time_advances p2).trans (waitWhile_advances _ _ _ _ _ _ h3))).trans
            (esp_timer_get_time_advances p3)

theorem ReadByteLoop_advances (fuel : Nat) (n : Nat) :
    ∀ (byte : Nat) (p p' : Pin) (r : Nat),
      DHT11.ReadByteLoop fuel n byte p = some (r, p') → p.Advances p' := by
  induction n with
  | zero =>
    intro byte p p' r h
    simp only [DHT11.ReadByteLoop, Option.some.injEq, Prod.mk.injEq] at h
    rw [← h.2]; exact Pin.Advances.refl p
  | succ i ih =>
    intro byte p p' r h
    unfold DHT11.ReadByteLoop at h
    split at h
    · simp at h
    · next bit p1 h1 => exact (ReadBit_advances _ _ _ _ h1).trans (ih _ _ _ _ h)

theorem ReadByte_advances (fuel : Nat) (p p' : Pin) (ok : Bool) (byte : Nat)
    (h : DHT11.ReadByte fuel p = some (ok, byte, p')) : p.Advances p' := by
  unfold DHT11.ReadByte at h
  split at h
  · simp at h
  · next b p1 h1 =>
    simp only [Option.some.injEq, Prod.mk.injEq] at h
    rw [← h.2.2]; exact ReadByteLoop_advances _ _ _ _ _ _ h1

theorem ReadDataLoop_advances (fuel : Nat) (n : Nat) :
    ∀ (data : List Nat) (p p' : Pin) (r : ReadDataResult),
      DHT11.ReadDataLoop fuel n data p = some (r, p') → p.Advances p' := by
  induction n with
  | zero =>
    intro data p p' r h
    simp only [DHT11.ReadDataLoop, Option.some.injEq, Prod.mk.injEq] at h
    rw [← h.2]; exact Pin.Advances.refl p
  | succ i ih =>
    intro data p p' r h
    unfold DHT11.ReadDataLoop at h
    split at h
    · simp at h
    · next byte p1 h1 =>
      simp only [Option.some.injEq, Prod.mk.injEq] at h
      rw [← h.2]; exact ReadByte_advances _ _ _ _ _ h1
    · next byte p1 h1 => exact (ReadByte_advances _ _ _ _ _ h1).trans (ih _ _ _ _ h)

theorem ReadResponse_advances (fuel : Nat) (p p' : Pin) (r : ReadDataResult)
    (h : DHT11.ReadResponse fuel p = some (r, p')) : p.Advances p' := by
  unfold DHT11.ReadResponse at h
  split at h
  · simp at h
  · next p1 h1 =>
    simp only [Option.some.injEq, Prod.mk.injEq] at h
    rw [← h.2]
    exact (esp_timer_get_time_advances p).trans (waitWhile_advances _ _ _ _ _ _ h1)
  · next p1 h1 =>
    have a1 := (esp_timer_get_time_advances p).trans (waitWhile_advances _ _ _ _ _ _ h1)
    split at h
    · simp at h
    · next p2 h2 =>
      simp only [Option.some.injEq, Prod.mk.injEq] at h
      rw [← h.2]
      exact a1.trans ((esp_timer_get_time_advances p1).trans (waitWhile_advances _ _ _ _ _ _ h2))
    · next p2 h2 =>
      have a2 := a1.trans
        ((esp_timer_get_time_advances p1).trans (waitWhile_advances _ _ _ _ _ _ h2))
      split at h
      · simp at h
      · next p3 h3 =>
        simp only [Option.some.injEq, Prod.mk.injEq] at h
        rw [← h.2]
        exact a2.trans
          ((esp_timer_get_time_advances p2).trans (waitWhile_advances _ _ _ _ _ _ h3))
      · next p3 h3 =>
        exact (a2.trans
          ((esp_timer_get_time_advances p2).trans (waitWhile_advances _ _ _ _ _ _ h3))).trans
            (ReadDataLoop_advances _ _ _ _ _ _ h)

/-- Whatever `ReadData` returns, it leaves the pin as an input, has issued exactly the start
signal, and has not touched the waveform or the clock. -/
theorem ReadData_afterExchange (fuel : Nat) (p p' : Pin) (r : ReadDataResult)
    (h : DHT11.ReadData fuel p = some (r, p')) : p' = afterExchange p p'.reads p'.ticks := by
  obtain ⟨a1, a2, a3, a4, -, -⟩ := ReadResponse_advances fuel _ p' r h
  cases p'
  simp only [afterExchange, Pin.mk.injEq] at *
  refine ⟨a1, a2, trivial, trivial, a3, ?_⟩
  rw [a4]; rfl

/-- A run of `ReadData` is known once its result and its two call counts are. -/
theorem ReadData_of_counts (fuel : Nat) (p : Pin) (r : ReadDataResult) (reads ticks : Nat)
    (h : (DHT11.ReadData fuel p).map (fun x => (x.1, x.2.reads, x.2.ticks)) =
      some (r, reads, ticks)) :
    DHT11.ReadData fuel p = some (r, afterExchange p reads ticks) := by
  cases hr : DHT11.ReadData fuel p with
  | none => rw [hr] at h; simp at h
  | some x =>
    obtain ⟨r', p'⟩ := x
    rw [hr] at h
    simp only [Option.map_some', Option.some.injEq, Prod.mk.injEq] at h
    obtain ⟨h1, h2, h3⟩ := h
    have := ReadData_afterExchange fuel p p' r' hr
    rw [h2, h3] at this
    rw [this, h1]

/-! ## The frame `ReadData` delivers -/

theorem ReadByteLoop_lt (fuel : Nat) (n : Nat) :
    ∀ (byte : Nat) (p p' : Pin) (r : Nat), n ≤ 8 → byte < 256 →
      DHT11.ReadByteLoop fuel n byte p = some (r, p') → r < 256 := by
  induction n with
  | zero =>
    intro byte p p' r _ hb h
    simp only [DHT11.ReadByteLoop, Option.some.injEq, Prod.mk.injEq] at h
    rw [← h.1]; exact hb
  | succ i ih =>
    intro byte p p' r hn hb h
    unfold DHT11.ReadByteLoop at h
    split at h
    · simp at h
    · next bit p1 h1 =>
      refine ih _ p1 p' r (by omega) ?_ h
      split_ifs
      · have h2 : (1 : Nat) <<< i < 2 ^ 8 := by
          rw [Nat.one_shiftLeft]
          exact Nat.pow_lt_pow_right (by omega) (by omega)
        exact Nat.or_lt_two_pow (n := 8) (by simpa using hb) h2
      · exact hb

theorem ReadDataLoop_bytes (fuel : Nat) (n : Nat) :
    ∀ (data out : List Nat) (p p' : Pin), (∀ d ∈ data, d < 256) →
      DHT11.ReadDataLoop fuel n data p = some (ReadDataResult.ok out, p') →
      out.length = data.length + n ∧ ∀ d ∈ out, d < 256 := by
  induction n with
  | zero =>
    intro data out p p' hd h
    simp only [DHT11.ReadDataLoop, Option.some.injEq, Prod.mk.injEq, ReadDataResult.ok.injEq] at h
    rw [← h.1]; exact ⟨rfl, hd⟩
  | succ i ih =>
    intro data out p p' hd h
    unfold DHT11.ReadDataLoop at h
    split at h
    · simp at h
    · simp at h
    · next byte p1 h1 =>
      have hb : byte < 256 := by
        unfold DHT11.ReadByte at h1
        split at h1
        · simp at h1
        · next b q hq =>
          simp only [Option.some.injEq, Prod.mk.injEq, true_and] at h1
          rw [← h1.1]
          exact ReadByteLoop_lt fuel 8 0 p q b le_rfl (by omega) hq
      obtain ⟨l, hall⟩ := ih (data ++ [byte]) out p1 p' (by
        intro d hd'
        rcases List.mem_append.mp hd' with h' | h'
        · exact hd d h'
        · rw [List.mem_singleton.mp h']; exact hb) h
      refine ⟨?_, hall⟩
      rw [l, List.length_append, List.length_singleton]; omega

/-- What `ReadData` delivers is five bytes. -/
theorem ReadData_bytes (fuel : Nat) (p p' : Pin) (data : List Nat)
    (h : DHT11.ReadData fuel p = some (ReadDataResult.ok data, p')) :
    data.length = 5 ∧ ∀ d ∈ data, d < 256 := by
  unfold DHT11.ReadData DHT11.ReadResponse at h
  split at h
  · simp at h
  · simp at h
  · split at h
    · simp at h
    · simp at h
    · split at h
      · simp at h
      · simp at h
      · have := ReadDataLoop_bytes fuel 5 [] data _ p' (by simp) h
        simpa using this

/-! ## Read: decoding a delivered frame -/

theorem Read_eq_Decode (fuel : Nat) (self : DHT11) (p p1 : Pin) (r : ReadDataResult)
    (h : DHT11.ReadData fuel p = some (r, p1)) :
    DHT11.Read fuel self p = some ((DHT11.Decode self r).1, (DHT11.Decode self r).2, p1) := by
  unfold DHT11.Read
  rw [h]

theorem Decode_fail (self : DHT11) (e : ReadDataError) :
    DHT11.Decode self (ReadDataResult.fail e) =
      (ReadStatus.read_data_failed e, { self with data_valid_ := false }) := rfl

theorem Decode_checksum_mismatch (self : DHT11) (d0 d1 d2 d3 d4 : ℕ)
    (h : d4 ≠ (d0 + d1 + d2 + d3) % 256) :
    DHT11.Decode self (ReadDataResult.ok [d0, d1, d2, d3, d4]) =
      (ReadStatus.checksum_error, { self with data_valid_ := false }) := by
  unfold DHT11.Decode
  have h' : (d0 + d1 + d2 + d3) % 256 ≠ d4 := fun e => h e.symm
  simp [h']

/-- With a matching checksum, `Decode` is decided by the two float range checks. -/
theorem Decode_checksum_ok (self : DHT11) (d0 d1 d2 d3 d4 : ℕ)
    (h : d4 = (d0 + d1 + d2 + d3) % 256) :
    DHT11.Decode self (ReadDataResult.ok [d0, d1, d2, d3, d4]) =
      if f32add (d2 : ℚ) (f32div (d3 : ℚ) 10) < 0 ∨ f32add (d2 : ℚ) (f32div (d3 : ℚ) 10) > 50 then
        (ReadStatus.temperature_out_of_range,
          { temperature_ := f32add (d2 : ℚ) (f32div (d3 : ℚ) 10),
            humidity_ := f32add (d0 : ℚ) (f32div (d1 : ℚ) 10), data_valid_ := false })
      else if f32add (d0 : ℚ) (f32div (d1 : ℚ) 10) < 20 ∨
          f32add (d0 : ℚ) (f32div (d1 : ℚ) 10) > 90 then
        (ReadStatus.humidity_out_of_range,
          { temperature_ := f32add (d2 : ℚ) (f32div (d3 : ℚ) 10),
            humidity_ := f32add (d0 : ℚ) (f32div (d1 : ℚ) 10), data_valid_ := false })
      else
        (ReadStatus.success,
          { temperature_ := f32add (d2 : ℚ) (f32div (d3 : ℚ) 10),
            humidity_ := f32add (d0 : ℚ) (f32div (d1 : ℚ) 10), data_valid_ := true }) := by
  unfold DHT11.Decode
  simp [h]

/-- Bounds on the bytes of a frame whose exact values lie in the sensor's range. -/
theorem bytes_of_range (a b : ℕ) (N : ℕ) (hN : N ≤ 100) (h : (a : ℚ) + (b : ℚ) / 10 ≤ N) :
    a ≤ 1000 ∧ b ≤ 1000 := by
  have h1 : (10 * a + b : ℚ) ≤ 10 * N := by linarith
  have h2 : 10 * a + b ≤ 10 * N := by exact_mod_cast h1
  omega

theorem Decode_in_range (self : DHT11) (d0 d1 d2 d3 d4 : ℕ)
    (hsum : d4 = (d0 + d1 + d2 + d3) % 256)
    (ht1 : (d2 : ℚ) + (d3 : ℚ) / 10 ≤ 50)
    (hh0 : 20 ≤ (d0 : ℚ) + (d1 : ℚ) / 10) (hh1 : (d0 : ℚ) + (d1 : ℚ) / 10 ≤ 90) :
    DHT11.Decode self (ReadDataResult.ok [d0, d1, d2, d3, d4]) =
      (ReadStatus.success,
        { temperature_ := f32add (d2 : ℚ) (f32div (d3 : ℚ) 10),
          humidity_ := f32add (d0 : ℚ) (f32div (d1 : ℚ) 10), data_valid_ := true }) := by
  obtain ⟨ha2, hb3⟩ := bytes_of_range d2 d3 50 (by omega) (by exact_mod_cast ht1)
  obtain ⟨ha0, hb1⟩ := bytes_of_range d0 d1 90 (by omega) (by exact_mod_cast hh1)
  have t0 : (0 : ℚ) ≤ f32add (d2 : ℚ) (f32div (d3 : ℚ) 10) := by
    have := decode_ge d2 d3 0 ha2 hb3 (by push_cast; positivity)
    simpa using this
  have t1 : f32add (d2 : ℚ) (f32div (d3 : ℚ) 10) ≤ 50 := by
    have := decode_le d2 d3 50 ha2 hb3 (by exact_mod_cast ht1)
    simpa using this
  have h0 : (20 : ℚ) ≤ f32add (d0 : ℚ) (f32div (d1 : ℚ) 10) := by
    have := decode_ge d0 d1 20 ha0 hb1 (by exact_mod_cast hh0)
    simpa using this
  have h1 : f32add (d0 : ℚ) (f32div (d1 : ℚ) 10) ≤ 90 := by
    have := decode_le d0 d1 90 ha0 hb1 (by exact_mod_cast hh1)
    simpa using this
  rw [Decode_checksum_ok self d0 d1 d2 d3 d4 hsum,
    if_neg (by rintro (h | h) <;> linarith), if_neg (by rintro (h | h) <;> linarith)]

theorem Decode_out_of_range (self : DHT11) (d0 d1 d2 d3 d4 : ℕ)
    (hd0 : d0 < 256) (hd1 : d1 < 256) (hd2 : d2 < 256) (hd3 : d3 < 256)
    (hsum : d4 = (d0 + d1 + d2 + d3) % 256)
    (hout : (d2 : ℚ) + (d3 : ℚ) / 10 < 0 ∨ 50 < (d2 : ℚ) + (d3 : ℚ) / 10 ∨
      (d0 : ℚ) + (d1 : ℚ) / 10 < 20 ∨ 90 < (d0 : ℚ) + (d1 : ℚ) / 10) :
    DHT11.Decode self (ReadDataResult.ok [d0, d1, d2, d3, d4]) =
      (if 50 < (d2 : ℚ) + (d3 : ℚ) / 10 then ReadStatus.temperature_out_of_range
        else ReadStatus.humidity_out_of_range,
        { temperature_ := f32add (d2 : ℚ) (f32div (d3 : ℚ) 10),
          humidity_ := f32add (d0 : ℚ) (f32div (d1 : ℚ) 10), data_valid_ := false }) := by
  have tnn : (0 : ℚ) ≤ (d2 : ℚ) + (d3 : ℚ) / 10 := by positivity
  rw [Decode_checksum_ok self d0 d1 d2 d3 d4 hsum]
  by_cases htemp : 50 < (d2 : ℚ) + (d3 : ℚ) / 10
  · have := decode_gt d2 d3 50 (by omega) (by omega) (by exact_mod_cast htemp)
    rw [if_pos (Or.inr (by simpa using this)), if_pos htemp]
  · have t0 : (0 : ℚ) ≤ f32add (d2 : ℚ) (f32div (d3 : ℚ) 10) := by
      have := decode_ge d2 d3 0 (by omega) (by omega) (by push_cast; positivity)
      simpa using this
    have t1 : f32add (d2 : ℚ) (f32div (d3 : ℚ) 10) ≤ 50 := by
      have := decode_le d2 d3 50 (by omega) (by omega) (by push_cast; linarith)
      simpa using this
    rw [if_neg (by rintro (h | h) <;> linarith), if_neg htemp]
    have hhum : (d0 : ℚ) + (d1 : ℚ) / 10 < 20 ∨ 90 < (d0 : ℚ) + (d1 : ℚ) / 10 := by
      rcases hout with h | h | h | h
      · linarith
      · exact absurd h htemp
      · exact Or.inl h
      · exact Or.inr h
    rcases hhum with h | h
    · have := decode_lt d0 d1 20 (by omega) (by omega) (by exact_mod_cast h)
      rw [if_pos (Or.inl (by simpa using this))]
    · have := decode_gt d0 d1 90 (by omega) (by omega) (by exact_mod_cast h)
      rw [if_pos (Or.inr (by simpa using this))]

/-! ## The simulated sensors, run -/

theorem pinValid_ReadData :
    DHT11.ReadData 20 pinValid =
      some (ReadDataResult.ok [40, 0, 25, 0, 65], afterExchange pinValid 208 248) := by
  apply ReadData_of_counts
  set_option maxRecDepth 100000 in decide

theorem pinTenth_ReadData :
    DHT11.ReadData 20 pinTenth =
      some (ReadDataResult.ok [20, 1, 25, 0, 46], afterExchange pinTenth 206 246) := by
  apply ReadData_of_counts
  set_option maxRecDepth 100000 in decide

theorem pinBadSum_ReadData :
    DHT11.ReadData 20 pinBadSum =
      some (ReadDataResult.ok [40, 0, 25, 0, 66], afterExchange pinBadSum 206 246) := by
  apply ReadData_of_counts
  set_option maxRecDepth 100000 in decide

theorem pinZero_ReadData :
    DHT11.ReadData 20 pinZero =
      some (ReadDataResult.ok [0, 0, 0, 0, 0], afterExchange pinZero 206 246) := by
  apply ReadData_of_counts
  set_option maxRecDepth 100000 in decide

/-! ## Values of the simulated frames -/

theorem f32_tenth : f32div ((1 : ℕ) : ℚ) 10 = 13421773 / 134217728 := by
  unfold f32div
  rw [f32round_eval _ (-4) 13421773 (by norm_num) (by norm_num) (by norm_num) (by norm_num)
    (by norm_num)]
  norm_num

theorem f32_twenty_and_tenth :
    f32add ((20 : ℕ) : ℚ) (f32div ((1 : ℕ) : ℚ) 10) = 10538189 / 524288 := by
  rw [f32_tenth]
  unfold f32add
  rw [f32round_eval _ 4 10538189 (by norm_num) (by norm_num) (by norm_num) (by norm_num)
    (by norm_num)]
  norm_num

theorem f32_whole (a : ℕ) (ha : a ≤ 1000) : f32add (a : ℚ) (f32div ((0 : ℕ) : ℚ) 10) = a := by
  rw [decode_exact a 0 ha (by omega) (by omega)]
  simp

/-! ## C1 to C4: `DHT11::Read` on a delivered frame -/

/-- C1 (as stated, refuted): the simulated sensor delivers the frame `[20, 1, 25, 0, 46]`,
whose checksum matches and whose exact values 20.1 and 25.0 are in range; `Read` succeeds,
but `GetHumidity()` is the binary32 number 10538189 / 2^19, not the rational 20 + 1/10. -/
theorem Read_tenth_not_exact :
    DHT11.ReadData 20 pinTenth =
      some (ReadDataResult.ok [20, 1, 25, 0, 46], afterExchange pinTenth 206 246) ∧
    (46 : ℕ) = (20 + 1 + 25 + 0) % 256 ∧
    ((0 : ℚ) ≤ 25 + 0 / 10 ∧ (25 : ℚ) + 0 / 10 ≤ 50) ∧
    ((20 : ℚ) ≤ 20 + 1 / 10 ∧ (20 : ℚ) + 1 / 10 ≤ 90) ∧
    DHT11.Read 20 DHT11.init pinTenth =
      some (ReadStatus.success,
        { temperature_ := 25, humidity_ := 10538189 / 524288, data_valid_ := true },
        afterExchange pinTenth 206 246) ∧
    DHT11.GetHumidity
      { temperature_ := 25, humidity_ := 10538189 / 524288, data_valid_ := true } ≠
        20 + 1 / 10 := by
  refine ⟨pinTenth_ReadData, by norm_num, by norm_num, by norm_num, ?_, ?_⟩
  · rw [Read_eq_Decode 20 DHT11.init _ _ _ pinTenth_ReadData,
      Decode_in_range DHT11.init 20 1 25 0 46 (by norm_num) (by norm_num) (by norm_num)
        (by norm_num),
      f32_twenty_and_tenth, f32_whole 25 (by omega)]
    norm_num
  · unfold DHT11.GetHumidity
    norm_num

/-- C1 (amended): when the pin delivers a frame whose checksum matches and whose exact
values `d2 + d3/10` and `d0 + d1/10` lie in `[0, 50]` and `[20, 90]`, `Read` returns
success and marks the reading valid; `GetHumidity()` and `GetTemperature()` are the
binary32 results of `d0 + d1/10` and `d2 + d3/10`, which lie within `2^-16` of the exact
rationals and equal them when the fractional byte is a multiple of 5. -/
theorem Read_valid_frame (fuel : Nat) (self : DHT11) (p p' : Pin) (d0 d1 d2 d3 d4 : ℕ)
    (hdata : DHT11.ReadData fuel p = some (ReadDataResult.ok [d0, d1, d2, d3, d4], p'))
    (hsum : d4 = (d0 + d1 + d2 + d3) % 256)
    (ht : 0 ≤ (d2 : ℚ) + (d3 : ℚ) / 10 ∧ (d2 : ℚ) + (d3 : ℚ) / 10 ≤ 50)
    (hh : 20 ≤ (d0 : ℚ) + (d1 : ℚ) / 10 ∧ (d0 : ℚ) + (d1 : ℚ) / 10 ≤ 90) :
    ∃ s : DHT11,
      DHT11.Read fuel self p = some (ReadStatus.success, s, p') ∧
      ReadStatus.success.toBool = true ∧
      s.data_valid_ = true ∧
      s.GetHumidity = f32add (d0 : ℚ) (f32div (d1 : ℚ) 10) ∧
      s.GetTemperature = f32add (d2 : ℚ) (f32div (d3 : ℚ) 10) ∧
      |s.GetHumidity - ((d0 : ℚ) + (d1 : ℚ) / 10)| ≤ 1 / 65536 ∧
      |s.GetTemperature - ((d2 : ℚ) + (d3 : ℚ) / 10)| ≤ 1 / 65536 ∧
      (5 ∣ d1 → s.GetHumidity = (d0 : ℚ) + (d1 : ℚ) / 10) ∧
      (5 ∣ d3 → s.GetTemperature = (d2 : ℚ) + (d3 : ℚ) / 10) := by
  obtain ⟨ha2, hb3⟩ := bytes_of_range d2 d3 50 (by omega) (by exact_mod_cast ht.2)
  obtain ⟨ha0, hb1⟩ := bytes_of_range d0 d1 90 (by omega) (by exact_mod_cast hh.2)
  refine ⟨DHT11.mk (f32add (d2 : ℚ) (f32div (d3 : ℚ) 10)) (f32add (d0 : ℚ) (f32div (d1 : ℚ) 10))
    true, ?_, rfl, rfl, rfl, rfl, ?_, ?_, ?_, ?_⟩
  · rw [Read_eq_Decode fuel self p p' _ hdata,
      Decode_in_range self d0 d1 d2 d3 d4 hsum ht.2 hh.1 hh.2]
  · exact decode_error d0 d1 hb1 (by linarith [hh.2])
  · exact decode_error d2 d3 hb3 (by linarith [ht.2])
  · exact decode_exact d0 d1 ha0 hb1
  · exact decode_exact d2 d3 ha2 hb3

/-- C1 (amended), at the simulated sensor that answers 40.0 %RH and 25.0 °C. -/
theorem Read_valid_frame_witness :
    DHT11.ReadData 20 pinValid =
      some (ReadDataResult.ok [40, 0, 25, 0, 65], afterExchange pinValid 208 248) ∧
    ∃ s : DHT11,
      DHT11.Read 20 DHT11.init pinValid =
        some (ReadStatus.success, s, afterExchange pinValid 208 248) ∧
      ReadStatus.success.toBool = true ∧
      s.data_valid_ = true ∧
      s.GetHumidity = f32add ((40 : ℕ) : ℚ) (f32div ((0 : ℕ) : ℚ) 10) ∧
      s.GetTemperature = f32add ((25 : ℕ) : ℚ) (f32div ((0 : ℕ) : ℚ) 10) ∧
      |s.GetHumidity - (((40 : ℕ) : ℚ) + ((0 : ℕ) : ℚ) / 10)| ≤ 1 / 65536 ∧
      |s.GetTemperature - (((25 : ℕ) : ℚ) + ((0 : ℕ) : ℚ) / 10)| ≤ 1 / 65536 ∧
      (5 ∣ 0 → s.GetHumidity = ((40 : ℕ) : ℚ) + ((0 : ℕ) : ℚ) / 10) ∧
      (5 ∣ 0 → s.GetTemperature = ((25 : ℕ) : ℚ) + ((0 : ℕ) : ℚ) / 10) :=
  ⟨pinValid_ReadData,
    Read_valid_frame 20 DHT11.init pinValid _ 40 0 25 0 65 pinValid_ReadData (by norm_num)
      (by norm_num) (by norm_num)⟩

/-- C2: when the pin delivers a frame whose last byte differs from the sum of the first
four modulo 256, `Read` returns false through the checksum error, leaves the held values
as they were and marks the reading not valid, whatever the decoded values are. -/
theorem Read_checksum_mismatch (fuel : Nat) (self : DHT11) (p p' : Pin) (d0 d1 d2 d3 d4 : ℕ)
    (hdata : DHT11.ReadData fuel p = some (ReadDataResult.ok [d0, d1, d2, d3, d4], p'))
    (hsum : d4 ≠ (d0 + d1 + d2 + d3) % 256) :
    DHT11.Read fuel self p =
      some (ReadStatus.checksum_error, { self with data_valid_ := false }, p') ∧
    ReadStatus.checksum_error.toBool = false := by
  refine ⟨?_, rfl⟩
  rw [Read_eq_Decode fuel self p p' _ hdata, Decode_checksum_mismatch self d0 d1 d2 d3 d4 hsum]

/-- C2, at the simulated sensor whose frame `[40, 0, 25, 0, 66]` decodes to in-range values
but carries the wrong checksum. -/
theorem Read_checksum_mismatch_witness :
    DHT11.ReadData 20 pinBadSum =
      some (ReadDataResult.ok [40, 0, 25, 0, 66], afterExchange pinBadSum 206 246) ∧
    (66 : ℕ) ≠ (40 + 0 + 25 + 0) % 256 ∧
    DHT11.Read 20 heldReading pinBadSum =
      some (ReadStatus.checksum_error, { heldReading with data_valid_ := false },
        afterExchange pinBadSum 206 246) ∧
    ReadStatus.checksum_error.toBool = false :=
  ⟨pinBadSum_ReadData, by norm_num,
    Read_checksum_mismatch 20 heldReading pinBadSum _ 40 0 25 0 66 pinBadSum_ReadData
      (by norm_num)⟩

/-- C3: when the pin delivers a frame (five bytes) whose checksum matches but whose exact
temperature `d2 + d3/10` is outside `[0, 50]` or whose exact humidity `d0 + d1/10` is
outside `[20, 90]`, `Read` returns false through a range error (the temperature one when
the temperature is out of range, else the humidity one) and marks the reading not valid. -/
theorem Read_out_of_range (fuel : Nat) (self : DHT11) (p p' : Pin) (d0 d1 d2 d3 d4 : ℕ)
    (hdata : DHT11.ReadData fuel p = some (ReadDataResult.ok [d0, d1, d2, d3, d4], p'))
    (hsum : d4 = (d0 + d1 + d2 + d3) % 256)
    (hout : (d2 : ℚ) + (d3 : ℚ) / 10 < 0 ∨ 50 < (d2 : ℚ) + (d3 : ℚ) / 10 ∨
      (d0 : ℚ) + (d1 : ℚ) / 10 < 20 ∨ 90 < (d0 : ℚ) + (d1 : ℚ) / 10) :
    ∃ (st : ReadStatus) (s : DHT11),
      DHT11.Read fuel self p = some (st, s, p') ∧
      (st = if 50 < (d2 : ℚ) + (d3 : ℚ) / 10 then ReadStatus.temperature_out_of_range
        else ReadStatus.humidity_out_of_range) ∧
      st.toBool = false ∧ s.data_valid_ = false := by
  have hbytes := (ReadData_bytes fuel p p' _ hdata).2
  have hd0 : d0 < 256 := hbytes d0 (by simp)
  have hd1 : d1 < 256 := hbytes d1 (by simp)
  have hd2 : d2 < 256 := hbytes d2 (by simp)
  have hd3 : d3 < 256 := hbytes d3 (by simp)
  refine ⟨_, DHT11.mk (f32add (d2 : ℚ) (f32div (d3 : ℚ) 10))
    (f32add (d0 : ℚ) (f32div (d1 : ℚ) 10)) false, ?_, rfl, ?_, rfl⟩
  · rw [Read_eq_Decode fuel self p p' _ hdata,
      Decode_out_of_range self d0 d1 d2 d3 d4 hd0 hd1 hd2 hd3 hsum hout]
  · split_ifs <;> rfl

/-- C3, at the all-zero frame: its checksum 0 matches and `Read` rejects it. -/
theorem Read_out_of_range_witness :
    DHT11.ReadData 20 pinZero =
      some (ReadDataResult.ok [0, 0, 0, 0, 0], afterExchange pinZero 206 246) ∧
    (0 : ℕ) = (0 + 0 + 0 + 0) % 256 ∧
    ∃ (st : ReadStatus) (s : DHT11),
      DHT11.Read 20 heldReading pinZero = some (st, s, afterExchange pinZero 206 246) ∧
      (st = if 50 < ((0 : ℕ) : ℚ) + ((0 : ℕ) : ℚ) / 10 then ReadStatus.temperature_out_of_range
        else ReadStatus.humidity_out_of_range) ∧
      st.toBool = false ∧ s.data_valid_ = false :=
  ⟨pinZero_ReadData, by norm_num,
    Read_out_of_range 20 heldReading pinZero _ 0 0 0 0 0 pinZero_ReadData (by norm_num)
      (by norm_num)⟩

/-- C4 (as stated, refuted): a sensor object holding 25.0 °C and 40.0 %RH reads the all-zero
frame; `Read` fails with the humidity range error and the held values are now 0 and 0. -/
theorem Read_range_error_overwrites :
    DHT11.Read 20 heldReading pinZero =
      some (ReadStatus.humidity_out_of_range,
        { temperature_ := 0, humidity_ := 0, data_valid_ := false },
        afterExchange pinZero 206 246) ∧
    ReadStatus.humidity_out_of_range.toBool = false ∧
    heldReading.temperature_ = 25 ∧ heldReading.humidity_ = 40 ∧
    DHT11.temperature_ { temperature_ := 0, humidity_ := 0, data_valid_ := false } ≠
      heldReading.temperature_ ∧
    DHT11.humidity_ { temperature_ := 0, humidity_ := 0, data_valid_ := false } ≠
      heldReading.humidity_ := by
  refine ⟨?_, rfl, rfl, rfl, ?_, ?_⟩
  · rw [Read_eq_Decode 20 heldReading _ _ _ pinZero_ReadData,
      Decode_out_of_range heldReading 0 0 0 0 0 (by omega) (by omega) (by omega) (by omega)
        (by norm_num) (by norm_num),
      f32_whole 0 (by omega)]
    norm_num
  · simp [heldReading]
  · simp [heldReading]

/-- C4 (amended): every failing `Read` marks the reading not valid.  When it fails in
`ReadData` or on the checksum, the held temperature and humidity are the values held
before the call; when it fails on a range check, they are the values decoded from the
rejected frame. -/
theorem Read_failure_held_values (fuel : Nat) (self s : DHT11) (p p' : Pin) (st : ReadStatus)
    (h : DHT11.Read fuel self p = some (st, s, p')) (hfail : st.toBool = false) :
    s.data_valid_ = false ∧
    ((st = ReadStatus.checksum_error ∨ ∃ e, st = ReadStatus.read_data_failed e) →
      s.temperature_ = self.temperature_ ∧ s.humidity_ = self.humidity_) ∧
    ((st = ReadStatus.temperature_out_of_range ∨ st = ReadStatus.humidity_out_of_range) →
      ∃ data, DHT11.ReadData fuel p = some (ReadDataResult.ok data, p') ∧
        s.temperature_ = f32add (data.getD 2 0 : ℚ) (f32div (data.getD 3 0 : ℚ) 10) ∧
        s.humidity_ = f32add (data.getD 0 0 : ℚ) (f32div (data.getD 1 0 : ℚ) 10)) := by
  unfold DHT11.Read at h
  cases hr : DHT11.ReadData fuel p with
  | none => rw [hr] at h; simp at h
  | some x =>
    obtain ⟨r, p1⟩ := x
    rw [hr] at h
    simp only [Option.some.injEq, Prod.mk.injEq] at h
    obtain ⟨h1, h2, h3⟩ := h
    subst h1 h2 h3
    cases r with
    | fail e => simp [DHT11.Decode]
    | ok data =>
      unfold DHT11.Decode at hfail ⊢
      simp only at hfail ⊢
      split_ifs at hfail ⊢ <;> simp_all [ReadStatus.toBool]

/-- C4 (amended), at the sensor object holding 25.0 °C and 40.0 %RH that reads a frame with
a wrong checksum. -/
theorem Read_failure_held_values_witness :
    DHT11.Read 20 heldReading pinBadSum =
      some (ReadStatus.checksum_error, { heldReading with data_valid_ := false },
        afterExchange pinBadSum 206 246) ∧
    ReadStatus.checksum_error.toBool = false ∧
    DHT11.data_valid_ { heldReading with data_valid_ := false } = false ∧
    ((ReadStatus.checksum_error = ReadStatus.checksum_error ∨
        ∃ e, ReadStatus.checksum_error = ReadStatus.read_data_failed e) →
      DHT11.temperature_ { heldReading with data_valid_ := false } = heldReading.temperature_ ∧
      DHT11.humidity_ { heldReading with data_valid_ := false } = heldReading.humidity_) ∧
    ((ReadStatus.checksum_error = ReadStatus.temperature_out_of_range ∨
        ReadStatus.checksum_error = ReadStatus.humidity_out_of_range) →
      ∃ data, DHT11.ReadData 20 pinBadSum =
          some (ReadDataResult.ok data, afterExchange pinBadSum 206 246) ∧
        DHT11.temperature_ { heldReading with data_valid_ := false } =
          f32add (data.getD 2 0 : ℚ) (f32div (data.getD 3 0 : ℚ) 10) ∧
        DHT11.humidity_ { heldReading with data_valid_ := false } =
          f32add (data.getD 0 0 : ℚ) (f32div (data.getD 1 0 : ℚ) 10)) :=
  have hread : DHT11.Read 20 heldReading pinBadSum =
      some (ReadStatus.checksum_error, { heldReading with data_valid_ := false },
        afterExchange pinBadSum 206 246) := by
    rw [Read_eq_Decode 20 heldReading _ _ _ pinBadSum_ReadData,
      Decode_checksum_mismatch heldReading 40 0 25 0 66 (by norm_num)]
  ⟨hread, rfl, Read_failure_held_values 20 heldReading _ pinBadSum _ _ hread rfl⟩

/-! ## C5 and C6: `DHT11::ReadBit` -/

theorem pinStretched_ReadData :
    DHT11.ReadData 20 pinStretched =
      some (ReadDataResult.ok [40, 0, 25, 0, 65], afterExchange pinStretched 213 253) := by
  apply ReadData_of_counts
  set_option maxRecDepth 100000 in decide

/-- C5 (the code at the failing input): the simulated sensor completes the handshake (the
three waits of `ReadData` end without a timeout) and then holds the high phase of the
first data bit for six samples, 150 microseconds.  The third loop of the first `ReadBit`
starts at clock value 250 and returns through its timeout at 375; `ReadBit` hands that
back as `false`, `ReadByte` takes it as a 0 bit, and `Read` returns success with a valid
reading of 25.0 °C and 40.0 %RH. -/
theorem Read_stretched_bit_succeeds :
    DHT11.StartSignal pinStretched = afterExchange pinStretched 0 0 ∧
    waitWhile true (esp_timer_get_time (afterExchange pinStretched 0 0)).1 20
        (esp_timer_get_time (afterExchange pinStretched 0 0)).2 =
      some (true, afterExchange pinStretched 2 2) ∧
    waitWhile false (esp_timer_get_time (afterExchange pinStretched 2 2)).1 20
        (esp_timer_get_time (afterExchange pinStretched 2 2)).2 =
      some (true, afterExchange pinStretched 5 5) ∧
    waitWhile true (esp_timer_get_time (afterExchange pinStretched 5 5)).1 20
        (esp_timer_get_time (afterExchange pinStretched 5 5)).2 =
      some (true, afterExchange pinStretched 8 8) ∧
    (∀ k, 9 ≤ k → k < 15 → pinStretched.levels k = true) ∧
    pinStretched.clock 15 - pinStretched.clock 9 = 150 ∧
    waitWhile true (pinStretched.clock 10) 20 (afterExchange pinStretched 10 11) =
      some (false, afterExchange pinStretched 15 16) ∧
    DHT11.ReadBit 20 (afterExchange pinStretched 8 8) =
      some (false, afterExchange pinStretched 15 16) ∧
    DHT11.Read 20 DHT11.init pinStretched =
      some (ReadStatus.success, { temperature_ := 25, humidity_ := 40, data_valid_ := true },
        afterExchange pinStretched 213 253) ∧
    ReadStatus.success.toBool = true := by
  refine ⟨rfl, by rfl, by rfl, by rfl, by decide, by decide, by rfl, by rfl, ?_, rfl⟩
  rw [Read_eq_Decode 20 DHT11.init _ _ _ pinStretched_ReadData,
    Decode_in_range DHT11.init 40 0 25 0 65 (by norm_num) (by norm_num) (by norm_num)
      (by norm_num),
    f32_whole 40 (by omega), f32_whole 25 (by omega)]
  norm_num

/-- C6: when the three loops of `ReadBit` are all left without a timeout, the bit returned
is decided by the measured duration alone (the clock value read after the third loop minus
the `start_time` read before it): a duration of at most 50 gives 0, a duration above 50
gives 1, and exactly 50 gives 0. -/
theorem ReadBit_threshold (fuel : Nat) (p p1 p2 p3 : Pin)
    (h1 : waitWhile true (esp_timer_get_time p).1 fuel (esp_timer_get_time p).2 =
      some (true, p1))
    (h2 : waitWhile false (esp_timer_get_time p1).1 fuel (esp_timer_get_time p1).2 =
      some (true, p2))
    (h3 : waitWhile true (esp_timer_get_time p2).1 fuel (esp_timer_get_time p2).2 =
      some (true, p3)) :
    DHT11.ReadBit fuel p =
      some (decide (p3.clock p3.ticks - p2.clock p2.ticks > 50), (esp_timer_get_time p3).2) ∧
    (p3.clock p3.ticks - p2.clock p2.ticks ≤ 50 →
      DHT11.ReadBit fuel p = some (false, (esp_timer_get_time p3).2)) ∧
    (p3.clock p3.ticks - p2.clock p2.ticks > 50 →
      DHT11.ReadBit fuel p = some (true, (esp_timer_get_time p3).2)) ∧
    (p3.clock p3.ticks - p2.clock p2.ticks = 50 →
      DHT11.ReadBit fuel p = some (false, (esp_timer_get_time p3).2)) := by
  have h : DHT11.ReadBit fuel p =
      some (decide (p3.clock p3.ticks - p2.clock p2.ticks > 50), (esp_timer_get_time p3).2) := by
    unfold DHT11.ReadBit
    rw [h1]; simp only
    rw [h2]; simp only
    rw [h3]; simp only
    rfl
  refine ⟨h, ?_, ?_, ?_⟩
  · intro hd
    rw [h, decide_eq_false (by omega)]
  · intro hd
    rw [h, decide_eq_true hd]
  · intro hd
    rw [h, decide_eq_false (by omega)]

/-- C6, at a bit whose high phase measures exactly 50 microseconds. -/
theorem ReadBit_threshold_witness :
    waitWhile true (esp_timer_get_time pinBoundary).1 20 (esp_timer_get_time pinBoundary).2 =
      some (true, { pinBoundary with reads := 1, ticks := 1 }) ∧
    waitWhile false (esp_timer_get_time { pinBoundary with reads := 1, ticks := 1 }).1 20
        (esp_timer_get_time { pinBoundary with reads := 1, ticks := 1 }).2 =
      some (true, { pinBoundary with reads := 2, ticks := 2 }) ∧
    waitWhile true (esp_timer_get_time { pinBoundary with reads := 2, ticks := 2 }).1 20
        (esp_timer_get_time { pinBoundary with reads := 2, ticks := 2 }).2 =
      some (true, { pinBoundary with reads := 4, ticks := 4 }) ∧
    pinBoundary.clock 4 - pinBoundary.clock 2 = 50 ∧
    DHT11.ReadBit 20 pinBoundary = some (false, { pinBoundary with reads := 4, ticks := 5 }) :=
  ⟨rfl, rfl, rfl, by decide,
    (ReadBit_threshold 20 pinBoundary { pinBoundary with reads := 1, ticks := 1 }
      { pinBoundary with reads := 2, ticks := 2 } { pinBoundary with reads := 4, ticks := 4 }
      rfl rfl rfl).2.2.2 (by decide)⟩

/-! ## C7: a sensor that does not answer -/

/-- A wait whose line stays at `lvl` until the clock has passed the timeout returns through
the timeout, provided the clock strictly advances and the loop may run 101 times. -/
theorem waitWhile_times_out (lvl : Bool) (start_time : Int) (fuel : Nat) :
    ∀ q : Pin, StrictMono q.clock → q.levels q.reads = lvl →
      (∀ j, q.clock (q.ticks + j) - start_time ≤ 100 → q.levels (q.reads + 1 + j) = lvl) →
      0 < fuel → 101 < (fuel : Int) + (q.clock q.ticks - start_time) →
      ∃ q', waitWhile lvl start_time fuel q = some (false, q') := by
  induction fuel with
  | zero => intro q _ _ _ h; omega
  | succ n ih =>
    intro q hmono h0 hheld _ hfuel
    unfold waitWhile
    have e1 : (gpio_get_level q).1 = lvl := h0
    rw [if_pos e1]
    by_cases hto : (esp_timer_get_time (gpio_get_level q).2).1 - start_time > 100
    · rw [if_pos hto]; exact ⟨_, rfl⟩
    · rw [if_neg hto]
      have hnow : q.clock q.ticks - start_time ≤ 100 := by
        have : (esp_timer_get_time (gpio_get_level q).2).1 = q.clock q.ticks := rfl
        rw [this] at hto; omega
      have hnext : q.clock q.ticks < q.clock (q.ticks + 1) := hmono (Nat.lt_succ_self _)
      apply ih
      · exact hmono
      · have := hheld 0 (by simpa using hnow)
        simpa [esp_timer_get_time, gpio_get_level] using this
      · intro j hj
        have := hheld (j + 1) (by
          have e : q.ticks + (j + 1) = q.ticks + 1 + j := by omega
          rw [e]; exact hj)
        have e2 : q.reads + 1 + (j + 1) = q.reads + 1 + 1 + j := by omega
        rw [e2] at this
        exact this
      · push_cast at hfuel; omega
      · show 101 < (n : Int) + (q.clock (q.ticks + 1) - start_time)
        push_cast at hfuel; omega

/-- The same, for the wait as the source starts it: `start_time` is read first. -/
theorem waitWhile_held (lvl : Bool) (fuel : Nat) (p : Pin) (hmono : StrictMono p.clock)
    (hheld : p.HeldPastTimeout lvl) (hfuel : 101 ≤ fuel) :
    ∃ q', waitWhile lvl (esp_timer_get_time p).1 fuel (esp_timer_get_time p).2 =
      some (false, q') := by
  have hnext : p.clock p.ticks < p.clock (p.ticks + 1) := hmono (Nat.lt_succ_self _)
  refine waitWhile_times_out lvl (esp_timer_get_time p).1 fuel (esp_timer_get_time p).2
    hmono hheld.1 ?_ ?_ ?_
  · intro j hj
    exact hheld.2 j hj
  · omega
  · show 101 < (fuel : Int) + (p.clock (p.ticks + 1) - p.clock p.ticks)
    have : (101 : Int) ≤ fuel := by exact_mod_cast hfuel
    omega

/-- Every iteration of a wait samples the line once and, unless the level has changed,
reads the clock once: a wait left through the timeout has read the clock as often as the
line, a wait left by a level change once less. -/
theorem waitWhile_ticks (lvl : Bool) (start_time : Int) (fuel : Nat) :
    ∀ (q q' : Pin) (b : Bool), waitWhile lvl start_time fuel q = some (b, q') →
      q'.ticks + q.reads + (if b then 1 else 0) = q.ticks + q'.reads := by
  induction fuel with
  | zero => intro q q' b h; simp [waitWhile] at h
  | succ n ih =>
    intro q q' b h
    unfold waitWhile at h
    have hr : (esp_timer_get_time (gpio_get_level q).2).2.reads = q.reads + 1 := rfl
    have ht : (esp_timer_get_time (gpio_get_level q).2).2.ticks = q.ticks + 1 := rfl
    split_ifs at h with h1 h2
    · simp only [Option.some.injEq, Prod.mk.injEq] at h
      obtain ⟨hb, hq⟩ := h
      subst hb hq
      rw [hr, ht]; simp only [Bool.false_eq_true, if_false]; omega
    · have := ih _ _ _ h
      rw [hr, ht] at this
      omega
    · simp only [Option.some.injEq, Prod.mk.injEq] at h
      obtain ⟨hb, hq⟩ := h
      subst hb hq
      have hr1 : (gpio_get_level q).2.reads = q.reads + 1 := rfl
      have ht1 : (gpio_get_level q).2.ticks = q.ticks := rfl
      rw [hr1, ht1]; simp only [if_true]; omega

/-- On a clock that strictly advances a wait samples the line at most once after the
timeout has passed: it ends after one sample, or before the samples taken and the time
already elapsed add up to more than 102. -/
theorem waitWhile_reads (lvl : Bool) (start_time : Int) (fuel : Nat) :
    ∀ (q q' : Pin) (b : Bool), StrictMono q.clock →
      waitWhile lvl start_time fuel q = some (b, q') →
      (q'.reads : Int) ≤ q.reads + 1 ∨
        (q'.reads : Int) + (q.clock q.ticks - start_time) ≤ q.reads + 102 := by
  induction fuel with
  | zero => intro q q' b _ h; simp [waitWhile] at h
  | succ n ih =>
    intro q q' b hmono h
    unfold waitWhile at h
    have hr : (esp_timer_get_time (gpio_get_level q).2).2.reads = q.reads + 1 := rfl
    have ht : (esp_timer_get_time (gpio_get_level q).2).2.ticks = q.ticks + 1 := rfl
    have hc : (esp_timer_get_time (gpio_get_level q).2).2.clock = q.clock := rfl
    have hnow : (esp_timer_get_time (gpio_get_level q).2).1 = q.clock q.ticks := rfl
    split_ifs at h with h1 h2
    · simp only [Option.some.injEq, Prod.mk.injEq] at h
      rw [← h.2, hr]
      left; push_cast; omega
    · have hnext : q.clock q.ticks < q.clock (q.ticks + 1) := hmono (Nat.lt_succ_self _)
      have := ih _ _ _ (by rw [hc]; exact hmono) h
      rw [hr, ht, hc] at this
      rw [hnow] at h2
      push_cast at this
      right
      omega
    · simp only [Option.some.injEq, Prod.mk.injEq] at h
      rw [← h.2]
      have hr1 : (gpio_get_level q).2.reads = q.reads + 1 := rfl
      rw [hr1]
      left; push_cast; omega

/-- A wait as the source starts it (`start_time` is read first) on a clock that strictly
advances samples the line at most 101 times and, when it is left through the timeout,
reads the clock once more than the line. -/
theorem wait_counts (lvl : Bool) (fuel : Nat) (p p' : Pin) (b : Bool)
    (hmono : StrictMono p.clock)
    (h : waitWhile lvl (esp_timer_get_time p).1 fuel (esp_timer_get_time p).2 = some (b, p')) :
    p'.reads ≤ p.reads + 101 ∧
      p'.ticks + p.reads + (if b then 1 else 0) = p.ticks + 1 + p'.reads := by
  have hnext : p.clock p.ticks < p.clock (p.ticks + 1) := hmono (Nat.lt_succ_self _)
  have h1 := waitWhile_reads lvl _ fuel (esp_timer_get_time p).2 _ _ hmono h
  have h2 := waitWhile_ticks lvl _ fuel _ _ _ h
  have hr : (esp_timer_get_time p).2.reads = p.reads := rfl
  have ht : (esp_timer_get_time p).2.ticks = p.ticks + 1 := rfl
  have hc : (esp_timer_get_time p).2.clock = p.clock := rfl
  have hs : (esp_timer_get_time p).1 = p.clock p.ticks := rfl
  rw [hr, ht, hc, hs] at h1
  rw [hr, ht] at h2
  refine ⟨?_, h2⟩
  omega

theorem stuck_held (p : Pin) (lvl : Bool) (h : ∀ k, p.reads ≤ k → p.levels k = lvl) :
    p.HeldPastTimeout lvl :=
  ⟨h _ le_rfl, fun j _ => h _ (by omega)⟩

theorem StartSignal_levels (p : Pin) :
    (DHT11.StartSignal p).levels = p.levels ∧ (DHT11.StartSignal p).clock = p.clock ∧
      (DHT11.StartSignal p).reads = p.reads ∧ (DHT11.StartSignal p).ticks = p.ticks :=
  ⟨rfl, rfl, rfl, rfl⟩

/-- One call of `Read` in front of a line stuck high. -/
theorem Read_stuck_high (fuel : Nat) (hfuel : 101 ≤ fuel) (self : DHT11) (p : Pin)
    (hmono : StrictMono p.clock) (hstuck : ∀ k, p.reads ≤ k → p.levels k = true) :
    ∃ p', DHT11.Read fuel self p =
        some (ReadStatus.read_data_failed ReadDataError.response_timeout,
          { self with data_valid_ := false }, p') ∧
      p'.levels = p.levels ∧ p'.clock = p.clock ∧ p.reads ≤ p'.reads ∧
      p'.reads ≤ p.reads + 101 ∧ p'.ticks + p.reads = p.ticks + p'.reads + 1 := by
  obtain ⟨q', hq⟩ := waitWhile_held true fuel (DHT11.StartSignal p) hmono
    (stuck_held _ _ hstuck) hfuel
  have hdata : DHT11.ReadData fuel p =
      some (ReadDataResult.fail ReadDataError.response_timeout, q') := by
    unfold DHT11.ReadData DHT11.ReadResponse
    rw [hq]
  obtain ⟨a1, a2, -, -, a5, -⟩ := ReadResponse_advances fuel _ _ _ hdata
  obtain ⟨c1, c2⟩ := wait_counts true fuel (DHT11.StartSignal p) q' false hmono hq
  have hr : (DHT11.StartSignal p).reads = p.reads := rfl
  have ht : (DHT11.StartSignal p).ticks = p.ticks := rfl
  rw [hr] at c1
  rw [hr, ht] at c2
  simp only [Bool.false_eq_true, if_false] at c2
  exact ⟨q', by rw [Read_eq_Decode fuel self p q' _ hdata, Decode_fail], a1, a2, a5, c1,
    by omega⟩

/-- One call of `Read` in front of a line stuck low. -/
theorem Read_stuck_low (fuel : Nat) (hfuel : 101 ≤ fuel) (self : DHT11) (p : Pin)
    (hmono : StrictMono p.clock) (hstuck : ∀ k, p.reads ≤ k → p.levels k = false) :
    ∃ p', DHT11.Read fuel self p =
        some (ReadStatus.read_data_failed ReadDataError.response_end_timeout,
          { self with data_valid_ := false }, p') ∧
      p'.levels = p.levels ∧ p'.clock = p.clock ∧ p.reads ≤ p'.reads ∧
      p'.reads ≤ p.reads + 102 ∧ p'.ticks + p.reads = p.ticks + p'.reads + 1 := by
  obtain ⟨q1, hq1⟩ : ∃ q1, q1 = (gpio_get_level (esp_timer_get_time (DHT11.StartSignal p)).2).2 :=
    ⟨_, rfl⟩
  have hc : q1.clock = p.clock := by rw [hq1]; rfl
  have hv : q1.levels = p.levels := by rw [hq1]; rfl
  have hr : q1.reads = p.reads + 1 := by rw [hq1]; rfl
  have h1 : waitWhile true (esp_timer_get_time (DHT11.StartSignal p)).1 fuel
      (esp_timer_get_time (DHT11.StartSignal p)).2 = some (true, q1) := by
    obtain ⟨m, hm⟩ : ∃ m, fuel = m + 1 := ⟨fuel - 1, by omega⟩
    have hl : (gpio_get_level (esp_timer_get_time (DHT11.StartSignal p)).2).1 = false :=
      hstuck p.reads le_rfl
    rw [hm, waitWhile, if_neg (by rw [hl]; exact Bool.false_ne_true), hq1]
  have hmono1 : StrictMono q1.clock := by rw [hc]; exact hmono
  have hstuck1 : ∀ k, q1.reads ≤ k → q1.levels k = false := by
    intro k hk
    rw [hv]
    exact hstuck k (by omega)
  obtain ⟨q', hq⟩ := waitWhile_held false fuel q1 hmono1 (stuck_held _ _ hstuck1) hfuel
  have hdata : DHT11.ReadData fuel p =
      some (ReadDataResult.fail ReadDataError.response_end_timeout, q') := by
    unfold DHT11.ReadData DHT11.ReadResponse
    rw [h1]; simp only
    rw [hq]
  obtain ⟨a1, a2, -, -, a5, -⟩ := ReadResponse_advances fuel _ _ _ hdata
  obtain ⟨c1, c2⟩ := wait_counts false fuel q1 q' false hmono1 hq
  have ht : q1.ticks = p.ticks + 1 := by rw [hq1]; rfl
  rw [hr] at c1
  rw [hr, ht] at c2
  simp only [Bool.false_eq_true, if_false] at c2
  exact ⟨q', by rw [Read_eq_Decode fuel self p q' _ hdata, Decode_fail], a1, a2, a5,
    by omega, by omega⟩

theorem ReadRepeatedly_stuck (fuel : Nat) (lvl : Bool)
    (e : ReadDataError) (bound : Nat)
    (hone : ∀ (self : DHT11) (p : Pin), StrictMono p.clock →
      (∀ k, p.reads ≤ k → p.levels k = lvl) →
      ∃ p', DHT11.Read fuel self p =
          some (ReadStatus.read_data_failed e, { self with data_valid_ := false }, p') ∧
        p'.levels = p.levels ∧ p'.clock = p.clock ∧ p.reads ≤ p'.reads ∧
        p'.reads ≤ p.reads + bound ∧ p'.ticks + p.reads = p.ticks + p'.reads + 1) (n : Nat) :
    ∀ (self : DHT11) (p : Pin), StrictMono p.clock → (∀ k, p.reads ≤ k → p.levels k = lvl) →
      ∃ s p', DHT11.ReadRepeatedly fuel n self p =
        some (List.replicate n (ReadStatus.read_data_failed e), s, p') ∧
        s.temperature_ = self.temperature_ ∧ s.humidity_ = self.humidity_ ∧
        p'.reads ≤ p.reads + bound * n ∧ p'.ticks + p.reads = p.ticks + p'.reads + n := by
  induction n with
  | zero => intro self p _ _; exact ⟨self, p, rfl, rfl, rfl, le_rfl, rfl⟩
  | succ m ih =>
    intro self p hmono hstuck
    obtain ⟨p1, h1, l1, c1, r1, b1, t1⟩ := hone self p hmono hstuck
    obtain ⟨s, p2, h2, t2, u2, b2, k2⟩ := ih { self with data_valid_ := false } p1
      (by rw [c1]; exact hmono) (fun k hk => by rw [l1]; exact hstuck k (by omega))
    refine ⟨s, p2, ?_, t2, u2, ?_, by omega⟩
    · unfold DHT11.ReadRepeatedly
      rw [h1]; simp only
      rw [h2]
      rfl
    · rw [Nat.mul_succ]; omega

/-- C7: on a pin whose clock strictly advances, with loops allowed their 101 iterations:
(a) if after the start signal the line stays high past the timeout of the first wait,
`Read` returns the response timeout; if the first wait ends and the line then stays low
past the timeout of the second wait, `Read` returns the response-end timeout; if the first
two waits end and the line then stays high past the timeout of the third, `Read` returns
the data-start timeout.  In each case `Read` marks the reading not valid and the pin it
returns is the very pin the timed-out wait has left: after that wait neither the line nor
the clock is read again, so no data bit is read, and the wait has sampled the line at most
101 times;
(b) in front of a line stuck high, or stuck low, each of any number `n` of consecutive
calls returns that failure; the `n` calls together sample the line at most `101 n`
(stuck low: `102 n`) times and read the clock exactly `n` times more often than the line,
which is one timed-out wait per call and nothing after it. -/
theorem Read_no_response (fuel : Nat) (hfuel : 101 ≤ fuel) (self : DHT11) (p : Pin)
    (hmono : StrictMono p.clock) :
    ((DHT11.StartSignal p).HeldPastTimeout true →
      ∃ p', waitWhile true (esp_timer_get_time (DHT11.StartSignal p)).1 fuel
          (esp_timer_get_time (DHT11.StartSignal p)).2 = some (false, p') ∧
        DHT11.Read fuel self p =
          some (ReadStatus.read_data_failed ReadDataError.response_timeout,
            { self with data_valid_ := false }, p') ∧
        p'.reads ≤ p.reads + 101) ∧
    (∀ p1, waitWhile true (esp_timer_get_time (DHT11.StartSignal p)).1 fuel
        (esp_timer_get_time (DHT11.StartSignal p)).2 = some (true, p1) →
      p1.HeldPastTimeout false →
      ∃ p', waitWhile false (esp_timer_get_time p1).1 fuel (esp_timer_get_time p1).2 =
          some (false, p') ∧
        DHT11.Read fuel self p =
          some (ReadStatus.read_data_failed ReadDataError.response_end_timeout,
            { self with data_valid_ := false }, p') ∧
        p'.reads ≤ p1.reads + 101) ∧
    (∀ p1 p2, waitWhile true (esp_timer_get_time (DHT11.StartSignal p)).1 fuel
        (esp_timer_get_time (DHT11.StartSignal p)).2 = some (true, p1) →
      waitWhile false (esp_timer_get_time p1).1 fuel (esp_timer_get_time p1).2 =
        some (true, p2) →
      p2.HeldPastTimeout true →
      ∃ p', waitWhile true (esp_timer_get_time p2).1 fuel (esp_timer_get_time p2).2 =
          some (false, p') ∧
        DHT11.Read fuel self p =
          some (ReadStatus.read_data_failed ReadDataError.data_start_timeout,
            { self with data_valid_ := false }, p') ∧
        p'.reads ≤ p2.reads + 101) ∧
    (∀ n, (∀ k, p.reads ≤ k → p.levels k = true) →
      ∃ s p', DHT11.ReadRepeatedly fuel n self p =
        some (List.replicate n (ReadStatus.read_data_failed ReadDataError.response_timeout),
          s, p') ∧
        s.temperature_ = self.temperature_ ∧ s.humidity_ = self.humidity_ ∧
        p'.reads ≤ p.reads + 101 * n ∧ p'.ticks + p.reads = p.ticks + p'.reads + n) ∧
    (∀ n, (∀ k, p.reads ≤ k → p.levels k = false) →
      ∃ s p', DHT11.ReadRepeatedly fuel n self p =
        some (List.replicate n
          (ReadStatus.read_data_failed ReadDataError.response_end_timeout), s, p') ∧
        s.temperature_ = self.temperature_ ∧ s.humidity_ = self.humidity_ ∧
        p'.reads ≤ p.reads + 102 * n ∧ p'.ticks + p.reads = p.ticks + p'.reads + n) := by
  refine ⟨?_, ?_, ?_, ?_, ?_⟩
  · intro hheld
    obtain ⟨q', hq⟩ := waitWhile_held true fuel (DHT11.StartSignal p) hmono hheld hfuel
    have hdata : DHT11.ReadData fuel p =
        some (ReadDataResult.fail ReadDataError.response_timeout, q') := by
      unfold DHT11.ReadData DHT11.ReadResponse
      rw [hq]
    exact ⟨q', hq, by rw [Read_eq_Decode fuel self p q' _ hdata, Decode_fail],
      (wait_counts true fuel (DHT11.StartSignal p) q' false hmono hq).1⟩
  · intro p1 h1 hheld
    have a := (esp_timer_get_time_advances (DHT11.StartSignal p)).trans
      (waitWhile_advances _ _ _ _ _ _ h1)
    have hmono1 : StrictMono p1.clock := by rw [a.2.1]; exact hmono
    obtain ⟨q', hq⟩ := waitWhile_held false fuel p1 hmono1 hheld hfuel
    have hdata : DHT11.ReadData fuel p =
        some (ReadDataResult.fail ReadDataError.response_end_timeout, q') := by
      unfold DHT11.ReadData DHT11.ReadResponse
      rw [h1]; simp only
      rw [hq]
    exact ⟨q', hq, by rw [Read_eq_Decode fuel self p q' _ hdata, Decode_fail],
      (wait_counts false fuel p1 q' false hmono1 hq).1⟩
  · intro p1 p2 h1 h2 hheld
    have a1 := (esp_timer_get_time_advances (DHT11.StartSignal p)).trans
      (waitWhile_advances _ _ _ _ _ _ h1)
    have a2 := a1.trans ((esp_timer_get_time_advances p1).trans
      (waitWhile_advances _ _ _ _ _ _ h2))
    have hmono2 : StrictMono p2.clock := by rw [a2.2.1]; exact hmono
    obtain ⟨q', hq⟩ := waitWhile_held true fuel p2 hmono2 hheld hfuel
    have hdata : DHT11.ReadData fuel p =
        some (ReadDataResult.fail ReadDataError.data_start_timeout, q') := by
      unfold DHT11.ReadData DHT11.ReadResponse
      rw [h1]; simp only
      rw [h2]; simp only
      rw [hq]
    exact ⟨q', hq, by rw [Read_eq_Decode fuel self p q' _ hdata, Decode_fail],
      (wait_counts true fuel p2 q' false hmono2 hq).1⟩
  · intro n hstuck
    exact ReadRepeatedly_stuck fuel true _ 101
      (fun s q hm hs => Read_stuck_high fuel hfuel s q hm hs) n self p hmono hstuck
  · intro n hstuck
    exact ReadRepeatedly_stuck fuel false _ 102
      (fun s q hm hs => Read_stuck_low fuel hfuel s q hm hs) n self p hmono hstuck

theorem pinDisconnected_mono : StrictMono pinDisconnected.clock := by
  intro a b h
  show (a : Int) < (b : Int)
  exact_mod_cast h

/-- C7, at a disconnected sensor polled by an object that holds a reading: one call
returns from the timed-out first wait after at most 101 samples of the line; a thousand
calls fail a thousand times, with at most 101000 samples. -/
theorem Read_no_response_witness :
    101 ≤ 101 ∧ StrictMono pinDisconnected.clock ∧
    (DHT11.StartSignal pinDisconnected).HeldPastTimeout true ∧
    (∀ k, pinDisconnected.reads ≤ k → pinDisconnected.levels k = true) ∧
    (∃ p', waitWhile true (esp_timer_get_time (DHT11.StartSignal pinDisconnected)).1 101
          (esp_timer_get_time (DHT11.StartSignal pinDisconnected)).2 = some (false, p') ∧
        DHT11.Read 101 heldReading pinDisconnected =
          some (ReadStatus.read_data_failed ReadDataError.response_timeout,
            { heldReading with data_valid_ := false }, p') ∧
        p'.reads ≤ pinDisconnected.reads + 101) ∧
    ∃ s p', DHT11.ReadRepeatedly 101 1000 heldReading pinDisconnected =
      some (List.replicate 1000 (ReadStatus.read_data_failed ReadDataError.response_timeout),
        s, p') ∧
      s.temperature_ = heldReading.temperature_ ∧ s.humidity_ = heldReading.humidity_ ∧
      p'.reads ≤ pinDisconnected.reads + 101 * 1000 ∧
      p'.ticks + pinDisconnected.reads = pinDisconnected.ticks + p'.reads + 1000 :=
  ⟨le_rfl, pinDisconnected_mono, stuck_held _ _ (fun _ _ => rfl), fun _ _ => rfl,
    (Read_no_response 101 le_rfl heldReading pinDisconnected pinDisconnected_mono).1
      (stuck_held _ _ (fun _ _ => rfl)),
    (Read_no_response 101 le_rfl heldReading pinDisconnected pinDisconnected_mono).2.2.2.1 1000
      (fun _ _ => rfl)⟩

/-! ## `Read` returns whenever the clock advances -/

/-- A wait returns once the clock has passed its timeout, whatever the line does. -/
theorem waitWhile_returns (lvl : Bool) (start_time : Int) (fuel : Nat) :
    ∀ q : Pin, StrictMono q.clock → 0 < fuel →
      101 < (fuel : Int) + (q.clock q.ticks - start_time) →
      ∃ r, waitWhile lvl start_time fuel q = some r := by
  induction fuel with
  | zero => intro q _ h; omega
  | succ n ih =>
    intro q hmono _ hfuel
    unfold waitWhile
    by_cases hlevel : (gpio_get_level q).1 = lvl
    · rw [if_pos hlevel]
      by_cases hto : (esp_timer_get_time (gpio_get_level q).2).1 - start_time > 100
      · rw [if_pos hto]; exact ⟨_, rfl⟩
      · rw [if_neg hto]
        have hnow : q.clock q.ticks - start_time ≤ 100 := by
          have : (esp_timer_get_time (gpio_get_level q).2).1 = q.clock q.ticks := rfl
          rw [this] at hto; omega
        have hnext : q.clock q.ticks < q.clock (q.ticks + 1) := hmono (Nat.lt_succ_self _)
        apply ih
        · exact hmono
        · push_cast at hfuel; omega
        · show 101 < (n : Int) + (q.clock (q.ticks + 1) - start_time)
          push_cast at hfuel; omega
    · rw [if_neg hlevel]; exact ⟨_, rfl⟩

/-- The same, for the wait as the source starts it, with the pin it leaves behind. -/
theorem wait_returns (lvl : Bool) (fuel : Nat) (hfuel : 101 ≤ fuel) (p : Pin)
    (hmono : StrictMono p.clock) :
    ∃ b q, waitWhile lvl (esp_timer_get_time p).1 fuel (esp_timer_get_time p).2 = some (b, q) ∧
      StrictMono q.clock := by
  have hnext : p.clock p.ticks < p.clock (p.ticks + 1) := hmono (Nat.lt_succ_self _)
  obtain ⟨r, hr⟩ := waitWhile_returns lvl (esp_timer_get_time p).1 fuel (esp_timer_get_time p).2
    hmono (by omega) (by
      show 101 < (fuel : Int) + (p.clock (p.ticks + 1) - p.clock p.ticks)
      have : (101 : Int) ≤ fuel := by exact_mod_cast hfuel
      omega)
  obtain ⟨b, q⟩ := r
  have a := (esp_timer_get_time_advances p).trans (waitWhile_advances _ _ _ _ _ _ hr)
  exact ⟨b, q, hr, by rw [a.2.1]; exact hmono⟩

theorem ReadBit_returns (fuel : Nat) (hfuel : 101 ≤ fuel) (p : Pin)
    (hmono : StrictMono p.clock) : ∃ r, DHT11.ReadBit fuel p = some r := by
  obtain ⟨b1, p1, h1, m1⟩ := wait_returns true fuel hfuel p hmono
  unfold DHT11.ReadBit
  rw [h1]
  cases b1
  · exact ⟨_, rfl⟩
  · obtain ⟨b2, p2, h2, m2⟩ := wait_returns false fuel hfuel p1 m1
    simp only
    rw [h2]
    cases b2
    · exact ⟨_, rfl⟩
    · obtain ⟨b3, p3, h3, -⟩ := wait_returns true fuel hfuel p2 m2
      simp only
      rw [h3]
      cases b3 <;> exact ⟨_, rfl⟩

theorem ReadByteLoop_returns (fuel : Nat) (hfuel : 101 ≤ fuel) (n : Nat) :
    ∀ (byte : Nat) (p : Pin), StrictMono p.clock →
      ∃ r, DHT11.ReadByteLoop fuel n byte p = some r := by
  induction n with
  | zero => intro byte p _; exact ⟨_, rfl⟩
  | succ i ih =>
    intro byte p hmono
    obtain ⟨r, hr⟩ := ReadBit_returns fuel hfuel p hmono
    obtain ⟨bit, p1⟩ := r
    have a := ReadBit_advances fuel p p1 bit hr
    unfold DHT11.ReadByteLoop
    rw [hr]
    exact ih _ p1 (by rw [a.2.1]; exact hmono)

theorem ReadDataLoop_returns (fuel : Nat) (hfuel : 101 ≤ fuel) (n : Nat) :
    ∀ (data : List Nat) (p : Pin), StrictMono p.clock →
      ∃ r, DHT11.ReadDataLoop fuel n data p = some r := by
  induction n with
  | zero => intro data p _; exact ⟨_, rfl⟩
  | succ i ih =>
    intro data p hmono
    obtain ⟨r, hr⟩ := ReadByteLoop_returns fuel hfuel 8 0 p hmono
    obtain ⟨byte, p1⟩ := r
    have a := ReadByteLoop_advances fuel 8 0 p p1 byte hr
    have hb : DHT11.ReadByte fuel p = some (true, byte, p1) := by
      unfold DHT11.ReadByte
      rw [hr]
    unfold DHT11.ReadDataLoop
    rw [hb]
    exact ih _ p1 (by rw [a.2.1]; exact hmono)

/-- With a strictly advancing clock and 101 iterations allowed to each loop, `Read` always
returns. -/
theorem Read_returns (fuel : Nat) (hfuel : 101 ≤ fuel) (self : DHT11) (p : Pin)
    (hmono : StrictMono p.clock) : ∃ st s p', DHT11.Read fuel self p = some (st, s, p') := by
  have hdata : ∃ r, DHT11.ReadData fuel p = some r := by
    obtain ⟨b1, p1, h1, m1⟩ := wait_returns true fuel hfuel (DHT11.StartSignal p) hmono
    unfold DHT11.ReadData DHT11.ReadResponse
    rw [h1]
    cases b1
    · exact ⟨_, rfl⟩
    · obtain ⟨b2, p2, h2, m2⟩ := wait_returns false fuel hfuel p1 m1
      simp only
      rw [h2]
      cases b2
      · exact ⟨_, rfl⟩
      · obtain ⟨b3, p3, h3, m3⟩ := wait_returns true fuel hfuel p2 m2
        simp only
        rw [h3]
        cases b3
        · exact ⟨_, rfl⟩
        · exact ReadDataLoop_returns fuel hfuel 5 [] p3 m3
  obtain ⟨r, hr⟩ := hdata
  obtain ⟨res, p1⟩ := r
  exact ⟨_, _, _, Read_eq_Decode fuel self p p1 res hr⟩

/-! ## The poll, one block at a time -/

theorem Decode_status_valid (self : DHT11) (r : ReadDataResult) :
    (DHT11.Decode self r).1.toBool = (DHT11.Decode self r).2.data_valid_ := by
  cases r with
  | fail e => rfl
  | ok data =>
    unfold DHT11.Decode
    simp only
    split_ifs <;> rfl

/-- The value `Read` returns is the validity flag it leaves behind. -/
theorem Read_status_valid (fuel : Nat) (self s : DHT11) (p p' : Pin) (st : ReadStatus)
    (h : DHT11.Read fuel self p = some (st, s, p')) : st.toBool = s.data_valid_ := by
  unfold DHT11.Read at h
  cases hr : DHT11.ReadData fuel p with
  | none => rw [hr] at h; simp at h
  | some x =>
    obtain ⟨r, p1⟩ := x
    rw [hr] at h
    simp only [Option.some.injEq, Prod.mk.injEq] at h
    rw [← h.1, ← h.2.1]
    exact Decode_status_valid self r

theorem ReadDht11Data_eq (fuel : Nat) (self : CompactWifiBoard) (p p1 : Pin) (st : ReadStatus)
    (sensor : DHT11) (h : self.dht11_sensor_.Read fuel p = some (st, sensor, p1)) :
    CompactWifiBoard.ReadDht11Data fuel self p =
      some ((CompactWifiBoard.AfterRead { self with dht11_sensor_ := sensor } st.toBool).1,
        (CompactWifiBoard.AfterRead { self with dht11_sensor_ := sensor } st.toBool).2, p1) := by
  unfold CompactWifiBoard.ReadDht11Data
  rw [h]

/-- The temperature block changes nothing but the temperature latch. -/
theorem CheckTemperature_frame (b : CompactWifiBoard) (t : ℚ) :
    (CompactWifiBoard.CheckTemperature b t).1 =
      { b with temperature_triggered_ :=
        (CompactWifiBoard.CheckTemperature b t).1.temperature_triggered_ } ∧
    CompactWifiBoard.humidityCrossings (CompactWifiBoard.CheckTemperature b t).2 = [] := by
  unfold CompactWifiBoard.CheckTemperature
  split_ifs <;> exact ⟨rfl, rfl⟩

/-- The humidity block changes nothing but the humidity latch and posts no alert. -/
theorem CheckHumidity_frame (b : CompactWifiBoard) (h : ℚ) :
    (CompactWifiBoard.CheckHumidity b h).1 =
      { b with humidity_triggered_ :=
        (CompactWifiBoard.CheckHumidity b h).1.humidity_triggered_ } ∧
    CompactWifiBoard.temperatureAlerts (CompactWifiBoard.CheckHumidity b h).2 = [] := by
  unfold CompactWifiBoard.CheckHumidity
  split_ifs <;> exact ⟨rfl, rfl⟩

theorem temperatureAlerts_append (xs ys : List BoardEvent) :
    CompactWifiBoard.temperatureAlerts (xs ++ ys) =
      CompactWifiBoard.temperatureAlerts xs ++ CompactWifiBoard.temperatureAlerts ys := by
  induction xs with
  | nil => rfl
  | cons x xs ih => cases x <;> simp [CompactWifiBoard.temperatureAlerts, ih]

theorem humidityCrossings_append (xs ys : List BoardEvent) :
    CompactWifiBoard.humidityCrossings (xs ++ ys) =
      CompactWifiBoard.humidityCrossings xs ++ CompactWifiBoard.humidityCrossings ys := by
  induction xs with
  | nil => rfl
  | cons x xs ih => cases x <;> simp [CompactWifiBoard.humidityCrossings, ih]

/-- The temperature block with the latch set: no event; the latch is cleared exactly when
the temperature is below the float `threshold - 0.5f`. -/
theorem CheckTemperature_triggered (b : CompactWifiBoard) (t : ℚ)
    (hl : b.temperature_triggered_ = true) :
    (CompactWifiBoard.CheckTemperature b t).2 = [] ∧
    ((CompactWifiBoard.CheckTemperature b t).1.temperature_triggered_ =
      !decide (t < f32sub b.temperature_threshold_ (1 / 2))) := by
  unfold CompactWifiBoard.CheckTemperature
  simp only [hl, Bool.not_true, Bool.and_false, Bool.false_eq_true, if_false]
  split_ifs with h
  · exact ⟨rfl, by rw [decide_eq_true h]; rfl⟩
  · exact ⟨rfl, by rw [decide_eq_false h]; exact hl⟩

/-- The temperature block with the trigger enabled, the latch clear and a valid reading:
the latch is set and one alert is posted exactly when the temperature is at least the
threshold. -/
theorem CheckTemperature_armed (b : CompactWifiBoard) (t : ℚ)
    (he : b.temperature_trigger_enabled_ = true) (hl : b.temperature_triggered_ = false)
    (hv : b.dht11_sensor_.data_valid_ = true) :
    (CompactWifiBoard.CheckTemperature b t).1.temperature_triggered_ =
      decide (b.dht11_sensor_.temperature_ ≥ b.temperature_threshold_) ∧
    CompactWifiBoard.temperatureAlerts (CompactWifiBoard.CheckTemperature b t).2 =
      (if b.dht11_sensor_.temperature_ ≥ b.temperature_threshold_ then [t] else []) := by
  unfold CompactWifiBoard.CheckTemperature DHT11.CheckTemperatureThreshold
  simp only [he, hl, hv, Bool.not_false, Bool.and_true, Bool.not_true, Bool.false_eq_true,
    if_false, if_true]
  by_cases h : b.dht11_sensor_.temperature_ ≥ b.temperature_threshold_
  · simp [h, CompactWifiBoard.temperatureAlerts]
  · simp [h, hl, CompactWifiBoard.temperatureAlerts]

/-- The humidity block with the latch set: no event; the latch is cleared exactly when the
humidity is below the float `threshold - 5.0f`. -/
theorem CheckHumidity_triggered (b : CompactWifiBoard) (h : ℚ)
    (hl : b.humidity_triggered_ = true) :
    (CompactWifiBoard.CheckHumidity b h).2 = [] ∧
    ((CompactWifiBoard.CheckHumidity b h).1.humidity_triggered_ =
      !decide (h < f32sub b.humidity_threshold_ 5)) := by
  unfold CompactWifiBoard.CheckHumidity
  simp only [hl, Bool.not_true, Bool.and_false, Bool.false_eq_true, if_false]
  split_ifs with hh
  · exact ⟨rfl, by rw [decide_eq_true hh]; rfl⟩
  · exact ⟨rfl, by rw [decide_eq_false hh]; exact hl⟩

/-- The humidity block with the trigger enabled, the latch clear and a valid reading: the
latch is set and the crossing is logged exactly when the humidity is at least the
threshold; nothing is posted. -/
theorem CheckHumidity_armed (b : CompactWifiBoard) (h : ℚ)
    (he : b.humidity_trigger_enabled_ = true) (hl : b.humidity_triggered_ = false)
    (hv : b.dht11_sensor_.data_valid_ = true) :
    (CompactWifiBoard.CheckHumidity b h).1.humidity_triggered_ =
      decide (b.dht11_sensor_.humidity_ ≥ b.humidity_threshold_) ∧
    CompactWifiBoard.humidityCrossings (CompactWifiBoard.CheckHumidity b h).2 =
      (if b.dht11_sensor_.humidity_ ≥ b.humidity_threshold_ then [b.humidity_threshold_]
        else []) := by
  unfold CompactWifiBoard.CheckHumidity DHT11.CheckHumidityThreshold
  simp only [he, hl, hv, Bool.not_false, Bool.and_true, Bool.not_true, Bool.false_eq_true,
    if_false, if_true]
  by_cases hh : b.dht11_sensor_.humidity_ ≥ b.humidity_threshold_
  · simp [hh, CompactWifiBoard.humidityCrossings]
  · simp [hh, hl, CompactWifiBoard.humidityCrossings]

/-- What a poll with a successful read leaves behind, block by block. -/
theorem AfterRead_ok (b : CompactWifiBoard) :
    (CompactWifiBoard.AfterRead b true).1.temperature_triggered_ =
      (CompactWifiBoard.CheckTemperature b b.dht11_sensor_.temperature_).1.temperature_triggered_ ∧
    CompactWifiBoard.temperatureAlerts (CompactWifiBoard.AfterRead b true).2 =
      CompactWifiBoard.temperatureAlerts
        (CompactWifiBoard.CheckTemperature b b.dht11_sensor_.temperature_).2 ∧
    (CompactWifiBoard.AfterRead b true).1.humidity_triggered_ =
      (CompactWifiBoard.CheckHumidity b b.dht11_sensor_.humidity_).1.humidity_triggered_ ∧
    CompactWifiBoard.humidityCrossings (CompactWifiBoard.AfterRead b true).2 =
      CompactWifiBoard.humidityCrossings
        (CompactWifiBoard.CheckHumidity b b.dht11_sensor_.humidity_).2 ∧
    (CompactWifiBoard.AfterRead b true).1.dht11_sensor_ = b.dht11_sensor_ ∧
    (CompactWifiBoard.AfterRead b true).1.temperature_threshold_ = b.temperature_threshold_ ∧
    (CompactWifiBoard.AfterRead b true).1.humidity_threshold_ = b.humidity_threshold_ ∧
    (CompactWifiBoard.AfterRead b true).1.temperature_trigger_enabled_ =
      b.temperature_trigger_enabled_ ∧
    (CompactWifiBoard.AfterRead b true).1.humidity_trigger_enabled_ =
      b.humidity_trigger_enabled_ := by
  unfold CompactWifiBoard.AfterRead
  simp only [if_true, DHT11.GetTemperature, DHT11.GetHumidity]
  unfold CompactWifiBoard.CheckTemperature CompactWifiBoard.CheckHumidity
    DHT11.CheckTemperatureThreshold DHT11.CheckHumidityThreshold
  split_ifs <;> simp [CompactWifiBoard.temperatureAlerts, CompactWifiBoard.humidityCrossings]

/-! ## One poll, seen from the board -/

theorem AfterRead_sensor (b : CompactWifiBoard) (ok : Bool) :
    (CompactWifiBoard.AfterRead b ok).1.dht11_sensor_ = b.dht11_sensor_ := by
  cases ok
  · rfl
  · exact (AfterRead_ok b).2.2.2.2.1

/-- A poll that leaves a valid reading behind ran the success branch on that reading. -/
theorem poll_ok (fuel : Nat) (b b1 : CompactWifiBoard) (p p1 : Pin) (ev : List BoardEvent)
    (h : CompactWifiBoard.ReadDht11Data fuel b p = some (b1, ev, p1))
    (hv : b1.dht11_sensor_.data_valid_ = true) :
    b1 = (CompactWifiBoard.AfterRead { b with dht11_sensor_ := b1.dht11_sensor_ } true).1 ∧
    ev = (CompactWifiBoard.AfterRead { b with dht11_sensor_ := b1.dht11_sensor_ } true).2 := by
  cases hr : b.dht11_sensor_.Read fuel p with
  | none => unfold CompactWifiBoard.ReadDht11Data at h; rw [hr] at h; simp at h
  | some x =>
    obtain ⟨st, sensor, p2⟩ := x
    rw [ReadDht11Data_eq fuel b p p2 st sensor hr] at h
    simp only [Option.some.injEq, Prod.mk.injEq] at h
    obtain ⟨h1, h2, -⟩ := h
    have hs : b1.dht11_sensor_ = sensor := by rw [← h1]; exact AfterRead_sensor _ _
    have hst : st.toBool = true := by
      rw [Read_status_valid fuel _ _ p p2 st hr, ← hs]; exact hv
    rw [hs]
    rw [hst] at h1 h2
    exact ⟨h1.symm, h2.symm⟩

/-- A successful poll that starts with the temperature latch set. -/
theorem poll_temperature_triggered (fuel : Nat) (b b1 : CompactWifiBoard) (p p1 : Pin)
    (ev : List BoardEvent) (h : CompactWifiBoard.ReadDht11Data fuel b p = some (b1, ev, p1))
    (hv : b1.dht11_sensor_.data_valid_ = true) (hl : b.temperature_triggered_ = true) :
    CompactWifiBoard.temperatureAlerts ev = [] ∧
    b1.temperature_triggered_ =
      (!decide (b1.dht11_sensor_.temperature_ < f32sub b.temperature_threshold_ (1 / 2))) ∧
    b1.temperature_threshold_ = b.temperature_threshold_ ∧
    b1.temperature_trigger_enabled_ = b.temperature_trigger_enabled_ := by
  obtain ⟨e1, e2⟩ := poll_ok fuel b b1 p p1 ev h hv
  obtain ⟨a1, a2, -, -, -, a6, -, a8, -⟩ :=
    AfterRead_ok { b with dht11_sensor_ := b1.dht11_sensor_ }
  obtain ⟨c1, c2⟩ := CheckTemperature_triggered { b with dht11_sensor_ := b1.dht11_sensor_ }
    b1.dht11_sensor_.temperature_ hl
  rw [← e1] at a1 a6 a8
  rw [← e2] at a2
  refine ⟨?_, ?_, a6, a8⟩
  · rw [a2, c1]; rfl
  · rw [a1]; exact c2

/-- A successful poll that starts with the temperature trigger enabled and the latch clear. -/
theorem poll_temperature_armed (fuel : Nat) (b b1 : CompactWifiBoard) (p p1 : Pin)
    (ev : List BoardEvent) (h : CompactWifiBoard.ReadDht11Data fuel b p = some (b1, ev, p1))
    (hv : b1.dht11_sensor_.data_valid_ = true) (he : b.temperature_trigger_enabled_ = true)
    (hl : b.temperature_triggered_ = false) :
    CompactWifiBoard.temperatureAlerts ev =
      (if b1.dht11_sensor_.temperature_ ≥ b.temperature_threshold_
        then [b1.dht11_sensor_.temperature_] else []) ∧
    b1.temperature_triggered_ =
      decide (b1.dht11_sensor_.temperature_ ≥ b.temperature_threshold_) ∧
    b1.temperature_threshold_ = b.temperature_threshold_ ∧
    b1.temperature_trigger_enabled_ = b.temperature_trigger_enabled_ := by
  obtain ⟨e1, e2⟩ := poll_ok fuel b b1 p p1 ev h hv
  obtain ⟨a1, a2, -, -, -, a6, -, a8, -⟩ :=
    AfterRead_ok { b with dht11_sensor_ := b1.dht11_sensor_ }
  obtain ⟨c1, c2⟩ := CheckTemperature_armed { b with dht11_sensor_ := b1.dht11_sensor_ }
    b1.dht11_sensor_.temperature_ he hl hv
  rw [← e1] at a1 a6 a8
  rw [← e2] at a2
  refine ⟨?_, ?_, a6, a8⟩
  · rw [a2]; exact c2
  · rw [a1]; exact c1

/-- A successful poll that starts with the humidity latch set. -/
theorem poll_humidity_triggered (fuel : Nat) (b b1 : CompactWifiBoard) (p p1 : Pin)
    (ev : List BoardEvent) (h : CompactWifiBoard.ReadDht11Data fuel b p = some (b1, ev, p1))
    (hv : b1.dht11_sensor_.data_valid_ = true) (hl : b.humidity_triggered_ = true) :
    CompactWifiBoard.humidityCrossings ev = [] ∧
    b1.humidity_triggered_ =
      (!decide (b1.dht11_sensor_.humidity_ < f32sub b.humidity_threshold_ 5)) ∧
    b1.humidity_threshold_ = b.humidity_threshold_ ∧
    b1.humidity_trigger_enabled_ = b.humidity_trigger_enabled_ := by
  obtain ⟨e1, e2⟩ := poll_ok fuel b b1 p p1 ev h hv
  obtain ⟨-, -, a3, a4, -, -, a7, -, a9⟩ :=
    AfterRead_ok { b with dht11_sensor_ := b1.dht11_sensor_ }
  obtain ⟨c1, c2⟩ := CheckHumidity_triggered { b with dht11_sensor_ := b1.dht11_sensor_ }
    b1.dht11_sensor_.humidity_ hl
  rw [← e1] at a3 a7 a9
  rw [← e2] at a4
  refine ⟨?_, ?_, a7, a9⟩
  · rw [a4, c1]; rfl
  · rw [a3]; exact c2

/-- A successful poll that starts with the humidity trigger enabled and the latch clear. -/
theorem poll_humidity_armed (fuel : Nat) (b b1 : CompactWifiBoard) (p p1 : Pin)
    (ev : List BoardEvent) (h : CompactWifiBoard.ReadDht11Data fuel b p = some (b1, ev, p1))
    (hv : b1.dht11_sensor_.data_valid_ = true) (he : b.humidity_trigger_enabled_ = true)
    (hl : b.humidity_triggered_ = false) :
    CompactWifiBoard.humidityCrossings ev =
      (if b1.dht11_sensor_.humidity_ ≥ b.humidity_threshold_
        then [b.humidity_threshold_] else []) ∧
    b1.humidity_triggered_ = decide (b1.dht11_sensor_.humidity_ ≥ b.humidity_threshold_) ∧
    b1.humidity_threshold_ = b.humidity_threshold_ ∧
    b1.humidity_trigger_enabled_ = b.humidity_trigger_enabled_ := by
  obtain ⟨e1, e2⟩ := poll_ok fuel b b1 p p1 ev h hv
  obtain ⟨-, -, a3, a4, -, -, a7, -, a9⟩ :=
    AfterRead_ok { b with dht11_sensor_ := b1.dht11_sensor_ }
  obtain ⟨c1, c2⟩ := CheckHumidity_armed { b with dht11_sensor_ := b1.dht11_sensor_ }
    b1.dht11_sensor_.humidity_ he hl hv
  rw [← e1] at a3 a7 a9
  rw [← e2] at a4
  refine ⟨?_, ?_, a7, a9⟩
  · rw [a4]; exact c2
  · rw [a3]; exact c1

/-- No poll posts anything for humidity: the only posting event carries a temperature. -/
theorem poll_posts_temperature_only (fuel : Nat) (b b1 : CompactWifiBoard) (p p1 : Pin)
    (ev : List BoardEvent) (h : CompactWifiBoard.ReadDht11Data fuel b p = some (b1, ev, p1))
    (hv : b1.dht11_sensor_.data_valid_ = true) :
    ∀ e ∈ ev, (∃ t u, e = BoardEvent.log_dht11_data t u) ∨
      (∃ t, e = BoardEvent.log_temperature_over_threshold t) ∨
      (∃ t, e = BoardEvent.log_humidity_over_threshold t) ∨
      e = BoardEvent.SendTemperatureAlertToServer b1.dht11_sensor_.temperature_ := by
  obtain ⟨-, e2⟩ := poll_ok fuel b b1 p p1 ev h hv
  rw [e2]
  unfold CompactWifiBoard.AfterRead
  simp only [if_true, DHT11.GetTemperature, DHT11.GetHumidity]
  unfold CompactWifiBoard.CheckTemperature CompactWifiBoard.CheckHumidity
  intro e he
  split_ifs at he <;> simp at he <;> aesop

theorem Polls_cons (fuel n : Nat) (b : CompactWifiBoard) (p p' : Pin)
    (r : CompactWifiBoard × List BoardEvent) (rest : List (CompactWifiBoard × List BoardEvent))
    (h : CompactWifiBoard.Polls fuel (n + 1) b p = some (r :: rest, p')) :
    ∃ p1, CompactWifiBoard.ReadDht11Data fuel b p = some (r.1, r.2, p1) ∧
      CompactWifiBoard.Polls fuel n r.1 p1 = some (rest, p') := by
  unfold CompactWifiBoard.Polls at h
  split at h
  · simp at h
  · next b1 ev p1 h1 =>
    split at h
    · simp at h
    · next rest' p2 h2 =>
      simp only [Option.some.injEq, Prod.mk.injEq, List.cons.injEq] at h
      obtain ⟨⟨hr, hrest⟩, hp⟩ := h
      subst hr hrest hp
      exact ⟨p1, h1, h2⟩

/-! ## Simulated polls -/

theorem Read_exact (fuel : Nat) (self : DHT11) (p p' : Pin) (d0 d1 d2 d3 d4 : ℕ)
    (hdata : DHT11.ReadData fuel p = some (ReadDataResult.ok [d0, d1, d2, d3, d4], p'))
    (hsum : d4 = (d0 + d1 + d2 + d3) % 256)
    (ht1 : (d2 : ℚ) + (d3 : ℚ) / 10 ≤ 50)
    (hh0 : 20 ≤ (d0 : ℚ) + (d1 : ℚ) / 10) (hh1 : (d0 : ℚ) + (d1 : ℚ) / 10 ≤ 90)
    (h1 : 5 ∣ d1) (h3 : 5 ∣ d3) :
    DHT11.Read fuel self p =
      some (ReadStatus.success,
        { temperature_ := (d2 : ℚ) + (d3 : ℚ) / 10, humidity_ := (d0 : ℚ) + (d1 : ℚ) / 10,
          data_valid_ := true }, p') := by
  obtain ⟨ha2, hb3⟩ := bytes_of_range d2 d3 50 (by omega) (by exact_mod_cast ht1)
  obtain ⟨ha0, hb1⟩ := bytes_of_range d0 d1 90 (by omega) (by exact_mod_cast hh1)
  rw [Read_eq_Decode fuel self p p' _ hdata, Decode_in_range self d0 d1 d2 d3 d4 hsum ht1 hh0 hh1,
    decode_exact d0 d1 ha0 hb1 h1, decode_exact d2 d3 ha2 hb3 h3]

theorem f32sub_29_half : f32sub 29 (1 / 2) = 57 / 2 := by
  unfold f32sub
  have h := f32round_dyadic 57 1 (by omega) (by rw [abs_of_nonneg (by norm_num)]; norm_num)
  norm_num at h ⊢
  exact h

theorem f32sub_29_inv : f32sub 29 2⁻¹ = 57 / 2 := by
  have h := f32sub_29_half
  rwa [one_div] at h

theorem f32sub_88_5 : f32sub 88 5 = 83 := by
  unfold f32sub
  have h := f32round_dyadic 83 0 (by omega) (by rw [abs_of_nonneg (by norm_num)]; norm_num)
  norm_num at h ⊢
  exact h

theorem pinWarm_ReadData :
    DHT11.ReadData 20 pinWarm =
      some (ReadDataResult.ok [40, 0, 30, 0, 70], afterExchange pinWarm 206 246) := by
  apply ReadData_of_counts
  set_option maxRecDepth 100000 in decide

theorem pinWarm_Read (self : DHT11) :
    DHT11.Read 20 self pinWarm =
      some (ReadStatus.success, { temperature_ := 30, humidity_ := 40, data_valid_ := true },
        afterExchange pinWarm 206 246) := by
  have h := Read_exact 20 self pinWarm _ 40 0 30 0 70 pinWarm_ReadData (by norm_num)
    (by norm_num) (by norm_num) (by norm_num) (by omega) (by omega)
  norm_num at h
  exact h

theorem pinBadSum_Read (self : DHT11) :
    DHT11.Read 20 self pinBadSum =
      some (ReadStatus.checksum_error, { self with data_valid_ := false },
        afterExchange pinBadSum 206 246) := by
  rw [Read_eq_Decode 20 self _ _ _ pinBadSum_ReadData,
    Decode_checksum_mismatch self 40 0 25 0 66 (by norm_num)]

/-! ## C8 and C9: what one poll does to the latches -/

/-- C8: in a poll whose read succeeds and that starts with the temperature latch set, no
temperature alert is posted, the latch stays set unless the temperature is strictly below
the float `temperature_threshold_ - 0.5f`, and so it is cleared only by such a value; the
same holds for the humidity latch with `humidity_threshold_ - 5.0f`, for which nothing is
posted or logged. -/
theorem ReadDht11Data_latch_holds (fuel : Nat) (self : CompactWifiBoard) (p p1 : Pin)
    (st : ReadStatus) (sensor : DHT11)
    (hread : self.dht11_sensor_.Read fuel p = some (st, sensor, p1))
    (hok : st.toBool = true) :
    ∃ board events,
      CompactWifiBoard.ReadDht11Data fuel self p = some (board, events, p1) ∧
      (self.temperature_triggered_ = true →
        CompactWifiBoard.temperatureAlerts events = [] ∧
        (¬ sensor.GetTemperature < f32sub self.temperature_threshold_ (1 / 2) →
          board.temperature_triggered_ = true) ∧
        (board.temperature_triggered_ = false →
          sensor.GetTemperature < f32sub self.temperature_threshold_ (1 / 2))) ∧
      (self.humidity_triggered_ = true →
        CompactWifiBoard.humidityCrossings events = [] ∧
        (¬ sensor.GetHumidity < f32sub self.humidity_threshold_ 5 →
          board.humidity_triggered_ = true) ∧
        (board.humidity_triggered_ = false →
          sensor.GetHumidity < f32sub self.humidity_threshold_ 5)) := by
  have hrun := ReadDht11Data_eq fuel self p p1 st sensor hread
  rw [hok] at hrun
  have hv : sensor.data_valid_ = true := by
    rw [← Read_status_valid fuel _ _ p p1 st hread]; exact hok
  have hv1 : (CompactWifiBoard.AfterRead { self with dht11_sensor_ := sensor }
      true).1.dht11_sensor_.data_valid_ = true := by
    rw [AfterRead_sensor]; exact hv
  have hs : (CompactWifiBoard.AfterRead { self with dht11_sensor_ := sensor }
      true).1.dht11_sensor_ = sensor := AfterRead_sensor _ _
  refine ⟨_, _, hrun, ?_, ?_⟩
  · intro hl
    obtain ⟨c1, c2, -, -⟩ := poll_temperature_triggered fuel self _ p p1 _ hrun hv1 hl
    rw [hs] at c2
    refine ⟨c1, ?_, ?_⟩
    · intro hnot
      rw [c2]
      unfold DHT11.GetTemperature at hnot
      rw [decide_eq_false hnot]; rfl
    · intro hclear
      rw [c2] at hclear
      unfold DHT11.GetTemperature
      by_contra hnot
      rw [decide_eq_false hnot] at hclear
      exact Bool.noConfusion hclear
  · intro hl
    obtain ⟨c1, c2, -, -⟩ := poll_humidity_triggered fuel self _ p p1 _ hrun hv1 hl
    rw [hs] at c2
    refine ⟨c1, ?_, ?_⟩
    · intro hnot
      rw [c2]
      unfold DHT11.GetHumidity at hnot
      rw [decide_eq_false hnot]; rfl
    · intro hclear
      rw [c2] at hclear
      unfold DHT11.GetHumidity
      by_contra hnot
      rw [decide_eq_false hnot] at hclear
      exact Bool.noConfusion hclear

/-- C8, at a board with the temperature latch set that reads 30.0 °C against a threshold of
29.0 °C. -/
theorem ReadDht11Data_latch_holds_witness :
    boardHot.dht11_sensor_.Read 20 pinWarm =
      some (ReadStatus.success, { temperature_ := 30, humidity_ := 40, data_valid_ := true },
        afterExchange pinWarm 206 246) ∧
    ReadStatus.success.toBool = true ∧
    ∃ board events,
      CompactWifiBoard.ReadDht11Data 20 boardHot pinWarm =
        some (board, events, afterExchange pinWarm 206 246) ∧
      (boardHot.temperature_triggered_ = true →
        CompactWifiBoard.temperatureAlerts events = [] ∧
        (¬ DHT11.GetTemperature { temperature_ := 30, humidity_ := 40, data_valid_ := true } <
            f32sub boardHot.temperature_threshold_ (1 / 2) →
          board.temperature_triggered_ = true) ∧
        (board.temperature_triggered_ = false →
          DHT11.GetTemperature { temperature_ := 30, humidity_ := 40, data_valid_ := true } <
            f32sub boardHot.temperature_threshold_ (1 / 2))) ∧
      (boardHot.humidity_triggered_ = true →
        CompactWifiBoard.humidityCrossings events = [] ∧
        (¬ DHT11.GetHumidity { temperature_ := 30, humidity_ := 40, data_valid_ := true } <
            f32sub boardHot.humidity_threshold_ 5 →
          board.humidity_triggered_ = true) ∧
        (board.humidity_triggered_ = false →
          DHT11.GetHumidity { temperature_ := 30, humidity_ := 40, data_valid_ := true } <
            f32sub boardHot.humidity_threshold_ 5)) :=
  ⟨pinWarm_Read _, rfl,
    ReadDht11Data_latch_holds 20 boardHot pinWarm _ _ _ (pinWarm_Read _) rfl⟩

/-- C9: a poll whose read fails leaves the board as it was, both latches included, apart
from the sensor object `Read` has updated; its only event is the warning that the read
failed, so no alert is posted and no crossing is logged. -/
theorem ReadDht11Data_read_failed (fuel : Nat) (self : CompactWifiBoard) (p p1 : Pin)
    (st : ReadStatus) (sensor : DHT11)
    (hread : self.dht11_sensor_.Read fuel p = some (st, sensor, p1))
    (hfail : st.toBool = false) :
    ∃ board events,
      CompactWifiBoard.ReadDht11Data fuel self p = some (board, events, p1) ∧
      board = { self with dht11_sensor_ := sensor } ∧
      board.temperature_triggered_ = self.temperature_triggered_ ∧
      board.humidity_triggered_ = self.humidity_triggered_ ∧
      events = [BoardEvent.log_read_failed] ∧
      CompactWifiBoard.temperatureAlerts events = [] ∧
      CompactWifiBoard.humidityCrossings events = [] := by
  have hrun := ReadDht11Data_eq fuel self p p1 st sensor hread
  rw [hfail] at hrun
  exact ⟨_, _, hrun, rfl, rfl, rfl, rfl, rfl, rfl⟩

/-- C9, at a board with the temperature latch set whose sensor delivers a frame with a wrong
checksum. -/
theorem ReadDht11Data_read_failed_witness :
    boardHot.dht11_sensor_.Read 20 pinBadSum =
      some (ReadStatus.checksum_error, { boardHot.dht11_sensor_ with data_valid_ := false },
        afterExchange pinBadSum 206 246) ∧
    ReadStatus.checksum_error.toBool = false ∧
    ∃ board events,
      CompactWifiBoard.ReadDht11Data 20 boardHot pinBadSum =
        some (board, events, afterExchange pinBadSum 206 246) ∧
      board = { boardHot with
        dht11_sensor_ := { boardHot.dht11_sensor_ with data_valid_ := false } } ∧
      board.temperature_triggered_ = boardHot.temperature_triggered_ ∧
      board.humidity_triggered_ = boardHot.humidity_triggered_ ∧
      events = [BoardEvent.log_read_failed] ∧
      CompactWifiBoard.temperatureAlerts events = [] ∧
      CompactWifiBoard.humidityCrossings events = [] :=
  ⟨pinBadSum_Read _, rfl,
    ReadDht11Data_read_failed 20 boardHot pinBadSum _ _ _ (pinBadSum_Read _) rfl⟩

/-! ## C10: re-arming and triggering again -/

/-- While the temperature trigger is enabled and its latch clear, successful polls with
temperatures below the threshold post nothing and leave the latch clear. -/
theorem armed_run_temperature (fuel : Nat) :
    ∀ (mid tail : List (CompactWifiBoard × List BoardEvent)) (k : Nat) (b : CompactWifiBoard)
      (p p' : Pin),
      CompactWifiBoard.Polls fuel (mid.length + k) b p = some (mid ++ tail, p') →
      (∀ r ∈ mid, r.1.dht11_sensor_.data_valid_ = true) →
      b.temperature_trigger_enabled_ = true → b.temperature_triggered_ = false →
      (∀ r ∈ mid, r.1.dht11_sensor_.temperature_ < b.temperature_threshold_) →
      (∀ r ∈ mid, CompactWifiBoard.temperatureAlerts r.2 = []) ∧
      ∃ b' p1, CompactWifiBoard.Polls fuel k b' p1 = some (tail, p') ∧
        b'.temperature_trigger_enabled_ = true ∧ b'.temperature_triggered_ = false ∧
        b'.temperature_threshold_ = b.temperature_threshold_ := by
  intro mid
  induction mid with
  | nil =>
    intro tail k b p p' h _ he hl _
    simp only [List.length_nil, Nat.zero_add, List.nil_append] at h
    exact ⟨by simp, b, p, h, he, hl, rfl⟩
  | cons r rs ih =>
    intro tail k b p p' h hv he hl hlt
    have hlen : (r :: rs).length + k = (rs.length + k) + 1 := by
      simp only [List.length_cons]; omega
    rw [hlen, List.cons_append] at h
    obtain ⟨p1, h1, h2⟩ := Polls_cons fuel _ b p p' r _ h
    have hvr := hv r (List.mem_cons_self _ _)
    have hltr := hlt r (List.mem_cons_self _ _)
    obtain ⟨c1, c2, c3, c4⟩ := poll_temperature_armed fuel b r.1 p p1 r.2 h1 hvr he hl
    have hnot : ¬ r.1.dht11_sensor_.temperature_ ≥ b.temperature_threshold_ := not_le.mpr hltr
    rw [if_neg hnot] at c1
    rw [decide_eq_false hnot] at c2
    obtain ⟨d1, b', p2, d2, d3, d4, d5⟩ := ih tail k r.1 p1 p' h2
      (fun x hx => hv x (List.mem_cons_of_mem _ hx)) (by rw [c4]; exact he) c2
      (fun x hx => by rw [c3]; exact hlt x (List.mem_cons_of_mem _ hx))
    refine ⟨?_, b', p2, d2, d3, d4, by rw [d5, c3]⟩
    intro x hx
    rcases List.mem_cons.mp hx with hx | hx
    · rw [hx]; exact c1
    · exact d1 x hx

/-- While the humidity trigger is enabled and its latch clear, successful polls with
humidities below the threshold log no crossing and leave the latch clear. -/
theorem armed_run_humidity (fuel : Nat) :
    ∀ (mid tail : List (CompactWifiBoard × List BoardEvent)) (k : Nat) (b : CompactWifiBoard)
      (p p' : Pin),
      CompactWifiBoard.Polls fuel (mid.length + k) b p = some (mid ++ tail, p') →
      (∀ r ∈ mid, r.1.dht11_sensor_.data_valid_ = true) →
      b.humidity_trigger_enabled_ = true → b.humidity_triggered_ = false →
      (∀ r ∈ mid, r.1.dht11_sensor_.humidity_ < b.humidity_threshold_) →
      (∀ r ∈ mid, CompactWifiBoard.humidityCrossings r.2 = []) ∧
      ∃ b' p1, CompactWifiBoard.Polls fuel k b' p1 = some (tail, p') ∧
        b'.humidity_trigger_enabled_ = true ∧ b'.humidity_triggered_ = false ∧
        b'.humidity_threshold_ = b.humidity_threshold_ := by
  intro mid
  induction mid with
  | nil =>
    intro tail k b p p' h _ he hl _
    simp only [List.length_nil, Nat.zero_add, List.nil_append] at h
    exact ⟨by simp, b, p, h, he, hl, rfl⟩
  | cons r rs ih =>
    intro tail k b p p' h hv he hl hlt
    have hlen : (r :: rs).length + k = (rs.length + k) + 1 := by
      simp only [List.length_cons]; omega
    rw [hlen, List.cons_append] at h
    obtain ⟨p1, h1, h2⟩ := Polls_cons fuel _ b p p' r _ h
    have hvr := hv r (List.mem_cons_self _ _)
    have hltr := hlt r (List.mem_cons_self _ _)
    obtain ⟨c1, c2, c3, c4⟩ := poll_humidity_armed fuel b r.1 p p1 r.2 h1 hvr he hl
    have hnot : ¬ r.1.dht11_sensor_.humidity_ ≥ b.humidity_threshold_ := not_le.mpr hltr
    rw [if_neg hnot] at c1
    rw [decide_eq_false hnot] at c2
    obtain ⟨d1, b', p2, d2, d3, d4, d5⟩ := ih tail k r.1 p1 p' h2
      (fun x hx => hv x (List.mem_cons_of_mem _ hx)) (by rw [c4]; exact he) c2
      (fun x hx => by rw [c3]; exact hlt x (List.mem_cons_of_mem _ hx))
    refine ⟨?_, b', p2, d2, d3, d4, by rw [d5, c3]⟩
    intro x hx
    rcases List.mem_cons.mp hx with hx | hx
    · rw [hx]; exact c1
    · exact d1 x hx

/-- C10 (amended): take polls that all read successfully, a first one, any number of middle
ones and a last one.
Temperature: if the trigger is enabled and the latch set, the first temperature is below
the float `temperature_threshold_ - 0.5f`, the middle ones are below the threshold and the
last one is above it, then exactly one temperature alert is posted, by the last poll and
carrying its temperature, and the latch ends set.
Humidity: under the same conditions with `humidity_threshold_ - 5.0f`, the latch ends set
and the crossing is logged once, by the last poll, but no poll posts anything for humidity:
every event of the last poll is a log line or a temperature alert. -/
theorem Polls_rearm_then_trigger (fuel : Nat) (b : CompactWifiBoard) (p p' : Pin)
    (first last : CompactWifiBoard × List BoardEvent)
    (mid : List (CompactWifiBoard × List BoardEvent))
    (hrun : CompactWifiBoard.Polls fuel (mid.length + 2) b p =
      some (first :: (mid ++ [last]), p'))
    (hvalid : ∀ r ∈ first :: (mid ++ [last]), r.1.dht11_sensor_.data_valid_ = true) :
    (b.temperature_trigger_enabled_ = true → b.temperature_triggered_ = true →
      first.1.dht11_sensor_.GetTemperature < f32sub b.temperature_threshold_ (1 / 2) →
      (∀ r ∈ mid, r.1.dht11_sensor_.GetTemperature < b.temperature_threshold_) →
      last.1.dht11_sensor_.GetTemperature > b.temperature_threshold_ →
      CompactWifiBoard.temperatureAlerts first.2 = [] ∧
      (∀ r ∈ mid, CompactWifiBoard.temperatureAlerts r.2 = []) ∧
      CompactWifiBoard.temperatureAlerts last.2 = [last.1.dht11_sensor_.GetTemperature] ∧
      last.1.temperature_triggered_ = true) ∧
    (b.humidity_trigger_enabled_ = true → b.humidity_triggered_ = true →
      first.1.dht11_sensor_.GetHumidity < f32sub b.humidity_threshold_ 5 →
      (∀ r ∈ mid, r.1.dht11_sensor_.GetHumidity < b.humidity_threshold_) →
      last.1.dht11_sensor_.GetHumidity > b.humidity_threshold_ →
      CompactWifiBoard.humidityCrossings first.2 = [] ∧
      (∀ r ∈ mid, CompactWifiBoard.humidityCrossings r.2 = []) ∧
      CompactWifiBoard.humidityCrossings last.2 = [b.humidity_threshold_] ∧
      last.1.humidity_triggered_ = true ∧
      ∀ e ∈ last.2, (∃ t u, e = BoardEvent.log_dht11_data t u) ∨
        (∃ t, e = BoardEvent.log_temperature_over_threshold t) ∨
        (∃ t, e = BoardEvent.log_humidity_over_threshold t) ∨
        e = BoardEvent.SendTemperatureAlertToServer last.1.dht11_sensor_.temperature_) := by
  have hlen : mid.length + 2 = (mid.length + 1) + 1 := rfl
  rw [hlen] at hrun
  obtain ⟨p1, h1, h2⟩ := Polls_cons fuel _ b p p' first _ hrun
  have hvf := hvalid first (List.mem_cons_self _ _)
  have hvm : ∀ r ∈ mid, r.1.dht11_sensor_.data_valid_ = true := fun r hr =>
    hvalid r (List.mem_cons_of_mem _ (List.mem_append_left _ hr))
  have hvl : last.1.dht11_sensor_.data_valid_ = true :=
    hvalid last (List.mem_cons_of_mem _ (List.mem_append_right _ (List.mem_singleton_self _)))
  constructor
  · intro he hl hfirst hmid hlast
    unfold DHT11.GetTemperature at hfirst hmid hlast ⊢
    obtain ⟨c1, c2, c3, c4⟩ := poll_temperature_triggered fuel b first.1 p p1 first.2 h1 hvf hl
    rw [decide_eq_true hfirst] at c2
    obtain ⟨d1, b', p2, d2, d3, d4, d5⟩ := armed_run_temperature fuel mid [last] 1 first.1 p1 p'
      h2 hvm (by rw [c4]; exact he) c2 (fun r hr => by rw [c3]; exact hmid r hr)
    obtain ⟨p3, h3, -⟩ := Polls_cons fuel 0 b' p2 p' last [] d2
    obtain ⟨e1, e2, -, -⟩ := poll_temperature_armed fuel b' last.1 p2 p3 last.2 h3 hvl d3 d4
    have hge : last.1.dht11_sensor_.temperature_ ≥ b'.temperature_threshold_ := by
      rw [d5, c3]; exact le_of_lt hlast
    rw [if_pos hge] at e1
    rw [decide_eq_true hge] at e2
    exact ⟨c1, d1, e1, e2⟩
  · intro he hl hfirst hmid hlast
    unfold DHT11.GetHumidity at hfirst hmid hlast
    obtain ⟨c1, c2, c3, c4⟩ := poll_humidity_triggered fuel b first.1 p p1 first.2 h1 hvf hl
    rw [decide_eq_true hfirst] at c2
    obtain ⟨d1, b', p2, d2, d3, d4, d5⟩ := armed_run_humidity fuel mid [last] 1 first.1 p1 p'
      h2 hvm (by rw [c4]; exact he) c2 (fun r hr => by rw [c3]; exact hmid r hr)
    obtain ⟨p3, h3, -⟩ := Polls_cons fuel 0 b' p2 p' last [] d2
    obtain ⟨e1, e2, -, -⟩ := poll_humidity_armed fuel b' last.1 p2 p3 last.2 h3 hvl d3 d4
    have hge : last.1.dht11_sensor_.humidity_ ≥ b'.humidity_threshold_ := by
      rw [d5, c3]; exact le_of_lt hlast
    rw [if_pos hge] at e1
    rw [decide_eq_true hge] at e2
    rw [d5, c3] at e1
    exact ⟨c1, d1, e1, e2, poll_posts_temperature_only fuel b' last.1 p2 p3 last.2 h3 hvl⟩

/-! ## The simulated polls, run -/

theorem pinCooling_ReadData1 :
    DHT11.ReadData 20 pinCooling =
      some (ReadDataResult.ok [40, 0, 28, 0, 68], afterExchange pinCooling 206 246) := by
  apply ReadData_of_counts
  set_option maxRecDepth 100000 in decide

theorem pinCooling_ReadData2 :
    DHT11.ReadData 20 (afterExchange pinCooling 206 246) =
      some (ReadDataResult.ok [41, 0, 28, 5, 74],
        afterExchange (afterExchange pinCooling 206 246) 412 492) := by
  apply ReadData_of_counts
  set_option maxRecDepth 100000 in decide

theorem pinCooling_ReadData3 :
    DHT11.ReadData 20 (afterExchange (afterExchange pinCooling 206 246) 412 492) =
      some (ReadDataResult.ok [40, 0, 30, 0, 70],
        afterExchange (afterExchange (afterExchange pinCooling 206 246) 412 492) 618 738) := by
  apply ReadData_of_counts
  set_option maxRecDepth 100000 in decide

theorem pinDrying_ReadData1 :
    DHT11.ReadData 20 pinDrying =
      some (ReadDataResult.ok [80, 0, 26, 0, 106], afterExchange pinDrying 206 246) := by
  apply ReadData_of_counts
  set_option maxRecDepth 100000 in decide

theorem pinDrying_ReadData2 :
    DHT11.ReadData 20 (afterExchange pinDrying 206 246) =
      some (ReadDataResult.ok [85, 0, 25, 0, 110],
        afterExchange (afterExchange pinDrying 206 246) 412 492) := by
  apply ReadData_of_counts
  set_option maxRecDepth 100000 in decide

theorem pinDrying_ReadData3 :
    DHT11.ReadData 20 (afterExchange (afterExchange pinDrying 206 246) 412 492) =
      some (ReadDataResult.ok [89, 0, 25, 0, 114],
        afterExchange (afterExchange (afterExchange pinDrying 206 246) 412 492) 618 738) := by
  apply ReadData_of_counts
  set_option maxRecDepth 100000 in decide

/-- A poll in front of a frame that decodes without rounding. -/
theorem ReadDht11Data_exact (fuel : Nat) (b : CompactWifiBoard) (p p' : Pin)
    (d0 d1 d2 d3 d4 : ℕ)
    (hdata : DHT11.ReadData fuel p = some (ReadDataResult.ok [d0, d1, d2, d3, d4], p'))
    (hsum : d4 = (d0 + d1 + d2 + d3) % 256)
    (ht1 : (d2 : ℚ) + (d3 : ℚ) / 10 ≤ 50)
    (hh0 : 20 ≤ (d0 : ℚ) + (d1 : ℚ) / 10) (hh1 : (d0 : ℚ) + (d1 : ℚ) / 10 ≤ 90)
    (h1 : 5 ∣ d1) (h3 : 5 ∣ d3) (t h : ℚ) (et : t = (d2 : ℚ) + (d3 : ℚ) / 10)
    (eh : h = (d0 : ℚ) + (d1 : ℚ) / 10) :
    CompactWifiBoard.ReadDht11Data fuel b p =
      some ((CompactWifiBoard.AfterRead { b with dht11_sensor_ :=
          { temperature_ := t, humidity_ := h, data_valid_ := true } } true).1,
        (CompactWifiBoard.AfterRead { b with dht11_sensor_ :=
          { temperature_ := t, humidity_ := h, data_valid_ := true } } true).2, p') := by
  rw [et, eh]
  exact ReadDht11Data_eq fuel b p p' _ _
    (Read_exact fuel _ p p' d0 d1 d2 d3 d4 hdata hsum ht1 hh0 hh1 h1 h3)

theorem Polls_three (fuel : Nat) (b0 b1 b2 b3 : CompactWifiBoard) (p0 p1 p2 p3 : Pin)
    (e1 e2 e3 : List BoardEvent)
    (h1 : CompactWifiBoard.ReadDht11Data fuel b0 p0 = some (b1, e1, p1))
    (h2 : CompactWifiBoard.ReadDht11Data fuel b1 p1 = some (b2, e2, p2))
    (h3 : CompactWifiBoard.ReadDht11Data fuel b2 p2 = some (b3, e3, p3)) :
    CompactWifiBoard.Polls fuel 3 b0 p0 = some ([(b1, e1), (b2, e2), (b3, e3)], p3) := by
  simp only [CompactWifiBoard.Polls, h1, h2, h3]

theorem pinCooling_poll1 :
    CompactWifiBoard.ReadDht11Data 20 boardHot pinCooling =
      some (boardAt 28 40 false false, [BoardEvent.log_dht11_data 28 40],
        afterExchange pinCooling 206 246) := by
  rw [ReadDht11Data_exact 20 boardHot _ _ 40 0 28 0 68 pinCooling_ReadData1 (by norm_num)
    (by norm_num) (by norm_num) (by norm_num) (by omega) (by omega) 28 40 (by norm_num)
    (by norm_num)]
  unfold CompactWifiBoard.AfterRead CompactWifiBoard.CheckTemperature
    CompactWifiBoard.CheckHumidity DHT11.CheckHumidityThreshold DHT11.CheckTemperatureThreshold
  simp only [boardHot, boardAt, CompactWifiBoard.init, DHT11.GetTemperature, DHT11.GetHumidity]
  norm_num [f32sub_29_half, f32sub_29_inv, f32sub_88_5]

theorem pinCooling_poll2 :
    CompactWifiBoard.ReadDht11Data 20 (boardAt 28 40 false false)
        (afterExchange pinCooling 206 246) =
      some (boardAt (57 / 2) 41 false false, [BoardEvent.log_dht11_data (57 / 2) 41],
        afterExchange (afterExchange pinCooling 206 246) 412 492) := by
  rw [ReadDht11Data_exact 20 _ _ _ 41 0 28 5 74 pinCooling_ReadData2 (by norm_num)
    (by norm_num) (by norm_num) (by norm_num) (by omega) (by omega) (57 / 2) 41 (by norm_num)
    (by norm_num)]
  unfold CompactWifiBoard.AfterRead CompactWifiBoard.CheckTemperature
    CompactWifiBoard.CheckHumidity DHT11.CheckHumidityThreshold DHT11.CheckTemperatureThreshold
  simp only [boardAt, CompactWifiBoard.init, DHT11.GetTemperature, DHT11.GetHumidity]
  norm_num [f32sub_29_half, f32sub_29_inv, f32sub_88_5]

theorem pinCooling_poll3 :
    CompactWifiBoard.ReadDht11Data 20 (boardAt (57 / 2) 41 false false)
        (afterExchange (afterExchange pinCooling 206 246) 412 492) =
      some (boardAt 30 40 true false,
        [BoardEvent.log_dht11_data 30 40, BoardEvent.log_temperature_over_threshold 29,
          BoardEvent.SendTemperatureAlertToServer 30],
        afterExchange (afterExchange (afterExchange pinCooling 206 246) 412 492) 618 738) := by
  rw [ReadDht11Data_exact 20 _ _ _ 40 0 30 0 70 pinCooling_ReadData3 (by norm_num)
    (by norm_num) (by norm_num) (by norm_num) (by omega) (by omega) 30 40 (by norm_num)
    (by norm_num)]
  unfold CompactWifiBoard.AfterRead CompactWifiBoard.CheckTemperature
    CompactWifiBoard.CheckHumidity DHT11.CheckHumidityThreshold DHT11.CheckTemperatureThreshold
  simp only [boardAt, CompactWifiBoard.init, DHT11.GetTemperature, DHT11.GetHumidity]
  norm_num [f32sub_29_half, f32sub_29_inv, f32sub_88_5]

theorem pinDrying_poll1 :
    CompactWifiBoard.ReadDht11Data 20 boardHumid pinDrying =
      some (boardAt 26 80 false false, [BoardEvent.log_dht11_data 26 80],
        afterExchange pinDrying 206 246) := by
  rw [ReadDht11Data_exact 20 boardHumid _ _ 80 0 26 0 106 pinDrying_ReadData1 (by norm_num)
    (by norm_num) (by norm_num) (by norm_num) (by omega) (by omega) 26 80 (by norm_num)
    (by norm_num)]
  unfold CompactWifiBoard.AfterRead CompactWifiBoard.CheckTemperature
    CompactWifiBoard.CheckHumidity DHT11.CheckHumidityThreshold DHT11.CheckTemperatureThreshold
  simp only [boardHumid, boardAt, CompactWifiBoard.init, DHT11.GetTemperature,
    DHT11.GetHumidity]
  norm_num [f32sub_29_half, f32sub_29_inv, f32sub_88_5]

theorem pinDrying_poll2 :
    CompactWifiBoard.ReadDht11Data 20 (boardAt 26 80 false false)
        (afterExchange pinDrying 206 246) =
      some (boardAt 25 85 false false, [BoardEvent.log_dht11_data 25 85],
        afterExchange (afterExchange pinDrying 206 246) 412 492) := by
  rw [ReadDht11Data_exact 20 _ _ _ 85 0 25 0 110 pinDrying_ReadData2 (by norm_num)
    (by norm_num) (by norm_num) (by norm_num) (by omega) (by omega) 25 85 (by norm_num)
    (by norm_num)]
  unfold CompactWifiBoard.AfterRead CompactWifiBoard.CheckTemperature
    CompactWifiBoard.CheckHumidity DHT11.CheckHumidityThreshold DHT11.CheckTemperatureThreshold
  simp only [boardAt, CompactWifiBoard.init, DHT11.GetTemperature, DHT11.GetHumidity]
  norm_num [f32sub_29_half, f32sub_29_inv, f32sub_88_5]

theorem pinDrying_poll3 :
    CompactWifiBoard.ReadDht11Data 20 (boardAt 25 85 false false)
        (afterExchange (afterExchange pinDrying 206 246) 412 492) =
      some (boardAt 25 89 false true,
        [BoardEvent.log_dht11_data 25 89, BoardEvent.log_humidity_over_threshold 88],
        afterExchange (afterExchange (afterExchange pinDrying 206 246) 412 492) 618 738) := by
  rw [ReadDht11Data_exact 20 _ _ _ 89 0 25 0 114 pinDrying_ReadData3 (by norm_num)
    (by norm_num) (by norm_num) (by norm_num) (by omega) (by omega) 25 89 (by norm_num)
    (by norm_num)]
  unfold CompactWifiBoard.AfterRead CompactWifiBoard.CheckTemperature
    CompactWifiBoard.CheckHumidity DHT11.CheckHumidityThreshold DHT11.CheckTemperatureThreshold
  simp only [boardAt, CompactWifiBoard.init, DHT11.GetTemperature, DHT11.GetHumidity]
  norm_num [f32sub_29_half, f32sub_29_inv, f32sub_88_5]

theorem pinCooling_Polls :
    CompactWifiBoard.Polls 20 3 boardHot pinCooling =
      some ([(boardAt 28 40 false false, [BoardEvent.log_dht11_data 28 40]),
          (boardAt (57 / 2) 41 false false, [BoardEvent.log_dht11_data (57 / 2) 41]),
          (boardAt 30 40 true false,
            [BoardEvent.log_dht11_data 30 40, BoardEvent.log_temperature_over_threshold 29,
              BoardEvent.SendTemperatureAlertToServer 30])],
        afterExchange (afterExchange (afterExchange pinCooling 206 246) 412 492) 618 738) :=
  Polls_three 20 _ _ _ _ _ _ _ _ _ _ _ pinCooling_poll1 pinCooling_poll2 pinCooling_poll3

theorem pinDrying_Polls :
    CompactWifiBoard.Polls 20 3 boardHumid pinDrying =
      some ([(boardAt 26 80 false false, [BoardEvent.log_dht11_data 26 80]),
          (boardAt 25 85 false false, [BoardEvent.log_dht11_data 25 85]),
          (boardAt 25 89 false true,
            [BoardEvent.log_dht11_data 25 89, BoardEvent.log_humidity_over_threshold 88])],
        afterExchange (afterExchange (afterExchange pinDrying 206 246) 412 492) 618 738) :=
  Polls_three 20 _ _ _ _ _ _ _ _ _ _ _ pinDrying_poll1 pinDrying_poll2 pinDrying_poll3

/-- C10 (amended), at a board with the temperature latch set and the threshold 29.0 °C that
reads 28.0 °C, then 28.5 °C, then 30.0 °C, and at a board with the humidity latch set and
the threshold 88 %RH that reads 80 %RH, then 85 %RH, then 89 %RH. -/
theorem Polls_rearm_then_trigger_witness :
    CompactWifiBoard.Polls 20 3 boardHot pinCooling =
      some ([(boardAt 28 40 false false, [BoardEvent.log_dht11_data 28 40]),
          (boardAt (57 / 2) 41 false false, [BoardEvent.log_dht11_data (57 / 2) 41]),
          (boardAt 30 40 true false,
            [BoardEvent.log_dht11_data 30 40, BoardEvent.log_temperature_over_threshold 29,
              BoardEvent.SendTemperatureAlertToServer 30])],
        afterExchange (afterExchange (afterExchange pinCooling 206 246) 412 492) 618 738) ∧
    boardHot.temperature_trigger_enabled_ = true ∧ boardHot.temperature_triggered_ = true ∧
    (28 : ℚ) < f32sub boardHot.temperature_threshold_ (1 / 2) ∧
    (57 / 2 : ℚ) < boardHot.temperature_threshold_ ∧
    (30 : ℚ) > boardHot.temperature_threshold_ ∧
    CompactWifiBoard.temperatureAlerts [BoardEvent.log_dht11_data 28 40] = [] ∧
    (∀ r ∈ [(boardAt (57 / 2) 41 false false, [BoardEvent.log_dht11_data (57 / 2) 41])],
      CompactWifiBoard.temperatureAlerts r.2 = []) ∧
    CompactWifiBoard.temperatureAlerts
      [BoardEvent.log_dht11_data 30 40, BoardEvent.log_temperature_over_threshold 29,
        BoardEvent.SendTemperatureAlertToServer 30] = [30] ∧
    (boardAt 30 40 true false).temperature_triggered_ = true ∧
    boardHumid.humidity_trigger_enabled_ = true ∧ boardHumid.humidity_triggered_ = true ∧
    (80 : ℚ) < f32sub boardHumid.humidity_threshold_ 5 ∧
    (85 : ℚ) < boardHumid.humidity_threshold_ ∧
    (89 : ℚ) > boardHumid.humidity_threshold_ ∧
    CompactWifiBoard.humidityCrossings [BoardEvent.log_dht11_data 26 80] = [] ∧
    (∀ r ∈ [(boardAt 25 85 false false, [BoardEvent.log_dht11_data 25 85])],
      CompactWifiBoard.humidityCrossings r.2 = []) ∧
    CompactWifiBoard.humidityCrossings
      [BoardEvent.log_dht11_data 25 89, BoardEvent.log_humidity_over_threshold 88] = [88] ∧
    (boardAt 25 89 false true).humidity_triggered_ = true :=
  have h1 : (28 : ℚ) < f32sub boardHot.temperature_threshold_ (1 / 2) := by
    show (28 : ℚ) < f32sub 29 (1 / 2)
    rw [f32sub_29_half]; norm_num
  have h2 : (57 / 2 : ℚ) < boardHot.temperature_threshold_ := by
    show (57 / 2 : ℚ) < 29
    norm_num
  have h3 : (30 : ℚ) > boardHot.temperature_threshold_ := by
    show (30 : ℚ) > 29
    norm_num
  have g1 : (80 : ℚ) < f32sub boardHumid.humidity_threshold_ 5 := by
    show (80 : ℚ) < f32sub 88 5
    rw [f32sub_88_5]; norm_num
  have g2 : (85 : ℚ) < boardHumid.humidity_threshold_ := by
    show (85 : ℚ) < 88
    norm_num
  have g3 : (89 : ℚ) > boardHumid.humidity_threshold_ := by
    show (89 : ℚ) > 88
    norm_num
  have hum := (Polls_rearm_then_trigger 20 boardHumid pinDrying _
      (boardAt 26 80 false false, [BoardEvent.log_dht11_data 26 80])
      (boardAt 25 89 false true,
        [BoardEvent.log_dht11_data 25 89, BoardEvent.log_humidity_over_threshold 88])
      [(boardAt 25 85 false false, [BoardEvent.log_dht11_data 25 85])]
      pinDrying_Polls
      (by
        intro r hr
        simp only [List.cons_append, List.nil_append, List.mem_cons, List.mem_singleton,
          List.not_mem_nil, or_false] at hr
        rcases hr with rfl | rfl | rfl <;> rfl)).2 rfl rfl g1
      (by
        intro r hr
        simp only [List.mem_singleton] at hr
        rw [hr]
        exact g2) g3
  have tmp := (Polls_rearm_then_trigger 20 boardHot pinCooling _
      (boardAt 28 40 false false, [BoardEvent.log_dht11_data 28 40])
      (boardAt 30 40 true false,
        [BoardEvent.log_dht11_data 30 40, BoardEvent.log_temperature_over_threshold 29,
          BoardEvent.SendTemperatureAlertToServer 30])
      [(boardAt (57 / 2) 41 false false, [BoardEvent.log_dht11_data (57 / 2) 41])]
      pinCooling_Polls
      (by
        intro r hr
        simp only [List.cons_append, List.nil_append, List.mem_cons, List.mem_singleton,
          List.not_mem_nil, or_false] at hr
        rcases hr with rfl | rfl | rfl <;> rfl)).1 rfl rfl h1
      (by
        intro r hr
        simp only [List.mem_singleton] at hr
        rw [hr]
        exact h2) h3
  ⟨pinCooling_Polls, rfl, rfl, h1, h2, h3, tmp.1, tmp.2.1, tmp.2.2.1, tmp.2.2.2, rfl, rfl,
    g1, g2, g3, hum.1, hum.2.1, hum.2.2.1, hum.2.2.2.1⟩

/-- C10 (as stated, refuted for humidity): the board has the humidity trigger enabled, its
latch set and the threshold 88; three polls read 80 %RH (below 88 - 5 = 83), 85 %RH
(below 88) and 89 %RH (above 88), all successfully.  The latch is cleared and set again,
but the events of the three polls are log lines only: no alert event is produced for
humidity. -/
theorem Polls_humidity_no_alert :
    boardHumid.humidity_trigger_enabled_ = true ∧ boardHumid.humidity_triggered_ = true ∧
    boardHumid.humidity_threshold_ = 88 ∧ f32sub 88 5 = 83 ∧
    CompactWifiBoard.Polls 20 3 boardHumid pinDrying =
      some ([(boardAt 26 80 false false, [BoardEvent.log_dht11_data 26 80]),
          (boardAt 25 85 false false, [BoardEvent.log_dht11_data 25 85]),
          (boardAt 25 89 false true,
            [BoardEvent.log_dht11_data 25 89, BoardEvent.log_humidity_over_threshold 88])],
        afterExchange (afterExchange (afterExchange pinDrying 206 246) 412 492) 618 738) ∧
    (∀ e ∈ [BoardEvent.log_dht11_data 26 80, BoardEvent.log_dht11_data 25 85,
        BoardEvent.log_dht11_data 25 89, BoardEvent.log_humidity_over_threshold 88],
      ∀ t, e ≠ BoardEvent.SendTemperatureAlertToServer t) :=
  ⟨rfl, rfl, rfl, f32sub_88_5, pinDrying_Polls, by simp⟩

/-! ## C11: the worked example -/

/-- A poll in front of any frame in range: the sensor holds the two float results. -/
theorem ReadDht11Data_frame (fuel : Nat) (b : CompactWifiBoard) (p p' : Pin)
    (d0 d1 d2 d3 d4 : ℕ)
    (hdata : DHT11.ReadData fuel p = some (ReadDataResult.ok [d0, d1, d2, d3, d4], p'))
    (hsum : d4 = (d0 + d1 + d2 + d3) % 256)
    (ht1 : (d2 : ℚ) + (d3 : ℚ) / 10 ≤ 50)
    (hh0 : 20 ≤ (d0 : ℚ) + (d1 : ℚ) / 10) (hh1 : (d0 : ℚ) + (d1 : ℚ) / 10 ≤ 90)
    (t h : ℚ) (et : f32add (d2 : ℚ) (f32div (d3 : ℚ) 10) = t)
    (eh : f32add (d0 : ℚ) (f32div (d1 : ℚ) 10) = h) :
    CompactWifiBoard.ReadDht11Data fuel b p =
      some ((CompactWifiBoard.AfterRead { b with dht11_sensor_ :=
          { temperature_ := t, humidity_ := h, data_valid_ := true } } true).1,
        (CompactWifiBoard.AfterRead { b with dht11_sensor_ :=
          { temperature_ := t, humidity_ := h, data_valid_ := true } } true).2, p') := by
  have hread : b.dht11_sensor_.Read fuel p =
      some (ReadStatus.success,
        { temperature_ := t, humidity_ := h, data_valid_ := true }, p') := by
    rw [Read_eq_Decode fuel _ p p' _ hdata, Decode_in_range _ d0 d1 d2 d3 d4 hsum ht1 hh0 hh1,
      et, eh]
  exact ReadDht11Data_eq fuel b p p' _ _ hread

theorem f32_29_2 : f32add ((29 : ℕ) : ℚ) (f32div ((2 : ℕ) : ℚ) 10) = 7654605 / 262144 := by
  have h : f32div ((2 : ℕ) : ℚ) 10 = 13421773 / 67108864 := by
    unfold f32div
    rw [f32round_eval _ (-3) 13421773 (by norm_num) (by norm_num) (by norm_num) (by norm_num)
      (by norm_num)]
    norm_num
  rw [h]
  unfold f32add
  rw [f32round_eval _ 4 15309210 (by norm_num) (by norm_num) (by norm_num) (by norm_num)
    (by norm_num)]
  norm_num

theorem f32_28_3 : f32add ((28 : ℕ) : ℚ) (f32div ((3 : ℕ) : ℚ) 10) = 7418675 / 262144 := by
  have h : f32div ((3 : ℕ) : ℚ) 10 = 5033165 / 16777216 := by
    unfold f32div
    rw [f32round_eval _ (-2) 10066330 (by norm_num) (by norm_num) (by norm_num) (by norm_num)
      (by norm_num)]
    norm_num
  rw [h]
  unfold f32add
  rw [f32round_eval _ 4 14837350 (by norm_num) (by norm_num) (by norm_num) (by norm_num)
    (by norm_num)]
  norm_num

theorem f32_exact (a b : ℕ) (ha : a ≤ 1000) (hb : b ≤ 1000) (h5 : 5 ∣ b) (q : ℚ)
    (hq : (a : ℚ) + (b : ℚ) / 10 = q) : f32add (a : ℚ) (f32div (b : ℚ) 10) = q := by
  rw [decode_exact a b ha hb h5, hq]

/-- C11: on a board with the temperature threshold 29.0 °C, the trigger enabled and the
latch clear, five polls that read successfully the temperatures 28.0, 29.5, 29.2, 28.3
and 30.0 (as floats: within `2^-16` of these numbers) post a temperature alert in the
second and in the fifth poll and in no other; the latch after the polls is false, true,
true, false, true. -/
theorem Polls_example (fuel : Nat) (b : CompactWifiBoard) (p p' : Pin)
    (r1 r2 r3 r4 r5 : CompactWifiBoard × List BoardEvent)
    (hrun : CompactWifiBoard.Polls fuel 5 b p = some ([r1, r2, r3, r4, r5], p'))
    (hvalid : ∀ r ∈ [r1, r2, r3, r4, r5], r.1.dht11_sensor_.data_valid_ = true)
    (hthr : b.temperature_threshold_ = 29) (he : b.temperature_trigger_enabled_ = true)
    (hl : b.temperature_triggered_ = false)
    (h1 : |r1.1.dht11_sensor_.GetTemperature - 28| ≤ 1 / 65536)
    (h2 : |r2.1.dht11_sensor_.GetTemperature - 59 / 2| ≤ 1 / 65536)
    (h3 : |r3.1.dht11_sensor_.GetTemperature - 146 / 5| ≤ 1 / 65536)
    (h4 : |r4.1.dht11_sensor_.GetTemperature - 283 / 10| ≤ 1 / 65536)
    (h5 : |r5.1.dht11_sensor_.GetTemperature - 30| ≤ 1 / 65536) :
    [r1, r2, r3, r4, r5].map (fun r => CompactWifiBoard.temperatureAlerts r.2) =
      [[], [r2.1.dht11_sensor_.GetTemperature], [], [],
        [r5.1.dht11_sensor_.GetTemperature]] ∧
    [r1, r2, r3, r4, r5].map (fun r => r.1.temperature_triggered_) =
      [false, true, true, false, true] := by
  unfold DHT11.GetTemperature at h1 h2 h3 h4 h5 ⊢
  rw [abs_le] at h1 h2 h3 h4 h5
  have v1 := hvalid r1 (by simp)
  have v2 := hvalid r2 (by simp)
  have v3 := hvalid r3 (by simp)
  have v4 := hvalid r4 (by simp)
  have v5 := hvalid r5 (by simp)
  obtain ⟨p1, g1, run1⟩ := Polls_cons fuel 4 b p p' r1 _ hrun
  obtain ⟨p2, g2, run2⟩ := Polls_cons fuel 3 r1.1 p1 p' r2 _ run1
  obtain ⟨p3, g3, run3⟩ := Polls_cons fuel 2 r2.1 p2 p' r3 _ run2
  obtain ⟨p4, g4, run4⟩ := Polls_cons fuel 1 r3.1 p3 p' r4 _ run3
  obtain ⟨p5, g5, -⟩ := Polls_cons fuel 0 r4.1 p4 p' r5 _ run4
  -- poll 1: armed, 28.0 is below the threshold
  obtain ⟨a1, l1, t1, e1⟩ := poll_temperature_armed fuel b r1.1 p p1 r1.2 g1 v1 he hl
  have n1 : ¬ r1.1.dht11_sensor_.temperature_ ≥ b.temperature_threshold_ := by
    rw [hthr]; intro h; linarith [h1.2]
  rw [if_neg n1] at a1
  rw [decide_eq_false n1] at l1
  rw [hthr] at t1
  rw [he] at e1
  -- poll 2: armed, 29.5 is at least the threshold
  obtain ⟨a2, l2, t2, e2⟩ := poll_temperature_armed fuel r1.1 r2.1 p1 p2 r2.2 g2 v2 e1 l1
  have n2 : r2.1.dht11_sensor_.temperature_ ≥ r1.1.temperature_threshold_ := by
    rw [t1]; linarith [h2.1]
  rw [if_pos n2] at a2
  rw [decide_eq_true n2] at l2
  rw [t1] at t2
  rw [e1] at e2
  -- poll 3: latched, 29.2 is not below 28.5
  obtain ⟨a3, l3, t3, e3⟩ := poll_temperature_triggered fuel r2.1 r3.1 p2 p3 r3.2 g3 v3 l2
  have n3 : ¬ r3.1.dht11_sensor_.temperature_ < f32sub r2.1.temperature_threshold_ (1 / 2) := by
    rw [t2, f32sub_29_half]; intro h; linarith [h3.1]
  rw [decide_eq_false n3] at l3
  rw [t2] at t3
  rw [e2] at e3
  -- poll 4: latched, 28.3 is below 28.5
  obtain ⟨a4, l4, t4, e4⟩ := poll_temperature_triggered fuel r3.1 r4.1 p3 p4 r4.2 g4 v4 l3
  have n4 : r4.1.dht11_sensor_.temperature_ < f32sub r3.1.temperature_threshold_ (1 / 2) := by
    rw [t3, f32sub_29_half]; linarith [h4.2]
  rw [decide_eq_true n4] at l4
  rw [t3] at t4
  rw [e3] at e4
  -- poll 5: armed again, 30.0 is at least the threshold
  obtain ⟨a5, l5, -, -⟩ := poll_temperature_armed fuel r4.1 r5.1 p4 p5 r5.2 g5 v5 e4 l4
  have n5 : r5.1.dht11_sensor_.temperature_ ≥ r4.1.temperature_threshold_ := by
    rw [t4]; linarith [h5.1]
  rw [if_pos n5] at a5
  rw [decide_eq_true n5] at l5
  simp [a1, a2, a3, a4, a5, l1, l2, l3, l4, l5]

/-! ### The worked example, run on the simulated sensor -/

theorem pinFive_ReadData1 :
    DHT11.ReadData 20 pinFive =
      some (ReadDataResult.ok [40, 0, 28, 0, 68], afterExchange pinFive 206 246) := by
  apply ReadData_of_counts
  set_option maxRecDepth 100000 in decide

theorem pinFive_ReadData2 :
    DHT11.ReadData 20 (afterExchange pinFive 206 246) =
      some (ReadDataResult.ok [40, 0, 29, 5, 74],
        afterExchange (afterExchange pinFive 206 246) 412 492) := by
  apply ReadData_of_counts
  set_option maxRecDepth 100000 in decide

theorem pinFive_ReadData3 :
    DHT11.ReadData 20 (afterExchange (afterExchange pinFive 206 246) 412 492) =
      some (ReadDataResult.ok [41, 0, 29, 2, 72],
        afterExchange (afterExchange (afterExchange pinFive 206 246) 412 492) 618 738) := by
  apply ReadData_of_counts
  set_option maxRecDepth 100000 in decide

theorem pinFive_ReadData4 :
    DHT11.ReadData 20
        (afterExchange (afterExchange (afterExchange pinFive 206 246) 412 492) 618 738) =
      some (ReadDataResult.ok [41, 0, 28, 3, 72],
        afterExchange
          (afterExchange (afterExchange (afterExchange pinFive 206 246) 412 492) 618 738)
          824 984) := by
  apply ReadData_of_counts
  set_option maxRecDepth 100000 in decide

theorem pinFive_ReadData5 :
    DHT11.ReadData 20
        (afterExchange
          (afterExchange (afterExchange (afterExchange pinFive 206 246) 412 492) 618 738)
          824 984) =
      some (ReadDataResult.ok [40, 0, 30, 0, 70],
        afterExchange
          (afterExchange
            (afterExchange (afterExchange (afterExchange pinFive 206 246) 412 492) 618 738)
            824 984)
          1030 1230) := by
  apply ReadData_of_counts
  set_option maxRecDepth 100000 in decide

theorem Polls_five (fuel : Nat) (b0 b1 b2 b3 b4 b5 : CompactWifiBoard)
    (p0 p1 p2 p3 p4 p5 : Pin) (e1 e2 e3 e4 e5 : List BoardEvent)
    (h1 : CompactWifiBoard.ReadDht11Data fuel b0 p0 = some (b1, e1, p1))
    (h2 : CompactWifiBoard.ReadDht11Data fuel b1 p1 = some (b2, e2, p2))
    (h3 : CompactWifiBoard.ReadDht11Data fuel b2 p2 = some (b3, e3, p3))
    (h4 : CompactWifiBoard.ReadDht11Data fuel b3 p3 = some (b4, e4, p4))
    (h5 : CompactWifiBoard.ReadDht11Data fuel b4 p4 = some (b5, e5, p5)) :
    CompactWifiBoard.Polls fuel 5 b0 p0 =
      some ([(b1, e1), (b2, e2), (b3, e3), (b4, e4), (b5, e5)], p5) := by
  simp only [CompactWifiBoard.Polls, h1, h2, h3, h4, h5]

theorem pinFive_poll1 :
    CompactWifiBoard.ReadDht11Data 20 CompactWifiBoard.init pinFive =
      some (boardAt 28 40 false false, [BoardEvent.log_dht11_data 28 40],
        afterExchange pinFive 206 246) := by
  rw [ReadDht11Data_frame 20 _ _ _ 40 0 28 0 68 pinFive_ReadData1 (by norm_num)
    (by norm_num) (by norm_num) (by norm_num) 28 40
    (f32_exact 28 0 (by norm_num) (by norm_num) (by omega) 28 (by norm_num))
    (f32_exact 40 0 (by norm_num) (by norm_num) (by omega) 40 (by norm_num))]
  unfold CompactWifiBoard.AfterRead CompactWifiBoard.CheckTemperature
    CompactWifiBoard.CheckHumidity DHT11.CheckHumidityThreshold DHT11.CheckTemperatureThreshold
  simp only [boardAt, CompactWifiBoard.init, DHT11.GetTemperature, DHT11.GetHumidity]
  norm_num [f32sub_29_half, f32sub_29_inv, f32sub_88_5]

theorem pinFive_poll2 :
    CompactWifiBoard.ReadDht11Data 20 (boardAt 28 40 false false)
        (afterExchange pinFive 206 246) =
      some (boardAt (59 / 2) 40 true false,
        [BoardEvent.log_dht11_data (59 / 2) 40, BoardEvent.log_temperature_over_threshold 29,
          BoardEvent.SendTemperatureAlertToServer (59 / 2)],
        afterExchange (afterExchange pinFive 206 246) 412 492) := by
  rw [ReadDht11Data_frame 20 _ _ _ 40 0 29 5 74 pinFive_ReadData2 (by norm_num)
    (by norm_num) (by norm_num) (by norm_num) (59 / 2) 40
    (f32_exact 29 5 (by norm_num) (by norm_num) (by omega) (59 / 2) (by norm_num))
    (f32_exact 40 0 (by norm_num) (by norm_num) (by omega) 40 (by norm_num))]
  unfold CompactWifiBoard.AfterRead CompactWifiBoard.CheckTemperature
    CompactWifiBoard.CheckHumidity DHT11.CheckHumidityThreshold DHT11.CheckTemperatureThreshold
  simp only [boardAt, CompactWifiBoard.init, DHT11.GetTemperature, DHT11.GetHumidity]
  norm_num [f32sub_29_half, f32sub_29_inv, f32sub_88_5]

theorem pinFive_poll3 :
    CompactWifiBoard.ReadDht11Data 20 (boardAt (59 / 2) 40 true false)
        (afterExchange (afterExchange pinFive 206 246) 412 492) =
      some (boardAt (7654605 / 262144) 41 true false,
        [BoardEvent.log_dht11_data (7654605 / 262144) 41],
        afterExchange (afterExchange (afterExchange pinFive 206 246) 412 492) 618 738) := by
  rw [ReadDht11Data_frame 20 _ _ _ 41 0 29 2 72 pinFive_ReadData3 (by norm_num)
    (by norm_num) (by norm_num) (by norm_num) (7654605 / 262144) 41 f32_29_2
    (f32_exact 41 0 (by norm_num) (by norm_num) (by omega) 41 (by norm_num))]
  unfold CompactWifiBoard.AfterRead CompactWifiBoard.CheckTemperature
    CompactWifiBoard.CheckHumidity DHT11.CheckHumidityThreshold DHT11.CheckTemperatureThreshold
  simp only [boardAt, CompactWifiBoard.init, DHT11.GetTemperature, DHT11.GetHumidity]
  norm_num [f32sub_29_half, f32sub_29_inv, f32sub_88_5]

theorem pinFive_poll4 :
    CompactWifiBoard.ReadDht11Data 20 (boardAt (7654605 / 262144) 41 true false)
        (afterExchange (afterExchange (afterExchange pinFive 206 246) 412 492) 618 738) =
      some (boardAt (7418675 / 262144) 41 false false,
        [BoardEvent.log_dht11_data (7418675 / 262144) 41],
        afterExchange
          (afterExchange (afterExchange (afterExchange pinFive 206 246) 412 492) 618 738)
          824 984) := by
  rw [ReadDht11Data_frame 20 _ _ _ 41 0 28 3 72 pinFive_ReadData4 (by norm_num)
    (by norm_num) (by norm_num) (by norm_num) (7418675 / 262144) 41 f32_28_3
    (f32_exact 41 0 (by norm_num) (by norm_num) (by omega) 41 (by norm_num))]
  unfold CompactWifiBoard.AfterRead CompactWifiBoard.CheckTemperature
    CompactWifiBoard.CheckHumidity DHT11.CheckHumidityThreshold DHT11.CheckTemperatureThreshold
  simp only [boardAt, CompactWifiBoard.init, DHT11.GetTemperature, DHT11.GetHumidity]
  norm_num [f32sub_29_half, f32sub_29_inv, f32sub_88_5]

theorem pinFive_poll5 :
    CompactWifiBoard.ReadDht11Data 20 (boardAt (7418675 / 262144) 41 false false)
        (afterExchange
          (afterExchange (afterExchange (afterExchange pinFive 206 246) 412 492) 618 738)
          824 984) =
      some (boardAt 30 40 true false,
        [BoardEvent.log_dht11_data 30 40, BoardEvent.log_temperature_over_threshold 29,
          BoardEvent.SendTemperatureAlertToServer 30],
        afterExchange
          (afterExchange
            (afterExchange (afterExchange (afterExchange pinFive 206 246) 412 492) 618 738)
            824 984)
          1030 1230) := by
  rw [ReadDht11Data_frame 20 _ _ _ 40 0 30 0 70 pinFive_ReadData5 (by norm_num)
    (by norm_num) (by norm_num) (by norm_num) 30 40
    (f32_exact 30 0 (by norm_num) (by norm_num) (by omega) 30 (by norm_num))
    (f32_exact 40 0 (by norm_num) (by norm_num) (by omega) 40 (by norm_num))]
  unfold CompactWifiBoard.AfterRead CompactWifiBoard.CheckTemperature
    CompactWifiBoard.CheckHumidity DHT11.CheckHumidityThreshold DHT11.CheckTemperatureThreshold
  simp only [boardAt, CompactWifiBoard.init, DHT11.GetTemperature, DHT11.GetHumidity]
  norm_num [f32sub_29_half, f32sub_29_inv, f32sub_88_5]

theorem pinFive_Polls :
    CompactWifiBoard.Polls 20 5 CompactWifiBoard.init pinFive =
      some ([(boardAt 28 40 false false, [BoardEvent.log_dht11_data 28 40]),
          (boardAt (59 / 2) 40 true false,
            [BoardEvent.log_dht11_data (59 / 2) 40,
              BoardEvent.log_temperature_over_threshold 29,
              BoardEvent.SendTemperatureAlertToServer (59 / 2)]),
          (boardAt (7654605 / 262144) 41 true false,
            [BoardEvent.log_dht11_data (7654605 / 262144) 41]),
          (boardAt (7418675 / 262144) 41 false false,
            [BoardEvent.log_dht11_data (7418675 / 262144) 41]),
          (boardAt 30 40 true false,
            [BoardEvent.log_dht11_data 30 40, BoardEvent.log_temperature_over_threshold 29,
              BoardEvent.SendTemperatureAlertToServer 30])],
        afterExchange
          (afterExchange
            (afterExchange (afterExchange (afterExchange pinFive 206 246) 412 492) 618 738)
            824 984)
          1030 1230) :=
  Polls_five 20 _ _ _ _ _ _ _ _ _ _ _ _ _ _ _ _ _ pinFive_poll1 pinFive_poll2 pinFive_poll3
    pinFive_poll4 pinFive_poll5

/-- The worked example on the simulated sensor: the board as constructed polls the five
frames 28.0, 29.5, 29.2, 28.3 and 30.0 °C; the alerts are those of polls two and five. -/
theorem Polls_example_witness :
    CompactWifiBoard.Polls 20 5 CompactWifiBoard.init pinFive ≠ none ∧
    ((CompactWifiBoard.Polls 20 5 CompactWifiBoard.init pinFive).map
      (fun r => r.1.map (fun x => CompactWifiBoard.temperatureAlerts x.2))) =
      some [[], [59 / 2], [], [], [30]] ∧
    ((CompactWifiBoard.Polls 20 5 CompactWifiBoard.init pinFive).map
      (fun r => r.1.map (fun x => x.1.temperature_triggered_))) =
      some [false, true, true, false, true] := by
  have h := Polls_example 20 CompactWifiBoard.init pinFive _ _ _ _ _ _ pinFive_Polls
    (by intro r hr; simp only [List.mem_cons, List.mem_singleton, List.not_mem_nil,
          or_false] at hr
        rcases hr with rfl | rfl | rfl | rfl | rfl <;> rfl)
    rfl rfl rfl
    (by simp only [boardAt, DHT11.GetTemperature]; rw [abs_le]; constructor <;> norm_num)
    (by simp only [boardAt, DHT11.GetTemperature]; rw [abs_le]; constructor <;> norm_num)
    (by simp only [boardAt, DHT11.GetTemperature]; rw [abs_le]; constructor <;> norm_num)
    (by simp only [boardAt, DHT11.GetTemperature]; rw [abs_le]; constructor <;> norm_num)
    (by simp only [boardAt, DHT11.GetTemperature]; rw [abs_le]; constructor <;> norm_num)
  rw [pinFive_Polls]
  refine ⟨by simp, ?_, ?_⟩
  · simp only [Option.map_some']
    rw [h.1]
    simp [boardAt, DHT11.GetTemperature]
  · simp only [Option.map_some']
    rw [h.2]

/-! ## C12: the events of one poll -/

/-- The temperature block logs and posts exactly when it sets the latch. -/
theorem CheckTemperature_events (b : CompactWifiBoard) (t : ℚ) :
    (CompactWifiBoard.CheckTemperature b t).2 =
      if b.temperature_triggered_ = false ∧
          (CompactWifiBoard.CheckTemperature b t).1.temperature_triggered_ = true
      then [BoardEvent.log_temperature_over_threshold b.temperature_threshold_,
        BoardEvent.SendTemperatureAlertToServer t]
      else [] := by
  unfold CompactWifiBoard.CheckTemperature
  cases hl : b.temperature_triggered_ <;> cases he : b.temperature_trigger_enabled_ <;>
    split_ifs <;> simp_all

/-- The humidity block writes its log line exactly when it sets the latch. -/
theorem CheckHumidity_events (b : CompactWifiBoard) (h : ℚ) :
    (CompactWifiBoard.CheckHumidity b h).2 =
      if b.humidity_triggered_ = false ∧
          (CompactWifiBoard.CheckHumidity b h).1.humidity_triggered_ = true
      then [BoardEvent.log_humidity_over_threshold b.humidity_threshold_]
      else [] := by
  unfold CompactWifiBoard.CheckHumidity
  cases hl : b.humidity_triggered_ <;> cases he : b.humidity_trigger_enabled_ <;>
    split_ifs <;> simp_all

theorem AfterRead_events (b : CompactWifiBoard) :
    (CompactWifiBoard.AfterRead b true).2 =
      BoardEvent.log_dht11_data b.dht11_sensor_.temperature_ b.dht11_sensor_.humidity_ ::
        ((if b.temperature_triggered_ = false ∧
              (CompactWifiBoard.AfterRead b true).1.temperature_triggered_ = true
          then [BoardEvent.log_temperature_over_threshold b.temperature_threshold_,
            BoardEvent.SendTemperatureAlertToServer b.dht11_sensor_.temperature_]
          else []) ++
        (if b.humidity_triggered_ = false ∧
              (CompactWifiBoard.AfterRead b true).1.humidity_triggered_ = true
          then [BoardEvent.log_humidity_over_threshold b.humidity_threshold_]
          else [])) := by
  obtain ⟨a1, -, a3, -⟩ := AfterRead_ok b
  rw [a1, a3]
  have hT := CheckTemperature_events b b.dht11_sensor_.temperature_
  have hH := CheckHumidity_events (CompactWifiBoard.CheckTemperature b
    b.dht11_sensor_.temperature_).1 b.dht11_sensor_.humidity_
  have hf := (CheckTemperature_frame b b.dht11_sensor_.temperature_).1
  have hhl : (CompactWifiBoard.CheckTemperature b
      b.dht11_sensor_.temperature_).1.humidity_triggered_ = b.humidity_triggered_ := by
    rw [hf]
  have hht : (CompactWifiBoard.CheckTemperature b
      b.dht11_sensor_.temperature_).1.humidity_threshold_ = b.humidity_threshold_ := by
    rw [hf]
  have hlatch : (CompactWifiBoard.CheckHumidity (CompactWifiBoard.CheckTemperature b
      b.dht11_sensor_.temperature_).1 b.dht11_sensor_.humidity_).1.humidity_triggered_ =
      (CompactWifiBoard.CheckHumidity b b.dht11_sensor_.humidity_).1.humidity_triggered_ := by
    rw [← a3]
    unfold CompactWifiBoard.AfterRead
    simp only [if_true, DHT11.GetTemperature, DHT11.GetHumidity]
  rw [hhl, hht, hlatch] at hH
  rw [← hT, ← hH]
  unfold CompactWifiBoard.AfterRead
  simp only [if_true, DHT11.GetTemperature, DHT11.GetHumidity]

/-- C12 (amended): a poll with a successful read logs the reading, then runs the
temperature block, then the humidity block.  The temperature block adds its log line and
the one alert event `SendTemperatureAlertToServer` with the temperature read exactly when
the temperature latch goes from clear to set; the humidity block adds only its log line,
exactly when the humidity latch goes from clear to set, and no alert event.  A poll
therefore emits zero or one alert event, never two. -/
theorem ReadDht11Data_events (fuel : Nat) (b b1 : CompactWifiBoard) (p p1 : Pin)
    (ev : List BoardEvent) (h : CompactWifiBoard.ReadDht11Data fuel b p = some (b1, ev, p1))
    (hv : b1.dht11_sensor_.data_valid_ = true) :
    ev = BoardEvent.log_dht11_data b1.dht11_sensor_.GetTemperature
          b1.dht11_sensor_.GetHumidity ::
        ((if b.temperature_triggered_ = false ∧ b1.temperature_triggered_ = true
          then [BoardEvent.log_temperature_over_threshold b.temperature_threshold_,
            BoardEvent.SendTemperatureAlertToServer b1.dht11_sensor_.GetTemperature]
          else []) ++
        (if b.humidity_triggered_ = false ∧ b1.humidity_triggered_ = true
          then [BoardEvent.log_humidity_over_threshold b.humidity_threshold_]
          else [])) ∧
    CompactWifiBoard.temperatureAlerts ev =
      (if b.temperature_triggered_ = false ∧ b1.temperature_triggered_ = true
        then [b1.dht11_sensor_.GetTemperature] else []) ∧
    (CompactWifiBoard.temperatureAlerts ev).length ≤ 1 ∧
    ∀ e ∈ ev, (∃ t, e = BoardEvent.SendTemperatureAlertToServer t) →
      e = BoardEvent.SendTemperatureAlertToServer b1.dht11_sensor_.GetTemperature := by
  obtain ⟨e1, e2⟩ := poll_ok fuel b b1 p p1 ev h hv
  have hev := AfterRead_events { b with dht11_sensor_ := b1.dht11_sensor_ }
  rw [← e1, ← e2] at hev
  simp only [] at hev
  unfold DHT11.GetTemperature DHT11.GetHumidity
  refine ⟨hev, ?_, ?_, ?_⟩
  · rw [hev]
    split_ifs <;> simp [CompactWifiBoard.temperatureAlerts]
  · rw [hev]
    split_ifs <;> simp [CompactWifiBoard.temperatureAlerts]
  · clear e1 e2 h
    subst hev
    intro e he
    rintro ⟨t, rfl⟩
    split_ifs at he <;> simp at he <;> rw [he]

theorem pinHotHumid_ReadData :
    DHT11.ReadData 20 pinHotHumid =
      some (ReadDataResult.ok [89, 0, 30, 0, 119], afterExchange pinHotHumid 208 248) := by
  apply ReadData_of_counts
  set_option maxRecDepth 100000 in decide

theorem pinHotHumid_poll :
    CompactWifiBoard.ReadDht11Data 20 CompactWifiBoard.init pinHotHumid =
      some (boardAt 30 89 true true,
        [BoardEvent.log_dht11_data 30 89, BoardEvent.log_temperature_over_threshold 29,
          BoardEvent.SendTemperatureAlertToServer 30,
          BoardEvent.log_humidity_over_threshold 88],
        afterExchange pinHotHumid 208 248) := by
  rw [ReadDht11Data_exact 20 _ _ _ 89 0 30 0 119 pinHotHumid_ReadData (by norm_num)
    (by norm_num) (by norm_num) (by norm_num) (by omega) (by omega) 30 89 (by norm_num)
    (by norm_num)]
  unfold CompactWifiBoard.AfterRead CompactWifiBoard.CheckTemperature
    CompactWifiBoard.CheckHumidity DHT11.CheckHumidityThreshold DHT11.CheckTemperatureThreshold
  simp only [boardAt, CompactWifiBoard.init, DHT11.GetTemperature, DHT11.GetHumidity]
  norm_num [f32sub_29_half, f32sub_29_inv, f32sub_88_5]

/-- The events of the poll of 30.0 °C and 89.0 %RH by the board as constructed. -/
theorem ReadDht11Data_events_witness :
    CompactWifiBoard.ReadDht11Data 20 CompactWifiBoard.init pinHotHumid =
      some (boardAt 30 89 true true,
        [BoardEvent.log_dht11_data 30 89, BoardEvent.log_temperature_over_threshold 29,
          BoardEvent.SendTemperatureAlertToServer 30,
          BoardEvent.log_humidity_over_threshold 88],
        afterExchange pinHotHumid 208 248) ∧
    CompactWifiBoard.temperatureAlerts
        [BoardEvent.log_dht11_data 30 89, BoardEvent.log_temperature_over_threshold 29,
          BoardEvent.SendTemperatureAlertToServer 30,
          BoardEvent.log_humidity_over_threshold 88] =
      (if CompactWifiBoard.init.temperature_triggered_ = false ∧
          (boardAt 30 89 true true).temperature_triggered_ = true
        then [(boardAt 30 89 true true).dht11_sensor_.GetTemperature] else []) :=
  ⟨pinHotHumid_poll,
    (ReadDht11Data_events 20 CompactWifiBoard.init (boardAt 30 89 true true) pinHotHumid
      (afterExchange pinHotHumid 208 248) _ pinHotHumid_poll rfl).2.1⟩

/-- C12 as stated fails: the board as constructed has both triggers enabled and both
latches clear; it reads 30.0 °C (threshold 29.0) and 89.0 %RH (threshold 88.0).  Both
latches go from clear to set, and the poll emits one alert event, for the temperature; for
the humidity there is a log line only. -/
theorem ReadDht11Data_both_cross_one_alert :
    ∃ b1 ev p1,
      CompactWifiBoard.ReadDht11Data 20 CompactWifiBoard.init pinHotHumid = some (b1, ev, p1) ∧
      b1.dht11_sensor_.data_valid_ = true ∧
      CompactWifiBoard.init.temperature_trigger_enabled_ = true ∧
      CompactWifiBoard.init.humidity_trigger_enabled_ = true ∧
      CompactWifiBoard.init.temperature_triggered_ = false ∧
      CompactWifiBoard.init.humidity_triggered_ = false ∧
      b1.dht11_sensor_.GetTemperature ≥ CompactWifiBoard.init.temperature_threshold_ ∧
      b1.dht11_sensor_.GetHumidity ≥ CompactWifiBoard.init.humidity_threshold_ ∧
      b1.temperature_triggered_ = true ∧ b1.humidity_triggered_ = true ∧
      ev = [BoardEvent.log_dht11_data 30 89, BoardEvent.log_temperature_over_threshold 29,
        BoardEvent.SendTemperatureAlertToServer 30,
        BoardEvent.log_humidity_over_threshold 88] ∧
      (ev.filter (fun e => decide (e ≠ BoardEvent.log_dht11_data 30 89 ∧
        e ≠ BoardEvent.log_temperature_over_threshold 29 ∧
        e ≠ BoardEvent.log_humidity_over_threshold 88))).length = 1 := by
  refine ⟨_, _, _, pinHotHumid_poll, rfl, rfl, rfl, rfl, rfl, ?_, ?_, rfl, rfl, rfl, ?_⟩
  · simp only [boardAt, CompactWifiBoard.init, DHT11.GetTemperature]; norm_num
  · simp only [boardAt, CompactWifiBoard.init, DHT11.GetHumidity]; norm_num
  · simp

/-! ## C13: from forty bits to five bytes -/

theorem ReadBits_length (fuel : Nat) (n : Nat) :
    ∀ (p p' : Pin) (bits : List Bool),
      DHT11.ReadBits fuel n p = some (bits, p') → bits.length = n := by
  induction n with
  | zero =>
    intro p p' bits h
    simp only [DHT11.ReadBits, Option.some.injEq, Prod.mk.injEq] at h
    rw [← h.1]; rfl
  | succ n ih =>
    intro p p' bits h
    unfold DHT11.ReadBits at h
    split at h
    · simp at h
    · next bit p1 h1 =>
      split at h
      · simp at h
      · next bs p2 h2 =>
        simp only [Option.some.injEq, Prod.mk.injEq] at h
        rw [← h.1, List.length_cons, ih p1 p2 bs h2]

theorem ReadBits_succ (fuel n : Nat) (p : Pin) :
    DHT11.ReadBits fuel (n + 1) p =
      match DHT11.ReadBit fuel p with
      | none => none
      | some (bit, p1) =>
        match DHT11.ReadBits fuel n p1 with
        | none => none
        | some (bits, p2) => some (bit :: bits, p2) := rfl

/-- Reading `m + n` bits is reading `m` bits and then `n` bits. -/
theorem ReadBits_add (fuel : Nat) (m n : Nat) :
    ∀ p : Pin, DHT11.ReadBits fuel (m + n) p =
      match DHT11.ReadBits fuel m p with
      | none => none
      | some (bs, p1) =>
        match DHT11.ReadBits fuel n p1 with
        | none => none
        | some (cs, p2) => some (bs ++ cs, p2) := by
  induction m with
  | zero =>
    intro p
    simp only [Nat.zero_add, DHT11.ReadBits]
    cases DHT11.ReadBits fuel n p with
    | none => rfl
    | some x => rfl
  | succ m ih =>
    intro p
    rw [Nat.succ_add, ReadBits_succ fuel (m + n), ReadBits_succ fuel m]
    cases h1 : DHT11.ReadBit fuel p with
    | none => rfl
    | some x =>
      obtain ⟨bit, p1⟩ := x
      simp only []
      rw [ih p1]
      cases h2 : DHT11.ReadBits fuel m p1 with
      | none => rfl
      | some y =>
        obtain ⟨bs, p2⟩ := y
        simp only []
        cases h3 : DHT11.ReadBits fuel n p2 with
        | none => rfl
        | some z => rfl

/-- The loop of `ReadByte` is `orBits` over the bits that `ReadBit` delivers. -/
theorem ReadByteLoop_bits (fuel : Nat) (n : Nat) :
    ∀ (byte : Nat) (p : Pin), DHT11.ReadByteLoop fuel n byte p =
      (DHT11.ReadBits fuel n p).map (fun x => (DHT11.orBits n byte x.1, x.2)) := by
  induction n with
  | zero => intro byte p; rfl
  | succ i ih =>
    intro byte p
    unfold DHT11.ReadByteLoop DHT11.ReadBits
    cases h1 : DHT11.ReadBit fuel p with
    | none => rfl
    | some x =>
      obtain ⟨bit, p1⟩ := x
      simp only []
      rw [ih]
      cases h2 : DHT11.ReadBits fuel i p1 with
      | none => rfl
      | some y => rfl

/-- Eight bits or-ed into a zero byte from position 7 down give the most-significant-first
binary number. -/
theorem orBits_eight (bs cs : List Bool) (h : bs.length = 8) :
    DHT11.orBits 8 0 bs = DHT11.byteOfBits (bs ++ cs) 0 := by
  match bs, h with
  | [b0, b1, b2, b3, b4, b5, b6, b7], _ =>
    have e : DHT11.byteOfBits ([b0, b1, b2, b3, b4, b5, b6, b7] ++ cs) 0 =
        DHT11.byteOfBits [b0, b1, b2, b3, b4, b5, b6, b7] 0 := rfl
    rw [e]
    cases b0 <;> cases b1 <;> cases b2 <;> cases b3 <;> cases b4 <;> cases b5 <;> cases b6 <;>
      cases b7 <;> decide

theorem byteOfBits_append (bs cs : List Bool) (h : bs.length = 8) (j : Nat) :
    DHT11.byteOfBits (bs ++ cs) (j + 1) = DHT11.byteOfBits cs j := by
  unfold DHT11.byteOfBits
  congr 1
  apply List.map_congr_left
  intro k _
  have e : 8 * (j + 1) + k = bs.length + (8 * j + k) := by rw [h]; ring
  rw [e, List.getD_append_right _ _ _ _ (Nat.le_add_right _ _), Nat.add_sub_cancel_left]

/-- The loop of `ReadData` over `n` bytes is the byte formula over `8 n` bits. -/
theorem ReadDataLoop_bits (fuel : Nat) (n : Nat) :
    ∀ (data : List Nat) (p : Pin), DHT11.ReadDataLoop fuel n data p =
      (DHT11.ReadBits fuel (8 * n) p).map (fun x =>
        (ReadDataResult.ok (data ++ (List.range n).map (DHT11.byteOfBits x.1)), x.2)) := by
  induction n with
  | zero => intro data p; simp [DHT11.ReadDataLoop, DHT11.ReadBits]
  | succ n ih =>
    intro data p
    have e8 : 8 * (n + 1) = 8 + 8 * n := by ring
    rw [e8, ReadBits_add]
    unfold DHT11.ReadDataLoop DHT11.ReadByte
    rw [ReadByteLoop_bits]
    cases h1 : DHT11.ReadBits fuel 8 p with
    | none => rfl
    | some x =>
      obtain ⟨bs, p1⟩ := x
      have hl := ReadBits_length fuel 8 p p1 bs h1
      simp only [Option.map_some']
      rw [ih]
      cases h2 : DHT11.ReadBits fuel (8 * n) p1 with
      | none => rfl
      | some y =>
        obtain ⟨cs, p2⟩ := y
        simp only [Option.map_some', Option.some.injEq, Prod.mk.injEq, and_true,
          ReadDataResult.ok.injEq]
        rw [List.range_succ_eq_map, List.map_cons, List.map_map, List.append_assoc,
          List.singleton_append, orBits_eight bs cs hl]
        congr 2
        apply List.map_congr_left
        intro j _
        exact (byteOfBits_append bs cs hl j).symm

/-- A frame that `ReadData` delivers comes out of its byte loop, started where the
handshake ended. -/
theorem ReadData_loop (fuel : Nat) (p p' : Pin) (data : List Nat)
    (h : DHT11.ReadData fuel p = some (ReadDataResult.ok data, p')) :
    ∃ p3, (DHT11.StartSignal p).Advances p3 ∧
      DHT11.ReadDataLoop fuel 5 [] p3 = some (ReadDataResult.ok data, p') := by
  unfold DHT11.ReadData DHT11.ReadResponse at h
  split at h
  · simp at h
  · simp at h
  · next p1 h1 =>
    have a1 := (esp_timer_get_time_advances (DHT11.StartSignal p)).trans
      (waitWhile_advances _ _ _ _ _ _ h1)
    split at h
    · simp at h
    · simp at h
    · next p2 h2 =>
      have a2 := a1.trans
        ((esp_timer_get_time_advances p1).trans (waitWhile_advances _ _ _ _ _ _ h2))
      split at h
      · simp at h
      · simp at h
      · next p3 h3 =>
        exact ⟨p3, a2.trans
          ((esp_timer_get_time_advances p2).trans (waitWhile_advances _ _ _ _ _ _ h3)), h⟩

/-- C13: the byte loop of `ReadData` makes forty consecutive calls of `ReadBit` and, for
every sequence of forty bits b0..b39 they return in arrival order, delivers the frame
with data[j] = sum over k in 0..7 of b(8j+k) * 2^(7-k) for j = 0..4.  So a frame that
`ReadData` delivers is made of the forty bits read after the handshake, each byte
most-significant bit first from eight consecutive bits, and `Read` uses the bytes in
arrival order as humidity integer, humidity fraction, temperature integer, temperature
fraction and checksum. -/
theorem ReadData_frame_of_bits (fuel : Nat) (p p' : Pin) (data : List Nat)
    (h : DHT11.ReadData fuel p = some (ReadDataResult.ok data, p')) :
    (∀ q : Pin, DHT11.ReadDataLoop fuel 5 [] q =
      (DHT11.ReadBits fuel 40 q).map (fun x =>
        (ReadDataResult.ok [DHT11.byteOfBits x.1 0, DHT11.byteOfBits x.1 1,
          DHT11.byteOfBits x.1 2, DHT11.byteOfBits x.1 3, DHT11.byteOfBits x.1 4], x.2))) ∧
    ∃ p3 bits, (DHT11.StartSignal p).Advances p3 ∧
      DHT11.ReadBits fuel 40 p3 = some (bits, p') ∧ bits.length = 40 ∧
      data = [DHT11.byteOfBits bits 0, DHT11.byteOfBits bits 1, DHT11.byteOfBits bits 2,
        DHT11.byteOfBits bits 3, DHT11.byteOfBits bits 4] ∧
      ∀ self : DHT11,
        DHT11.byteOfBits bits 4 = (DHT11.byteOfBits bits 0 + DHT11.byteOfBits bits 1 +
          DHT11.byteOfBits bits 2 + DHT11.byteOfBits bits 3) % 256 →
        ∃ st s, DHT11.Read fuel self p = some (st, s, p') ∧
          s.GetHumidity = f32add (DHT11.byteOfBits bits 0 : ℚ)
            (f32div (DHT11.byteOfBits bits 1 : ℚ) 10) ∧
          s.GetTemperature = f32add (DHT11.byteOfBits bits 2 : ℚ)
            (f32div (DHT11.byteOfBits bits 3 : ℚ) 10) := by
  have hloop : ∀ q : Pin, DHT11.ReadDataLoop fuel 5 [] q =
      (DHT11.ReadBits fuel 40 q).map (fun x =>
        (ReadDataResult.ok [DHT11.byteOfBits x.1 0, DHT11.byteOfBits x.1 1,
          DHT11.byteOfBits x.1 2, DHT11.byteOfBits x.1 3, DHT11.byteOfBits x.1 4], x.2)) := by
    intro q
    rw [ReadDataLoop_bits fuel 5 [] q]
    rfl
  refine ⟨hloop, ?_⟩
  obtain ⟨p3, adv, h5⟩ := ReadData_loop fuel p p' data h
  rw [hloop p3] at h5
  cases hb : DHT11.ReadBits fuel 40 p3 with
  | none => rw [hb] at h5; simp at h5
  | some x =>
    obtain ⟨bits, q⟩ := x
    rw [hb] at h5
    simp only [Option.map_some', Option.some.injEq, Prod.mk.injEq, ReadDataResult.ok.injEq] at h5
    obtain ⟨hd, hq⟩ := h5
    subst hq
    refine ⟨p3, bits, adv, hb, ReadBits_length fuel 40 p3 _ bits hb, hd.symm, ?_⟩
    intro self hsum
    refine ⟨_, _, Read_eq_Decode fuel self p _ _ h, ?_⟩
    rw [← hd, Decode_checksum_ok self _ _ _ _ _ hsum]
    unfold DHT11.GetHumidity DHT11.GetTemperature
    split_ifs <;> exact ⟨rfl, rfl⟩

/-- The frame of the simulated sensor `pinValid`, from its forty bits. -/
theorem ReadData_frame_of_bits_witness :
    ∃ p3 bits, (DHT11.StartSignal pinValid).Advances p3 ∧
      DHT11.ReadBits 20 40 p3 = some (bits, afterExchange pinValid 208 248) ∧
      bits.length = 40 ∧
      [40, 0, 25, 0, 65] = [DHT11.byteOfBits bits 0, DHT11.byteOfBits bits 1,
        DHT11.byteOfBits bits 2, DHT11.byteOfBits bits 3, DHT11.byteOfBits bits 4] := by
  obtain ⟨p3, bits, h1, h2, h3, h4, -⟩ :=
    (ReadData_frame_of_bits 20 pinValid _ _ pinValid_ReadData).2
  exact ⟨p3, bits, h1, h2, h3, h4⟩

/-! ## C14: the pin protocol of `Read` -/

theorem StartSignal_ops (p : Pin) :
    (DHT11.StartSignal p).mode = gpio_mode_t.GPIO_MODE_INPUT ∧
    (DHT11.StartSignal p).ops =
      [PinOp.gpio_set_direction gpio_mode_t.GPIO_MODE_INPUT, PinOp.esp_rom_delay_us 40,
        PinOp.gpio_set_level 1, PinOp.esp_rom_delay_us 18000, PinOp.gpio_set_level 0,
        PinOp.gpio_set_direction gpio_mode_t.GPIO_MODE_OUTPUT] ++ p.ops ∧
    (DHT11.StartSignal p).reads = p.reads ∧ (DHT11.StartSignal p).ticks = p.ticks := by
  cases p
  exact ⟨rfl, rfl, rfl, rfl⟩

/-- C14: whatever the pin does and however `Read` ends, when it returns the pin is an
input; the operations it issued, oldest first, are exactly: set direction Output, write
Low, delay 18000 microseconds, write High, delay 40 microseconds, set direction Input.
Everything after the switch to input is a read of the line or of the clock (nothing is
written).  With a clock that advances and fuel for 101 iterations per wait, `Read` does
return. -/
theorem Read_pin_protocol (fuel : Nat) (self : DHT11) (p : Pin) :
    (∀ (st : ReadStatus) (s : DHT11) (p' : Pin), DHT11.Read fuel self p = some (st, s, p') →
      p'.mode = gpio_mode_t.GPIO_MODE_INPUT ∧
      p'.ops.reverse = p.ops.reverse ++
        [PinOp.gpio_set_direction gpio_mode_t.GPIO_MODE_OUTPUT, PinOp.gpio_set_level 0,
          PinOp.esp_rom_delay_us DHT11.DHT11_START_SIGNAL_US, PinOp.gpio_set_level 1,
          PinOp.esp_rom_delay_us 40, PinOp.gpio_set_direction gpio_mode_t.GPIO_MODE_INPUT] ∧
      (DHT11.StartSignal p).Advances p') ∧
    (101 ≤ fuel → StrictMono p.clock → ∃ st s p', DHT11.Read fuel self p = some (st, s, p')) := by
  refine ⟨?_, fun hfuel hmono => Read_returns fuel hfuel self p hmono⟩
  intro st s p' h
  unfold DHT11.Read at h
  split at h
  · simp at h
  · next r q hq =>
    simp only [Option.some.injEq, Prod.mk.injEq] at h
    obtain ⟨-, -, hp⟩ := h
    subst hp
    have adv := ReadResponse_advances fuel _ q r hq
    obtain ⟨m, o, -, -⟩ := StartSignal_ops p
    refine ⟨adv.2.2.1.trans m, ?_, adv⟩
    rw [adv.2.2.2.1, o]
    simp [DHT11.DHT11_START_SIGNAL_US]

/-- The pin after a successful read (`pinValid`) and after a failed one (`pinBadSum`,
checksum error): an input, with the start signal as the only operations issued. -/
theorem Read_pin_protocol_witness :
    ((afterExchange pinValid 208 248).mode = gpio_mode_t.GPIO_MODE_INPUT ∧
      (afterExchange pinValid 208 248).ops.reverse = pinValid.ops.reverse ++
        [PinOp.gpio_set_direction gpio_mode_t.GPIO_MODE_OUTPUT, PinOp.gpio_set_level 0,
          PinOp.esp_rom_delay_us DHT11.DHT11_START_SIGNAL_US, PinOp.gpio_set_level 1,
          PinOp.esp_rom_delay_us 40, PinOp.gpio_set_direction gpio_mode_t.GPIO_MODE_INPUT] ∧
      (DHT11.StartSignal pinValid).Advances (afterExchange pinValid 208 248)) ∧
    ((afterExchange pinBadSum 206 246).mode = gpio_mode_t.GPIO_MODE_INPUT ∧
      (afterExchange pinBadSum 206 246).ops.reverse = pinBadSum.ops.reverse ++
        [PinOp.gpio_set_direction gpio_mode_t.GPIO_MODE_OUTPUT, PinOp.gpio_set_level 0,
          PinOp.esp_rom_delay_us DHT11.DHT11_START_SIGNAL_US, PinOp.gpio_set_level 1,
          PinOp.esp_rom_delay_us 40, PinOp.gpio_set_direction gpio_mode_t.GPIO_MODE_INPUT] ∧
      (DHT11.StartSignal pinBadSum).Advances (afterExchange pinBadSum 206 246)) :=
  ⟨(Read_pin_protocol 20 DHT11.init pinValid).1 _ _ _
      (Read_eq_Decode 20 DHT11.init pinValid _ _ pinValid_ReadData),
    (Read_pin_protocol 20 DHT11.init pinBadSum).1 _ _ _ (pinBadSum_Read DHT11.init)⟩

/-! ## C15: the invariant of the sensor object -/

/-- A reading that `Decode` marks valid passed both range checks. -/
theorem Decode_valid_range (self : DHT11) (r : ReadDataResult)
    (h : (DHT11.Decode self r).2.data_valid_ = true) :
    0 ≤ (DHT11.Decode self r).2.temperature_ ∧ (DHT11.Decode self r).2.temperature_ ≤ 50 ∧
    20 ≤ (DHT11.Decode self r).2.humidity_ ∧ (DHT11.Decode self r).2.humidity_ ≤ 90 := by
  cases r with
  | fail e => simp [DHT11.Decode] at h
  | ok data =>
    unfold DHT11.Decode at h ⊢
    simp only [] at h ⊢
    split_ifs at h ⊢ with h1 h2 h3
    push_neg at h2 h3
    exact ⟨h2.1, h2.2, h3.1, h3.2⟩

theorem Reachable_range (s : DHT11) (hs : s.Reachable) (hv : s.data_valid_ = true) :
    0 ≤ s.temperature_ ∧ s.temperature_ ≤ 50 ∧ 20 ≤ s.humidity_ ∧ s.humidity_ ≤ 90 := by
  cases hs with
  | init => simp [DHT11.init] at hv
  | read fuel self p st s' p' _ hread =>
    unfold DHT11.Read at hread
    split at hread
    · simp at hread
    · next r q hq =>
      simp only [Option.some.injEq, Prod.mk.injEq] at hread
      obtain ⟨-, hs, -⟩ := hread
      subst hs
      exact Decode_valid_range self r hv

/-- C15: in every state of a `DHT11` object reachable from construction by calls of
`Read`, a valid reading has 0 <= temperature_ <= 50 and 20 <= humidity_ <= 90; a call of
`Read` returns true if and only if the reading is valid after the call (and the state it
leaves is reachable again); and while the reading is not valid, both threshold checks
return false for every threshold and both directions.  With a clock that advances and
fuel for 101 iterations per wait, the call of `Read` does return. -/
theorem Reachable_invariant (s : DHT11) (hs : s.Reachable) :
    (s.data_valid_ = true →
      0 ≤ s.temperature_ ∧ s.temperature_ ≤ 50 ∧ 20 ≤ s.humidity_ ∧ s.humidity_ ≤ 90) ∧
    (∀ (fuel : Nat) (p : Pin) (st : ReadStatus) (s1 : DHT11) (p' : Pin),
      s.Read fuel p = some (st, s1, p') →
        (st.toBool = true ↔ s1.data_valid_ = true) ∧ s1.Reachable) ∧
    (∀ (fuel : Nat) (p : Pin), 101 ≤ fuel → StrictMono p.clock →
      ∃ st s1 p', s.Read fuel p = some (st, s1, p')) ∧
    (s.data_valid_ = false → ∀ (threshold : ℚ) (above_threshold : Bool),
      s.CheckTemperatureThreshold threshold above_threshold = false ∧
      s.CheckHumidityThreshold threshold above_threshold = false) := by
  refine ⟨Reachable_range s hs, ?_, ?_, ?_⟩
  · intro fuel p st s1 p' h
    refine ⟨?_, DHT11.Reachable.read fuel s p st s1 p' hs h⟩
    rw [Read_status_valid fuel s s1 p p' st h]
  · intro fuel p hfuel hmono
    exact Read_returns fuel hfuel s p hmono
  · intro hv threshold above_threshold
    unfold DHT11.CheckTemperatureThreshold DHT11.CheckHumidityThreshold
    rw [hv]
    exact ⟨rfl, rfl⟩

theorem pinValid_Read (self : DHT11) :
    DHT11.Read 20 self pinValid =
      some (ReadStatus.success, { temperature_ := 25, humidity_ := 40, data_valid_ := true },
        afterExchange pinValid 208 248) := by
  have h := Read_exact 20 self pinValid _ 40 0 25 0 65 pinValid_ReadData (by norm_num)
    (by norm_num) (by norm_num) (by norm_num) (by omega) (by omega)
  norm_num at h
  exact h

/-- Two reachable states: the reading 25.0 °C, 40.0 %RH left by a successful `Read` of the
constructed object, which is in range; and the state a checksum error leaves after it,
in which no threshold check passes. -/
theorem Reachable_invariant_witness :
    ((0 : ℚ) ≤ 25 ∧ (25 : ℚ) ≤ 50 ∧ (20 : ℚ) ≤ 40 ∧ (40 : ℚ) ≤ 90) ∧
    (DHT11.CheckTemperatureThreshold
        { temperature_ := 25, humidity_ := 40, data_valid_ := false } 20 true = false ∧
      DHT11.CheckHumidityThreshold
        { temperature_ := 25, humidity_ := 40, data_valid_ := false } 20 true = false) :=
  ⟨(Reachable_invariant { temperature_ := 25, humidity_ := 40, data_valid_ := true }
      (DHT11.Reachable.read 20 DHT11.init pinValid _ _ _ DHT11.Reachable.init
        (pinValid_Read DHT11.init))).1 rfl,
    (Reachable_invariant { temperature_ := 25, humidity_ := 40, data_valid_ := false }
      (DHT11.Reachable.read 20 _ pinBadSum _ _ _
        (DHT11.Reachable.read 20 DHT11.init pinValid _ _ _ DHT11.Reachable.init
          (pinValid_Read DHT11.init))
        (pinBadSum_Read _))).2.2.2 rfl 20 true⟩

/-! ## C16: the latch as a function of (enabled, latch, value) -/

/-- The temperature block on a valid reading. -/
theorem CheckTemperature_function (b : CompactWifiBoard)
    (hv : b.dht11_sensor_.data_valid_ = true) (t : ℚ) (ht : t = b.dht11_sensor_.temperature_) :
    (CompactWifiBoard.CheckTemperature b t).1.temperature_triggered_ =
      (if b.temperature_trigger_enabled_ = true ∧ b.temperature_triggered_ = false
        then decide (t ≥ b.temperature_threshold_)
        else (b.temperature_triggered_ &&
          !decide (t < f32sub b.temperature_threshold_ (1 / 2)))) ∧
    CompactWifiBoard.temperatureAlerts (CompactWifiBoard.CheckTemperature b t).2 =
      (if b.temperature_trigger_enabled_ = true ∧ b.temperature_triggered_ = false ∧
          t ≥ b.temperature_threshold_ then [t] else []) := by
  subst ht
  unfold CompactWifiBoard.CheckTemperature DHT11.CheckTemperatureThreshold
  rw [hv]
  generalize f32sub b.temperature_threshold_ (1 / 2) = m
  cases he : b.temperature_trigger_enabled_ <;> cases hl : b.temperature_triggered_ <;>
    by_cases h1 : b.dht11_sensor_.temperature_ ≥ b.temperature_threshold_ <;>
    by_cases h2 : b.dht11_sensor_.temperature_ < m <;>
    simp [h1, h2, he, hl, CompactWifiBoard.temperatureAlerts]

/-- The humidity block on a valid reading. -/
theorem CheckHumidity_function (b : CompactWifiBoard)
    (hv : b.dht11_sensor_.data_valid_ = true) (u : ℚ) (hu : u = b.dht11_sensor_.humidity_) :
    (CompactWifiBoard.CheckHumidity b u).1.humidity_triggered_ =
      (if b.humidity_trigger_enabled_ = true ∧ b.humidity_triggered_ = false
        then decide (u ≥ b.humidity_threshold_)
        else (b.humidity_triggered_ && !decide (u < f32sub b.humidity_threshold_ 5))) ∧
    CompactWifiBoard.humidityCrossings (CompactWifiBoard.CheckHumidity b u).2 =
      (if b.humidity_trigger_enabled_ = true ∧ b.humidity_triggered_ = false ∧
          u ≥ b.humidity_threshold_ then [b.humidity_threshold_] else []) := by
  subst hu
  unfold CompactWifiBoard.CheckHumidity DHT11.CheckHumidityThreshold
  rw [hv]
  generalize f32sub b.humidity_threshold_ 5 = m
  cases he : b.humidity_trigger_enabled_ <;> cases hl : b.humidity_triggered_ <;>
    by_cases h1 : b.dht11_sensor_.humidity_ ≥ b.humidity_threshold_ <;>
    by_cases h2 : b.dht11_sensor_.humidity_ < m <;>
    simp [h1, h2, he, hl, CompactWifiBoard.humidityCrossings]

/-- C16 (amended): on a successful read with value v, the latch of each quantity after the
poll is an exact function of (enabled, latch before, v).  Enabled and not triggered: the
latch becomes true iff v >= threshold (equality triggers); for temperature the alert
`SendTemperatureAlertToServer v` is emitted exactly then, for humidity exactly then the
crossing is logged and no alert is emitted.  Otherwise (triggered, or disabled): the latch
after the poll is true iff it was true before and not v < threshold - margin (the float
difference; equality does not re-arm), and nothing is emitted.  Hence a disabled quantity
never sets its latch or emits, and whenever something is emitted the latch went from
clear to set, so re-arming and triggering never happen in the same poll. -/
theorem ReadDht11Data_latch_function (fuel : Nat) (b b1 : CompactWifiBoard) (p p1 : Pin)
    (ev : List BoardEvent) (h : CompactWifiBoard.ReadDht11Data fuel b p = some (b1, ev, p1))
    (hv : b1.dht11_sensor_.data_valid_ = true) :
    (b1.temperature_triggered_ =
        (if b.temperature_trigger_enabled_ = true ∧ b.temperature_triggered_ = false
          then decide (b1.dht11_sensor_.GetTemperature ≥ b.temperature_threshold_)
          else (b.temperature_triggered_ &&
            !decide (b1.dht11_sensor_.GetTemperature <
              f32sub b.temperature_threshold_ (1 / 2)))) ∧
      CompactWifiBoard.temperatureAlerts ev =
        (if b.temperature_trigger_enabled_ = true ∧ b.temperature_triggered_ = false ∧
            b1.dht11_sensor_.GetTemperature ≥ b.temperature_threshold_
          then [b1.dht11_sensor_.GetTemperature] else [])) ∧
    (b1.humidity_triggered_ =
        (if b.humidity_trigger_enabled_ = true ∧ b.humidity_triggered_ = false
          then decide (b1.dht11_sensor_.GetHumidity ≥ b.humidity_threshold_)
          else (b.humidity_triggered_ &&
            !decide (b1.dht11_sensor_.GetHumidity < f32sub b.humidity_threshold_ 5))) ∧
      CompactWifiBoard.humidityCrossings ev =
        (if b.humidity_trigger_enabled_ = true ∧ b.humidity_triggered_ = false ∧
            b1.dht11_sensor_.GetHumidity ≥ b.humidity_threshold_
          then [b.humidity_threshold_] else []) ∧
      ∀ e ∈ ev, (∃ t, e = BoardEvent.SendTemperatureAlertToServer t) →
        e = BoardEvent.SendTemperatureAlertToServer b1.dht11_sensor_.GetTemperature) ∧
    (b.temperature_trigger_enabled_ = false →
      (b1.temperature_triggered_ = true → b.temperature_triggered_ = true) ∧
      CompactWifiBoard.temperatureAlerts ev = []) ∧
    (b.humidity_trigger_enabled_ = false →
      (b1.humidity_triggered_ = true → b.humidity_triggered_ = true) ∧
      CompactWifiBoard.humidityCrossings ev = []) ∧
    (CompactWifiBoard.temperatureAlerts ev ≠ [] →
      b.temperature_triggered_ = false ∧ b1.temperature_triggered_ = true) ∧
    (CompactWifiBoard.humidityCrossings ev ≠ [] →
      b.humidity_triggered_ = false ∧ b1.humidity_triggered_ = true) := by
  obtain ⟨e1, e2⟩ := poll_ok fuel b b1 p p1 ev h hv
  obtain ⟨a1, a2, a3, a4, -⟩ := AfterRead_ok { b with dht11_sensor_ := b1.dht11_sensor_ }
  obtain ⟨c1, c2⟩ := CheckTemperature_function { b with dht11_sensor_ := b1.dht11_sensor_ } hv
    b1.dht11_sensor_.temperature_ rfl
  obtain ⟨d1, d2⟩ := CheckHumidity_function { b with dht11_sensor_ := b1.dht11_sensor_ } hv
    b1.dht11_sensor_.humidity_ rfl
  rw [← e1] at a1 a3
  rw [← e2] at a2 a4
  simp only [] at a1 a2 a3 a4 c1 c2 d1 d2
  rw [c1] at a1
  rw [c2] at a2
  rw [d1] at a3
  rw [d2] at a4
  have hsend := (poll_posts_temperature_only fuel b b1 p p1 ev h hv)
  unfold DHT11.GetTemperature DHT11.GetHumidity
  refine ⟨⟨a1, a2⟩, ⟨a3, a4, ?_⟩, ?_, ?_, ?_, ?_⟩
  · intro e he hex
    obtain ⟨t, rfl⟩ := hex
    rcases hsend _ he with ⟨t1, u1, h1⟩ | ⟨t1, h1⟩ | ⟨t1, h1⟩ | h1
    · cases h1
    · cases h1
    · cases h1
    · exact h1
  · intro hd
    rw [a1, a2, if_neg (by rw [hd]; simp), if_neg (by rw [hd]; simp)]
    refine ⟨fun hx => ?_, rfl⟩
    rw [Bool.and_eq_true] at hx
    exact hx.1
  · intro hd
    rw [a3, a4, if_neg (by rw [hd]; simp), if_neg (by rw [hd]; simp)]
    refine ⟨fun hx => ?_, rfl⟩
    rw [Bool.and_eq_true] at hx
    exact hx.1
  · intro hne
    rw [a2] at hne
    rw [a1]
    split_ifs at hne with hc
    · refine ⟨hc.2.1, ?_⟩
      rw [if_pos ⟨hc.1, hc.2.1⟩]
      exact decide_eq_true hc.2.2
    · exact absurd rfl hne
  · intro hne
    rw [a4] at hne
    rw [a3]
    split_ifs at hne with hc
    · refine ⟨hc.2.1, ?_⟩
      rw [if_pos ⟨hc.1, hc.2.1⟩]
      exact decide_eq_true hc.2.2
    · exact absurd rfl hne

theorem boardHot_pinHotHumid_poll :
    CompactWifiBoard.ReadDht11Data 20 boardHot pinHotHumid =
      some (boardAt 30 89 true true,
        [BoardEvent.log_dht11_data 30 89, BoardEvent.log_humidity_over_threshold 88],
        afterExchange pinHotHumid 208 248) := by
  rw [ReadDht11Data_exact 20 _ _ _ 89 0 30 0 119 pinHotHumid_ReadData (by norm_num)
    (by norm_num) (by norm_num) (by norm_num) (by omega) (by omega) 30 89 (by norm_num)
    (by norm_num)]
  unfold CompactWifiBoard.AfterRead CompactWifiBoard.CheckTemperature
    CompactWifiBoard.CheckHumidity DHT11.CheckHumidityThreshold DHT11.CheckTemperatureThreshold
  simp only [boardHot, boardAt, CompactWifiBoard.init, DHT11.GetTemperature,
    DHT11.GetHumidity]
  norm_num [f32sub_29_half, f32sub_29_inv, f32sub_88_5]

theorem boardDisabled_pinWarm_poll :
    CompactWifiBoard.ReadDht11Data 20 boardDisabled pinWarm =
      some ({ boardAt 30 40 false false with temperature_trigger_enabled_ := false },
        [BoardEvent.log_dht11_data 30 40], afterExchange pinWarm 206 246) := by
  rw [ReadDht11Data_exact 20 _ _ _ 40 0 30 0 70 pinWarm_ReadData (by norm_num)
    (by norm_num) (by norm_num) (by norm_num) (by omega) (by omega) 30 40 (by norm_num)
    (by norm_num)]
  unfold CompactWifiBoard.AfterRead CompactWifiBoard.CheckTemperature
    CompactWifiBoard.CheckHumidity DHT11.CheckHumidityThreshold DHT11.CheckTemperatureThreshold
  simp only [boardDisabled, boardAt, CompactWifiBoard.init, DHT11.GetTemperature,
    DHT11.GetHumidity]
  norm_num [f32sub_29_half, f32sub_29_inv, f32sub_88_5]

/-- The latch function at the poll of 30.0 °C and 89.0 %RH by the board as constructed:
both latches are set, one temperature alert is emitted and the humidity crossing is
logged. -/
theorem ReadDht11Data_latch_function_witness :
    CompactWifiBoard.ReadDht11Data 20 CompactWifiBoard.init pinHotHumid =
      some (boardAt 30 89 true true,
        [BoardEvent.log_dht11_data 30 89, BoardEvent.log_temperature_over_threshold 29,
          BoardEvent.SendTemperatureAlertToServer 30,
          BoardEvent.log_humidity_over_threshold 88],
        afterExchange pinHotHumid 208 248) ∧
    (boardAt 30 89 true true).temperature_triggered_ =
      (if CompactWifiBoard.init.temperature_trigger_enabled_ = true ∧
          CompactWifiBoard.init.temperature_triggered_ = false
        then decide ((boardAt 30 89 true true).dht11_sensor_.GetTemperature ≥
          CompactWifiBoard.init.temperature_threshold_)
        else (CompactWifiBoard.init.temperature_triggered_ &&
          !decide ((boardAt 30 89 true true).dht11_sensor_.GetTemperature <
            f32sub CompactWifiBoard.init.temperature_threshold_ (1 / 2)))) :=
  ⟨pinHotHumid_poll,
    (ReadDht11Data_latch_function 20 CompactWifiBoard.init (boardAt 30 89 true true)
      pinHotHumid (afterExchange pinHotHumid 208 248) _ pinHotHumid_poll rfl).1.1⟩

/-- C16 as stated fails in two places.  Humidity: with the trigger enabled and the latch
clear, a poll that reads 89.0 %RH (threshold 88.0) sets the latch, yet no alert fires;
the poll only writes log lines.  Disabled: with the temperature trigger disabled and the
latch clear, a poll that reads 30.0 °C leaves the latch false although 30.0 is not below
threshold - margin = 28.5. -/
theorem ReadDht11Data_latch_function_fails :
    (∃ b1 ev p1,
      CompactWifiBoard.ReadDht11Data 20 boardHot pinHotHumid = some (b1, ev, p1) ∧
      b1.dht11_sensor_.data_valid_ = true ∧
      boardHot.humidity_trigger_enabled_ = true ∧ boardHot.humidity_triggered_ = false ∧
      b1.dht11_sensor_.GetHumidity ≥ boardHot.humidity_threshold_ ∧
      b1.humidity_triggered_ = true ∧
      ev = [BoardEvent.log_dht11_data 30 89, BoardEvent.log_humidity_over_threshold 88]) ∧
    (∃ b1 ev p1,
      CompactWifiBoard.ReadDht11Data 20 boardDisabled pinWarm = some (b1, ev, p1) ∧
      b1.dht11_sensor_.data_valid_ = true ∧
      boardDisabled.temperature_trigger_enabled_ = false ∧
      boardDisabled.temperature_triggered_ = false ∧
      b1.temperature_triggered_ = false ∧
      ¬ (b1.dht11_sensor_.GetTemperature <
        f32sub boardDisabled.temperature_threshold_ (1 / 2))) := by
  refine ⟨⟨_, _, _, boardHot_pinHotHumid_poll, rfl, rfl, rfl, ?_, rfl, rfl⟩,
    ⟨_, _, _, boardDisabled_pinWarm_poll, rfl, rfl, rfl, rfl, ?_⟩⟩
  · simp only [boardAt, boardHot, CompactWifiBoard.init, DHT11.GetHumidity]; norm_num
  · simp only [boardAt, boardDisabled, CompactWifiBoard.init, DHT11.GetTemperature]
    rw [f32sub_29_half]; norm_num
